import Mathlib

/-!
Verification development for the Caldera Bridge theme generator
(`src/code.ts`).  The program derives tonal color palettes from a primary
hex color, lays them out as three variable collections (Base, Theme,
Bridge) in a host variable store with find-or-create-by-name (upsert)
semantics, and exports the store as a nested JSON document.

Shallow embedding conventions:
* JavaScript floating point arithmetic in the repo's own HSL conversion
  code is embedded exactly over `ℚ` (all operations used are exact
  divisions, comparisons and `Math.round`).
* The external `@material/material-color-utilities` palette samplers
  (`TonalPalette.fromHct(...).tone`, `TonalPalette.fromHueAndChroma(...).tone`)
  and the host font loader (`figma.loadFontAsync`) are out-of-repository
  collaborators; they are abstracted as the `Ext` parameter record.
  Hex parsing/printing of the adapter (`argbFromHex` / `hexFromArgb`) is
  modelled concretely on the canonical `#RRGGBB` form, the only form the
  generator itself produces and the spec's canonical representation.
* Colors travel as 8-bit channel triples (`Rgb`); the repo's
  `hexToFigmaColor` divides channels by 255 and the exporter multiplies
  by 255 and rounds, which is the identity on bytes, so the store keeps
  byte triples plus an exact rational alpha.
* The host variable store (`figma.variables`) is embedded as `Store`:
  ordered collections of ordered variables with per-mode values, fresh
  numeric ids, and the exact lookup-by-name/create/append semantics of
  the call sites in `code.ts`.
-/

namespace Caldera

/-- Lower-case hexadecimal digit character, as produced by JavaScript
`Number.prototype.toString(16)` (used by `rgbToHex` in the repo). -/
def hexDigitChar (d : Nat) : Char :=
  if d < 10 then Char.ofNat (48 + d) else Char.ofNat (87 + d)

/-- Value of a hexadecimal digit character; both cases accepted, matching
the external adapter's `parseInt(hex, 16)` digit handling. -/
def hexDigitVal (c : Char) : Option Nat :=
  if 48 ≤ c.toNat ∧ c.toNat ≤ 57 then some (c.toNat - 48)
  else if 97 ≤ c.toNat ∧ c.toNat ≤ 102 then some (c.toNat - 87)
  else if 65 ≤ c.toNat ∧ c.toNat ≤ 70 then some (c.toNat - 55)
  else none

/-- A 24-bit RGB color, one byte per channel. -/
structure Rgb where
  r : Fin 256
  g : Fin 256
  b : Fin 256
deriving DecidableEq, Repr

def parseByte (c1 c2 : Char) : Option (Fin 256) := do
  let a ← hexDigitVal c1
  let b ← hexDigitVal c2
  if h : a * 16 + b < 256 then pure ⟨a * 16 + b, h⟩ else none

def parseHexChars : List Char → Option Rgb
  | ['#', c1, c2, c3, c4, c5, c6] => do
    let r ← parseByte c1 c2
    let g ← parseByte c3 c4
    let b ← parseByte c5 c6
    pure ⟨r, g, b⟩
  | _ => none

/-- Modelled from the spec: hex parsing of the external color adapter
(`argbFromHex`), on the canonical `#RRGGBB` form.  A string that does not
parse is a malformed color (`InvalidColorFormat`); the adapter throws. -/
def parseHex (s : String) : Option Rgb := parseHexChars s.data

/-- Two lower-case hex digits of a byte (`x.toString(16)` padded to
length 2, as in the repo's `rgbToHex`). -/
def byteChars (x : Fin 256) : List Char :=
  [hexDigitChar (x.val / 16), hexDigitChar (x.val % 16)]

/-- `rgbToHex` from `code.ts` (also the format of the external
`hexFromArgb`): `#` followed by six lower-case hex digits. -/
def rgbToHex (c : Rgb) : String :=
  String.mk ('#' :: (byteChars c.r ++ byteChars c.g ++ byteChars c.b))

/-- JavaScript `Math.round`: round half toward positive infinity. -/
def jsRound (q : ℚ) : ℤ := Int.floor (q + 1 / 2)

/-- Rounded HSL triple as returned by `hexToHsl` in `code.ts`. -/
structure Hsl where
  h : ℤ
  s : ℤ
  l : ℤ
deriving DecidableEq, Repr

/-- The RGB→HSL conversion body of `hexToHsl` (`code.ts` lines 40–77),
with exact rational arithmetic in place of JS doubles.  The `switch (max)`
matches the first equal channel in r, g, b order. -/
def rgbToHsl (c : Rgb) : Hsl :=
  let r : ℚ := (c.r.val : ℚ) / 255
  let g : ℚ := (c.g.val : ℚ) / 255
  let b : ℚ := (c.b.val : ℚ) / 255
  let mx := max r (max g b)
  let mn := min r (min g b)
  let l := (mx + mn) / 2
  if mx = mn then
    ⟨0, 0, jsRound (l * 100)⟩
  else
    let d := mx - mn
    let s := if l > 1 / 2 then d / (2 - mx - mn) else d / (mx + mn)
    let h :=
      if mx = r then ((g - b) / d + (if g < b then (6 : ℚ) else 0)) / 6
      else if mx = g then ((b - r) / d + 2) / 6
      else ((r - g) / d + 4) / 6
    ⟨jsRound (h * 360), jsRound (s * 100), jsRound (l * 100)⟩

/-- `hexToHsl` from `code.ts`: parse then convert. -/
def hexToHsl (hex : String) : Option Hsl := (parseHex hex).map rgbToHsl

/-- The `hue2rgb` helper of `hslToRgb` (`code.ts` lines 105–112). -/
def hue2rgb (p q t : ℚ) : ℚ :=
  let t1 := if t < 0 then t + 1 else t
  let t2 := if t1 > 1 then t1 - 1 else t1
  if t2 < 1 / 6 then p + (q - p) * 6 * t2
  else if t2 < 1 / 2 then q
  else if t2 < 2 / 3 then p + (q - p) * (2 / 3 - t2) * 6
  else p

/-- Clamp an integer to a byte.  All values reaching this in the embedded
code are already in `[0, 255]`; the `% 256` is only for totality. -/
def byteOf (n : ℤ) : Fin 256 := ⟨n.toNat % 256, Nat.mod_lt _ (by norm_num)⟩

/-- `hslToRgb` from `code.ts` (lines 95–126), exact over `ℚ`. -/
def hslToRgb (h s l : ℤ) : Rgb :=
  let hq : ℚ := (h : ℚ) / 360
  let sq : ℚ := (s : ℚ) / 100
  let lq : ℚ := (l : ℚ) / 100
  let rgb : ℚ × ℚ × ℚ :=
    if sq = 0 then (lq, lq, lq)
    else
      let q := if lq < 1 / 2 then lq * (1 + sq) else lq + sq - lq * sq
      let p := 2 * lq - q
      (hue2rgb p q (hq + 1 / 3), hue2rgb p q hq, hue2rgb p q (hq - 1 / 3))
  ⟨byteOf (jsRound (rgb.1 * 255)), byteOf (jsRound (rgb.2.1 * 255)),
    byteOf (jsRound (rgb.2.2 * 255))⟩

/-- The out-of-repository collaborators, abstracted: the two external
perceptual palette samplers of `@material/material-color-utilities`
(sampling a seed-anchored tonal palette, and a palette built directly
from a hue/chroma pair, at a given tone) and the host font loader
(`figma.loadFontAsync` viewed as a success predicate on family/style). -/
structure Ext where
  toneOfSeed : Rgb → Nat → Rgb
  toneOfHueChroma : Nat → Nat → Nat → Rgb
  fontLoads : String → String → Bool

/-- `generateTonalPalette` from `code.ts` (lines 80–92): parse the seed,
sample its anchored tonal palette at each requested tone, output keyed by
tone with hex string values.  `none` models the throw on a malformed
seed. -/
def generateTonalPalette (ext : Ext) (hexColor : String) (tones : List Nat) :
    Option (List (Nat × String)) :=
  (parseHex hexColor).map
    (fun seed => tones.map (fun t => (t, rgbToHex (ext.toneOfSeed seed t))))

/-- `generateNeutralFromPrimary` from `code.ts` (lines 137–153): convert
the primary to HSL, rebuild a color with the same hue and lightness but
saturation 2, convert back to hex, and generate its tonal palette. -/
def generateNeutralFromPrimary (ext : Ext) (primaryHex : String)
    (tones : List Nat) : Option (List (Nat × String) × String) := do
  let seed ← parseHex primaryHex
  let hsl := rgbToHsl seed
  let neutralRgb := hslToRgb hsl.h 2 hsl.l
  let neutralHex := rgbToHex neutralRgb
  let palette ← generateTonalPalette ext neutralHex tones
  pure (palette, neutralHex)

/-! ### The token store

`figma.variables` as used by `code.ts`: named collections holding modes
and variables; variables have numeric ids, slash-delimited names, a
resolved type, scopes, and one value per mode.  All call sites look
variables and collections up by name and create-or-update (upsert);
nothing is ever deleted. -/

inductive VarType
  | color
  | float
  | str
  | bool
deriving DecidableEq, Repr

inductive VarValue
  | colorV (rgb : Rgb) (a : ℚ)
  | floatV (x : ℚ)
  | strV (s : String)
  | boolV (b : Bool)
  | aliasV (id : Nat)
deriving DecidableEq, Repr

structure Variable where
  id : Nat
  name : String
  vtype : VarType
  scopes : List String
  values : List (Nat × VarValue)
deriving DecidableEq, Repr

structure Collection where
  name : String
  modes : List (Nat × String)
  vars : List Variable
deriving DecidableEq, Repr

structure Store where
  collections : List Collection
  nextId : Nat
  nextModeId : Nat
deriving DecidableEq, Repr

def emptyStore : Store := ⟨[], 0, 0⟩

def Collection.findVar (c : Collection) (p : String) : Option Variable :=
  c.vars.find? (fun v => v.name == p)

def Store.findColl (s : Store) (n : String) : Option Collection :=
  s.collections.find? (fun c => c.name == n)

def Store.findVarById (s : Store) (i : Nat) : Option Variable :=
  (s.collections.flatMap (fun c => c.vars)).find? (fun v => v.id == i)

def lookupMode (vals : List (Nat × VarValue)) (m : Nat) : Option VarValue :=
  (vals.find? (fun p => p.1 == m)).map (·.2)

/-- `setValueForMode`: replace the value bound to a mode id, keeping its
position, or append a binding for a new mode. -/
def updateModeValue : List (Nat × VarValue) → Nat → VarValue → List (Nat × VarValue)
  | [], m, v => [(m, v)]
  | (k, x) :: t, m, v => if k = m then (m, v) :: t else (k, x) :: updateModeValue t m v

def setModeValue (v : Variable) (m : Nat) (val : VarValue) : Variable :=
  { v with values := updateModeValue v.values m val }

/-- Apply `f` to the first variable with the given name (the object the
`find` at each call site returns), leaving the rest untouched. -/
def modifyVarByName : List Variable → String → (Variable → Variable) → List Variable
  | [], _, _ => []
  | v :: t, p, f => if v.name = p then f v :: t else v :: modifyVarByName t p f

def modifyCollByName : List Collection → String → (Collection → Collection) → List Collection
  | [], _, _ => []
  | c :: t, n, f => if c.name = n then f c :: t else c :: modifyCollByName t n f

/-- Append a freshly created variable to a collection. -/
def appendVarF (i : Nat) (path : String) (ty : VarType) (c : Collection) : Collection :=
  { c with vars := c.vars ++ [⟨i, path, ty, [], []⟩] }

/-- Update the named variable's value for one mode. -/
def setValF (path : String) (m : Nat) (val : VarValue) (c : Collection) : Collection :=
  { c with vars := modifyVarByName c.vars path (fun v => setModeValue v m val) }

/-- Update the named variable's scopes. -/
def setScopesF (path : String) (sc : List String) (c : Collection) : Collection :=
  { c with vars := modifyVarByName c.vars path (fun v => { v with scopes := sc }) }

/-- Find-or-create a variable by exact name (`createColorVariable`,
`upsertVariable`, `upsertBridgeVariable`, and the corner/spacing/
typography upsert blocks all follow this shape). -/
def Store.upsertVar (s : Store) (collName path : String) (ty : VarType) : Store :=
  match s.findColl collName with
  | none => s
  | some c =>
    match c.findVar path with
    | some _ => s
    | none =>
      { s with
        collections := modifyCollByName s.collections collName (appendVarF s.nextId path ty),
        nextId := s.nextId + 1 }

def Store.setVarValue (s : Store) (collName path : String) (m : Nat)
    (val : VarValue) : Store :=
  { s with collections := modifyCollByName s.collections collName (setValF path m val) }

def Store.setVarScopes (s : Store) (collName path : String) (sc : List String) : Store :=
  { s with collections := modifyCollByName s.collections collName (setScopesF path sc) }

/-- Find-or-create a collection and rename its first mode (the shared
preamble of `createBaseCollection` / `createThemeCollection` /
`createBridgeCollection`). -/
def Store.ensureColl (s : Store) (n mode0Name : String) : Store :=
  match s.findColl n with
  | some _ =>
    { s with
      collections := modifyCollByName s.collections n
        (fun c => { c with modes := match c.modes with
                                    | [] => []
                                    | (i, _) :: t => (i, mode0Name) :: t }) }
  | none =>
    { s with
      collections := s.collections ++ [⟨n, [(s.nextModeId, mode0Name)], []⟩],
      nextModeId := s.nextModeId + 1 }

def Collection.mode0 (c : Collection) : Nat := (c.modes.head?.map (·.1)).getD 0

def Store.collMode0 (s : Store) (n : String) : Nat :=
  ((s.findColl n).map Collection.mode0).getD 0

def Store.addMode (s : Store) (collName modeName : String) : Store :=
  { s with
    collections := modifyCollByName s.collections collName
      (fun c => { c with modes := c.modes ++ [(s.nextModeId, modeName)] }),
    nextModeId := s.nextModeId + 1 }

def Store.themeDarkId (s : Store) : Option Nat :=
  (s.findColl "Theme").bind
    (fun c => (c.modes.find? (fun m => m.2 == "Dark")).map (·.1))

/-- `createThemeCollection` lines 492–495: add a Dark mode only when no
mode of that name exists. -/
def Store.ensureThemeDark (s : Store) : Store :=
  match s.themeDarkId with
  | some _ => s
  | none => s.addMode "Theme" "Dark"

/-- Observation: the variable a collection resolves a path to. -/
def Store.varState (s : Store) (collName path : String) : Option Variable :=
  (s.findColl collName).bind (fun c => c.findVar path)

/-- Observation: a variable's value in a given mode. -/
def Store.valueAt (s : Store) (collName path : String) (m : Nat) : Option VarValue :=
  (s.varState collName path).bind (fun v => lookupMode v.values m)

/-! ### Pipeline steps

Every variable write of the generation pipeline is one of these actions
on a (collection, path) target; the pipeline below is a fold of step
lists mirroring the statement order of `code.ts`. -/

inductive Act
  | ensure (ty : VarType)
  | writeColor (m : Nat) (hex : String) (a : ℚ)
  | writeLit (ty : VarType) (m : Nat) (val : VarValue) (sc : Option (List String))
  | setAlias (m : Nat) (tcoll tpath : String)
  | setAliasOr (ty : VarType) (m : Nat) (tcoll tpath : String) (fallback : VarValue)
deriving DecidableEq, Repr

structure Step where
  coll : String
  path : String
  act : Act
deriving DecidableEq, Repr

def applyStep (s : Store) (st : Step) : Store :=
  match st.act with
  | .ensure ty => s.upsertVar st.coll st.path ty
  | .writeColor m hex a =>
    match parseHex hex with
    | none => s
    | some rgb =>
      (s.upsertVar st.coll st.path .color).setVarValue st.coll st.path m (.colorV rgb a)
  | .writeLit ty m val sc =>
    match sc with
    | none => (s.upsertVar st.coll st.path ty).setVarValue st.coll st.path m val
    | some l =>
      ((s.upsertVar st.coll st.path ty).setVarValue st.coll st.path m val).setVarScopes
        st.coll st.path l
  | .setAlias m tcoll tpath =>
    match (s.findColl tcoll).bind (fun c => c.findVar tpath) with
    | some tv => s.setVarValue st.coll st.path m (.aliasV tv.id)
    | none => s
  | .setAliasOr ty m tcoll tpath fb =>
    match ((s.upsertVar st.coll st.path ty).findColl tcoll).bind (fun c => c.findVar tpath) with
    | some tv => (s.upsertVar st.coll st.path ty).setVarValue st.coll st.path m (.aliasV tv.id)
    | none => (s.upsertVar st.coll st.path ty).setVarValue st.coll st.path m fb

def applySteps (s : Store) (steps : List Step) : Store := steps.foldl applyStep s

/-! ### Generation inputs -/

structure FontName where
  family : String
  style : String
deriving DecidableEq, Repr

/-- The `generate-theme` message payload (`figma.ui.onmessage`); fields
the UI may omit are `Option` and take their JS default-parameter values
at the call sites that declare them. -/
structure GenMsg where
  hex : String
  neutralHex : Option String
  successHex : Option String
  warningHex : Option String
  infoHex : Option String
  failureHex : Option String
  cornerRadiusLevel : Option ℤ
  displayFont : Option FontName
  headerFont : Option FontName
  primaryFont : Option FontName
  dataFont : Option FontName
  modalBackgroundEnabled : Option Bool
  modalPaddingSize : Option String
  headerIconsPairingEnabled : Option Bool
  headerBackgroundEnabled : Option Bool
deriving DecidableEq, Repr

inductive GenError
  | invalidColorFormat
  | collectionsError
deriving DecidableEq, Repr

/-- Character-list prefix test (kernel-reducible replacement for the
byte-position based `String.startsWith`). -/
def subAt : List Char → List Char → Bool
  | [], _ => true
  | _ :: _, [] => false
  | a :: as, b :: bs => a == b && subAt as bs

def strStartsWith (s pre : String) : Bool := subAt pre.data s.data

/-- Substring test (`String.prototype.includes`). -/
def hasSubChars (sub : List Char) : List Char → Bool
  | [] => subAt sub []
  | c :: t => subAt sub (c :: t) || hasSubChars sub t

def hasSubstr (s sub : String) : Bool := hasSubChars sub.data s.data

/-! ### Tone lists and tables (constants of `code.ts`) -/

def fullTones : List Nat :=
  [1, 2, 3, 4, 5, 6, 7, 8, 9, 10, 15, 20, 25, 30, 35, 40, 50, 60, 70, 80,
   85, 90, 91, 92, 93, 94, 95, 96, 97, 98, 99]

def primaryTones : List Nat :=
  [5, 10, 15, 20, 25, 30, 35, 40, 50, 60, 70, 80, 90, 95, 98, 99]

def neutralTones : List Nat := fullTones

def statusTones : List Nat := primaryTones

/-- `primaryAlphaTones`, `neutralAlphaTones` and `alphaRange` are the
same list in the source. -/
def alphaRange : List Nat := [10, 20, 30, 40, 50, 60, 70, 80, 90]

def cornersTable : List (String × ℚ) :=
  [("2", 2), ("4", 4), ("8", 8), ("12", 12), ("16", 16), ("24", 24),
   ("48", 48), ("96", 96), ("None", 0), ("Circle", 9999)]

def spacingTable : List (String × ℚ) :=
  [("0", 0), ("1", 8), ("2", 16), ("3", 24), ("4", 32), ("5", 40),
   ("6", 48), ("7", 56), ("8", 64), ("9", 72), ("10", 80), ("11", 88),
   ("12", 96), ("-1", -8), ("-1-2", -4), ("-1-4", -2), ("1-4", 2), ("1-2", 4)]

/-- The numeric fallback table of the Bridge `Modal/Padding` write
(`code.ts` lines 708–711). -/
def spacingValues : List (String × ℚ) :=
  [("0", 0), ("1", 8), ("2", 16), ("3", 24), ("4", 32), ("5", 40),
   ("6", 48), ("7", 56), ("8", 64), ("9", 72), ("10", 80), ("11", 88), ("12", 96)]

/-- `spacingValues[modalPaddingSize] || 16`: an absent key (JS
`undefined`) and the value `0` are both falsy and yield 16. -/
def paddingFallback (mps : String) : ℚ :=
  let v := ((spacingValues.find? (fun p => p.1 == mps)).map (·.2)).getD 0
  if v = 0 then 16 else v

/-! ### Base collection steps -/

def lookupTone (cs : List (Nat × String)) (t : Nat) : Option String :=
  (cs.find? (fun p => p.1 == t)).map (·.2)

def colorStep (m : Nat) (path hex : String) (a : ℚ) : Step :=
  ⟨"Base", path, .writeColor m hex a⟩

/-- Palette tone writes: one `createColorVariable` per tone present in
the palette map. -/
def toneVarSteps (m : Nat) (group : String) (tones : List Nat)
    (cs : List (Nat × String)) : List Step :=
  tones.filterMap (fun t =>
    (lookupTone cs t).map
      (fun h => colorStep m ("Colors/" ++ group ++ "/" ++ toString t) h 1))

def alphaVarSteps (m : Nat) (group hex : String) : List Step :=
  alphaRange.map (fun t =>
    colorStep m ("Colors/" ++ group ++ "/Alpha/" ++ toString t) hex ((t : ℚ) / 100))

/-- One status palette section of `createBaseCollection` (lines 298–329):
with an override seed, the palette is `generateTonalPalette(override)`
and the base is the override itself; otherwise the palette and tone-50
base come from `TonalPalette.fromHueAndChroma`.  `none` models the throw
of `generateTonalPalette` on a malformed override. -/
def statusSection (ext : Ext) (m : Nat) (name : String) (hue chroma : Nat)
    (ov : Option String) : Option (List Step) :=
  match ov with
  | some o =>
    (parseHex o).map (fun seed =>
      let palette := statusTones.map (fun t => (t, rgbToHex (ext.toneOfSeed seed t)))
      toneVarSteps m name statusTones palette ++
        [colorStep m ("Colors/" ++ name ++ "/Base") o 1])
  | none =>
    let palette := statusTones.map (fun t => (t, rgbToHex (ext.toneOfHueChroma hue chroma t)))
    let baseHex := rgbToHex (ext.toneOfHueChroma hue chroma 50)
    some (toneVarSteps m name statusTones palette ++
      [colorStep m ("Colors/" ++ name ++ "/Base") baseHex 1])

def whiteBlackSteps (m : Nat) : List Step :=
  [colorStep m "Colors/White/100" "#FFFFFF" 1] ++
  alphaRange.map (fun a => colorStep m ("Colors/White/" ++ toString a) "#FFFFFF" ((a : ℚ) / 100)) ++
  [colorStep m "Colors/Black/100" "#000000" 1] ++
  alphaRange.map (fun a => colorStep m ("Colors/Black/" ++ toString a) "#000000" ((a : ℚ) / 100))

def cornerSteps (m : Nat) : List Step :=
  cornersTable.map (fun p =>
    ⟨"Base", "Corners/" ++ p.1, .writeLit .float m (.floatV p.2) (some ["CORNER_RADIUS"])⟩)

def spacingSteps (m : Nat) : List Step :=
  spacingTable.map (fun p =>
    ⟨"Base", "Spacing/" ++ p.1,
      .writeLit .float m (.floatV p.2)
        (some (if strStartsWith p.1 "-" then ["ALL_SCOPES"] else ["WIDTH_HEIGHT", "GAP"]))⟩)

/-! ### Typography fallback chain -/

def typographyRoles : List String := ["Display", "Header", "Primary", "Data"]

def typDefault (role : String) : FontName :=
  if role = "Display" then ⟨"Inter", "Bold"⟩
  else if role = "Header" then ⟨"Inter", "SemiBold"⟩
  else if role = "Primary" then ⟨"Inter", "Regular"⟩
  else ⟨"Space Mono", "Regular"⟩

def fontOverrideFor (msg : GenMsg) (role : String) : Option FontName :=
  if role = "Display" then msg.displayFont
  else if role = "Header" then msg.headerFont
  else if role = "Primary" then msg.primaryFont
  else if role = "Data" then msg.dataFont
  else none

/-- JS `x || y` on strings: the empty string falls through. -/
def orDefault (s d : String) : String := if s = "" then d else s

def targetFont (ov : Option FontName) (d : FontName) : FontName :=
  match ov with
  | some o => ⟨orDefault o.family d.family, orDefault o.style d.style⟩
  | none => d

/-- The nested try/catch font chain of `createBaseCollection`
(lines 413–446): requested font (override or role default), then the role
default, then the ultimate fallback Inter Regular; `none` when all three
loads fail (the role is skipped). -/
def resolveFont (loads : String → String → Bool) (ov : Option FontName)
    (d : FontName) : Option FontName :=
  let tgt := targetFont ov d
  if loads tgt.family tgt.style then some tgt
  else if loads d.family d.style then some d
  else if loads "Inter" "Regular" then some ⟨"Inter", "Regular"⟩
  else none

def typographySteps (ext : Ext) (msg : GenMsg) (m : Nat) : List Step :=
  (typographyRoles.map (fun role =>
    match resolveFont ext.fontLoads (fontOverrideFor msg role) (typDefault role) with
    | none => []
    | some f =>
      [⟨"Base", "Typography/" ++ role ++ "/Font",
         .writeLit .str m (.strV f.family) (some ["TEXT_CONTENT", "FONT_FAMILY"])⟩,
       ⟨"Base", "Typography/" ++ role ++ "/Style",
         .writeLit .str m (.strV f.style) (some ["FONT_STYLE"])⟩])).flatten

/-! ### Theme collection steps -/

/-- The three writes of one `createAliasVariable` call: upsert by name,
then alias each mode to the Base variable of the given name when it
exists. -/
def aliasSteps (ty : VarType) (lId dId : Nat) (path lightT darkT : String) : List Step :=
  [⟨"Theme", path, .ensure ty⟩,
   ⟨"Theme", path, .setAlias lId "Base" lightT⟩,
   ⟨"Theme", path, .setAlias dId "Base" darkT⟩]

/-- One row of the Theme schema: variable type, Theme path, light-mode
Base target, dark-mode Base target. -/
structure ThemeEntry where
  ty : VarType
  path : String
  light : String
  dark : String
deriving DecidableEq, Repr

structure CornerMap where
  cNone : String
  cXS : String
  cSM : String
  cBase : String
  cLG : String
  cXL : String
deriving DecidableEq, Repr

/-- The five corner-radius density levels (`code.ts` lines 612–623). -/
def cornerMappings : List CornerMap :=
  [⟨"Corners/None", "Corners/None", "Corners/None", "Corners/None", "Corners/None", "Corners/None"⟩,
   ⟨"Corners/2", "Corners/2", "Corners/2", "Corners/2", "Corners/2", "Corners/2"⟩,
   ⟨"Corners/None", "Corners/2", "Corners/4", "Corners/8", "Corners/12", "Corners/16"⟩,
   ⟨"Corners/2", "Corners/4", "Corners/8", "Corners/16", "Corners/24", "Corners/48"⟩,
   ⟨"Corners/2", "Corners/8", "Corners/16", "Corners/24", "Corners/48", "Corners/96"⟩]

/-- `cornerMappings[cornerRadiusLevel] || cornerMappings[3]`: a negative
or too-large index reads JS `undefined` and falls back to level 3. -/
def cornerMappingFor (lvl : ℤ) : CornerMap :=
  ((if 0 ≤ lvl then cornerMappings.get? lvl.toNat else none)).getD
    ⟨"Corners/2", "Corners/4", "Corners/8", "Corners/16", "Corners/24", "Corners/48"⟩

/-- The `createAliasVariable` calls of `createThemeCollection` before the
corner block, in source order (lines 542–606). -/
def themeTableMain : List ThemeEntry :=
  [⟨.color, "Background/Main", "Colors/Neutral/90", "Colors/Neutral/15"⟩,
   ⟨.color, "Background/Layer 1", "Colors/Neutral/99", "Colors/Neutral/30"⟩,
   ⟨.color, "Background/Layer 2", "Colors/Neutral/96", "Colors/Neutral/25"⟩,
   ⟨.color, "Background/Layer 3", "Colors/Neutral/93", "Colors/Neutral/20"⟩,
   ⟨.color, "Text/Primary", "Colors/Neutral/10", "Colors/Neutral/98"⟩,
   ⟨.color, "Text/Secondary", "Colors/Neutral/40", "Colors/Neutral/90"⟩,
   ⟨.color, "Text/Disabled", "Colors/Neutral/Alpha/50", "Colors/White/100"⟩,
   ⟨.color, "Interactive/Primary/Active", "Colors/Primary/60", "Colors/Primary/60"⟩,
   ⟨.color, "Interactive/Primary/Hover", "Colors/Primary/70", "Colors/Primary/40"⟩,
   ⟨.color, "Interactive/Primary/Inactive", "Colors/Primary/95", "Colors/Primary/95"⟩,
   ⟨.color, "Interactive/Primary/Disabled", "Colors/Neutral/Alpha/30", "Colors/Neutral/Alpha/30"⟩,
   ⟨.color, "Interactive/Primary/Contrast", "Colors/Primary/98", "Colors/Primary/5"⟩,
   ⟨.color, "Interactive/Secondary/Active", "Colors/Primary/40", "Colors/Primary/70"⟩,
   ⟨.color, "Interactive/Secondary/Hover", "Colors/Primary/50", "Colors/Primary/50"⟩,
   ⟨.color, "Interactive/Secondary/Inactive", "Colors/Neutral/40", "Colors/Neutral/85"⟩,
   ⟨.color, "Interactive/Secondary/Disabled", "Colors/Neutral/Alpha/30", "Colors/Neutral/Alpha/30"⟩,
   ⟨.color, "Interactive/Secondary/Contrast", "Colors/Primary/98", "Colors/Primary/5"⟩,
   ⟨.color, "Interactive/Tertiary/Active", "Colors/Neutral/40", "Colors/Neutral/90"⟩,
   ⟨.color, "Interactive/Tertiary/Hover", "Colors/Neutral/95", "Colors/Neutral/80"⟩,
   ⟨.color, "Interactive/Tertiary/Inactive", "Colors/Neutral/85", "Colors/White/20"⟩,
   ⟨.color, "Interactive/Tertiary/Disabled", "Colors/Neutral/Alpha/30", "Colors/White/10"⟩,
   ⟨.color, "Interactive/Tertiary/Contrast", "Colors/Neutral/98", "Colors/Neutral/10"⟩,
   ⟨.color, "Interactive/Input/Active", "Colors/Neutral/Alpha/10", "Colors/Neutral/Alpha/10"⟩,
   ⟨.color, "Interactive/Input/Inactive", "Colors/Neutral/Alpha/20", "Colors/Neutral/Alpha/20"⟩,
   ⟨.color, "Status/Warning/Main", "Colors/Warning/80", "Colors/Warning/80"⟩,
   ⟨.color, "Status/Warning/Foreground", "Colors/Warning/5", "Colors/Warning/5"⟩,
   ⟨.color, "Status/Warning/Light", "Colors/Warning/95", "Colors/Warning/40"⟩,
   ⟨.color, "Status/Warning/Dark", "Colors/Warning/40", "Colors/Warning/95"⟩,
   ⟨.color, "Status/Info/Main", "Colors/Info/50", "Colors/Info/50"⟩,
   ⟨.color, "Status/Info/Foreground", "Colors/Info/99", "Colors/Neutral/99"⟩,
   ⟨.color, "Status/Info/Light", "Colors/Info/90", "Colors/Info/20"⟩,
   ⟨.color, "Status/Info/Dark", "Colors/Info/20", "Colors/Info/90"⟩,
   ⟨.color, "Status/Failure/Main", "Colors/Failure/60", "Colors/Failure/60"⟩,
   ⟨.color, "Status/Failure/Foreground", "Colors/Failure/99", "Colors/Failure/99"⟩,
   ⟨.color, "Status/Failure/Light", "Colors/Failure/90", "Colors/Failure/20"⟩,
   ⟨.color, "Status/Failure/Dark", "Colors/Failure/20", "Colors/Failure/90"⟩,
   ⟨.color, "Status/Success/Main", "Colors/Success/90", "Colors/Success/90"⟩,
   ⟨.color, "Status/Success/Foreground", "Colors/Success/5", "Colors/Success/5"⟩,
   ⟨.color, "Status/Success/Light", "Colors/Success/98", "Colors/Success/30"⟩,
   ⟨.color, "Status/Success/Dark", "Colors/Success/30", "Colors/Success/98"⟩]

/-- The corner alias block (lines 629–635): the six density tokens follow
the selected mapping; `Corners/Circle` is fixed. -/
def themeTableCorners (lvl : ℤ) : List ThemeEntry :=
  [⟨.float, "Corners/None", (cornerMappingFor lvl).cNone, (cornerMappingFor lvl).cNone⟩,
   ⟨.float, "Corners/XS", (cornerMappingFor lvl).cXS, (cornerMappingFor lvl).cXS⟩,
   ⟨.float, "Corners/SM", (cornerMappingFor lvl).cSM, (cornerMappingFor lvl).cSM⟩,
   ⟨.float, "Corners/Base", (cornerMappingFor lvl).cBase, (cornerMappingFor lvl).cBase⟩,
   ⟨.float, "Corners/LG", (cornerMappingFor lvl).cLG, (cornerMappingFor lvl).cLG⟩,
   ⟨.float, "Corners/XL", (cornerMappingFor lvl).cXL, (cornerMappingFor lvl).cXL⟩,
   ⟨.float, "Corners/Circle", "Corners/Circle", "Corners/Circle"⟩]

/-- Misc and Brand aliases (lines 638–643). -/
def themeTableTail : List ThemeEntry :=
  [⟨.color, "Misc/Divider", "Colors/Black/10", "Colors/White/10"⟩,
   ⟨.color, "Misc/Footer", "Colors/Black/50", "Colors/White/50"⟩,
   ⟨.color, "Misc/Skeleton", "Colors/Black/10", "Colors/White/10"⟩,
   ⟨.color, "Brand", "Colors/Primary/Base", "Colors/Primary/Base"⟩]

def themeAliasTable (lvl : ℤ) : List ThemeEntry :=
  themeTableMain ++ themeTableCorners lvl ++ themeTableTail

def themeEntrySteps (lId dId : Nat) (e : ThemeEntry) : List Step :=
  aliasSteps e.ty lId dId e.path e.light e.dark

/-- All `createAliasVariable` calls of `createThemeCollection`, in source
order (lines 542–643). -/
def themeSteps (lId dId : Nat) (lvl : ℤ) : List Step :=
  (themeAliasTable lvl).flatMap (themeEntrySteps lId dId)

/-! ### Bridge collection steps -/

/-- `createBridgeCollection` writes (lines 668–746), with the JS default
parameter values already applied by the caller. -/
def bridgeSteps (bm : Nat) (mbe : Bool) (mps : String) (hip hbe : Bool) : List Step :=
  [⟨"Bridge", "Modal/Background", .ensure .color⟩] ++
  (if mbe then [⟨"Bridge", "Modal/Background", .setAlias bm "Theme" "Background/Main"⟩]
   else [⟨"Bridge", "Modal/Background", .writeLit .color bm (.colorV ⟨0, 0, 0⟩ 0) none⟩]) ++
  (if mbe then
     [⟨"Bridge", "Modal/Padding",
        .setAliasOr .float bm "Base" ("Spacing/" ++ mps) (.floatV (paddingFallback mps))⟩]
   else [⟨"Bridge", "Modal/Padding", .writeLit .float bm (.floatV 0) none⟩]) ++
  [⟨"Bridge", "Header/Icons Pairing", .writeLit .bool bm (.boolV hip) none⟩] ++
  [⟨"Bridge", "Header/Background", .ensure .color⟩] ++
  (if hbe then [⟨"Bridge", "Header/Background", .setAlias bm "Theme" "Misc/Divider"⟩]
   else [⟨"Bridge", "Header/Background", .writeLit .color bm (.colorV ⟨0, 0, 0⟩ 0) none⟩])

/-! ### The generation pipeline -/

/-- Data the message handler computes before `createFigmaVariables`:
the primary palette, the neutral palette and the neutral base hex. -/
structure HandlerData where
  primary : List (Nat × String)
  neutral : List (Nat × String)
  neutralBaseHex : String
deriving DecidableEq, Repr

/-- Handler lines 1035–1042: a supplied neutral hex is used as palette
seed and base; otherwise both are derived from the primary. -/
def neutralData (ext : Ext) (msg : GenMsg) : Option (List (Nat × String) × String) :=
  match msg.neutralHex with
  | some nh => (generateTonalPalette ext nh fullTones).map (fun p => (p, nh))
  | none => generateNeutralFromPrimary ext msg.hex fullTones

/-- Handler lines 1045–1053: an optional override is validated by
generating its (discarded) full palette. -/
def optPaletteOk (ext : Ext) (o : Option String) : Bool :=
  match o with
  | none => true
  | some h => (generateTonalPalette ext h fullTones).isSome

/-- The primary and neutral palette sections of `createBaseCollection`
(lines 235–269), written before any status section. -/
def basePreSteps (msg : GenMsg) (hd : HandlerData) (m : Nat) : List Step :=
  toneVarSteps m "Primary" primaryTones hd.primary ++
  [colorStep m "Colors/Primary/Base" msg.hex 1] ++
  alphaVarSteps m "Primary" msg.hex ++
  toneVarSteps m "Neutral" neutralTones hd.neutral ++
  [colorStep m "Colors/Neutral/Base" hd.neutralBaseHex 1] ++
  alphaVarSteps m "Neutral" hd.neutralBaseHex

/-- The white/black, corner, spacing and typography sections of
`createBaseCollection` (lines 331–474), written after the status
sections. -/
def baseTailSteps (ext : Ext) (msg : GenMsg) (m : Nat) : List Step :=
  whiteBlackSteps m ++ cornerSteps m ++ spacingSteps m ++ typographySteps ext msg m

/-- `createBaseCollection`: ensure the collection, then apply the write
sections in source order.  A malformed status override hex throws midway
(`generateTonalPalette` at line 306), leaving the sections already
applied in place; the `Option GenError` records where. -/
def buildBase (ext : Ext) (msg : GenMsg) (hd : HandlerData) (s : Store) :
    Store × Option GenError :=
  let s1 := s.ensureColl "Base" "Caldera"
  let m := s1.collMode0 "Base"
  let sPre := applySteps s1 (basePreSteps msg hd m)
  match statusSection ext m "Success" 150 66 msg.successHex with
  | none => (sPre, some .collectionsError)
  | some suc =>
    let sSuc := applySteps sPre suc
    match statusSection ext m "Warning" 40 70 msg.warningHex with
    | none => (sSuc, some .collectionsError)
    | some war =>
      let sWar := applySteps sSuc war
      match statusSection ext m "Info" 260 84 msg.infoHex with
      | none => (sWar, some .collectionsError)
      | some inf =>
        let sInf := applySteps sWar inf
        match statusSection ext m "Failure" 25 84 msg.failureHex with
        | none => (sInf, some .collectionsError)
        | some fal =>
          (applySteps sInf (fal ++ baseTailSteps ext msg m), none)

/-- `createFigmaVariables`: Base, then Theme, then Bridge; an error from
Base creation is caught at the top (collections already written stay in
place, Theme/Bridge are not touched). -/
def buildAll (ext : Ext) (msg : GenMsg) (hd : HandlerData) (s0 : Store) :
    Store × Option GenError :=
  match buildBase ext msg hd s0 with
  | (s, some e) => (s, some e)
  | (sB, none) =>
    let sT0 := (sB.ensureColl "Theme" "Light").ensureThemeDark
    let lId := sT0.collMode0 "Theme"
    let dId := sT0.themeDarkId.getD 0
    let sT := applySteps sT0 (themeSteps lId dId (msg.cornerRadiusLevel.getD 3))
    let sBr0 := sT.ensureColl "Bridge" "Default"
    let bm := sBr0.collMode0 "Bridge"
    let sBr := applySteps sBr0
      (bridgeSteps bm (msg.modalBackgroundEnabled.getD true)
        (msg.modalPaddingSize.getD "2") (msg.headerIconsPairingEnabled.getD true)
        (msg.headerBackgroundEnabled.getD false))
    (sBr, none)

/-- The full `generate-theme` message handler: palette derivation and
validation (throwing before any store write on a malformed primary,
neutral, success, warning or info hex), then `createFigmaVariables`. -/
def runGenerate (ext : Ext) (msg : GenMsg) (s0 : Store) : Store × Option GenError :=
  match generateTonalPalette ext msg.hex fullTones with
  | none => (s0, some .invalidColorFormat)
  | some primaryPalette =>
    match neutralData ext msg with
    | none => (s0, some .invalidColorFormat)
    | some nd =>
      if optPaletteOk ext msg.successHex then
        if optPaletteOk ext msg.warningHex then
          if optPaletteOk ext msg.infoHex then
            buildAll ext msg ⟨primaryPalette, nd.1, nd.2⟩ s0
          else (s0, some .invalidColorFormat)
        else (s0, some .invalidColorFormat)
      else (s0, some .invalidColorFormat)

/-- A status section under a validated override: `statusSection` never
fails there, so take its value. -/
def statusSectionOk (ext : Ext) (m : Nat) (name : String) (hue chroma : Nat)
    (ov : Option String) : List Step :=
  (statusSection ext m name hue chroma ov).getD []

/-- All Base writes of a fully valid run, in source order. -/
def baseStepsOk (ext : Ext) (msg : GenMsg) (hd : HandlerData) (m : Nat) : List Step :=
  basePreSteps msg hd m ++
  statusSectionOk ext m "Success" 150 66 msg.successHex ++
  statusSectionOk ext m "Warning" 40 70 msg.warningHex ++
  statusSectionOk ext m "Info" 260 84 msg.infoHex ++
  statusSectionOk ext m "Failure" 25 84 msg.failureHex ++
  baseTailSteps ext msg m

/-- The final store of a fully valid run starting from `s0`: ensure and
fill Base, then Theme, then Bridge.  `buildAll` agrees with this whenever
all status overrides validate. -/
def buildAllOk (ext : Ext) (msg : GenMsg) (hd : HandlerData) (s0 : Store) : Store :=
  let s1 := s0.ensureColl "Base" "Caldera"
  let sB := applySteps s1 (baseStepsOk ext msg hd (s1.collMode0 "Base"))
  let sT0 := (sB.ensureColl "Theme" "Light").ensureThemeDark
  let sT := applySteps sT0
    (themeSteps (sT0.collMode0 "Theme") (sT0.themeDarkId.getD 0) (msg.cornerRadiusLevel.getD 3))
  let sBr0 := sT.ensureColl "Bridge" "Default"
  applySteps sBr0
    (bridgeSteps (sBr0.collMode0 "Bridge") (msg.modalBackgroundEnabled.getD true)
      (msg.modalPaddingSize.getD "2") (msg.headerIconsPairingEnabled.getD true)
      (msg.headerBackgroundEnabled.getD false))

/-- The store a `generate-theme` message leaves behind when run against
an empty store. -/
def runStore (ext : Ext) (msg : GenMsg) : Store := (runGenerate ext msg emptyStore).1

/-! ### Export codec (`exportThemeAsJson`, lines 781–998) -/

inductive Json
  | obj (fields : List (String × Json))
  | arr (elems : List Json)
  | str (s : String)
  | num (q : ℚ)
  | bool (b : Bool)
  | null
deriving Repr

/-- JS object property assignment: replace in place or append. -/
def setField : List (String × Json) → String → Json → List (String × Json)
  | [], k, v => [(k, v)]
  | (k0, v0) :: t, k, v => if k0 = k then (k, v) :: t else (k0, v0) :: setField t k v

def getField (fs : List (String × Json)) (k : String) : Option Json :=
  (fs.find? (fun p => p.1 == k)).map (·.2)

/-- The nested-bucket walk `if (!current[p]) current[p] = {}; current =
current[p]` followed by a leaf assignment at the last segment. -/
def insertPath : List (String × Json) → List String → Json → List (String × Json)
  | fs, [], _ => fs
  | fs, [k], leaf => setField fs k leaf
  | fs, k :: rest, leaf =>
    let sub := match getField fs k with
      | some (Json.obj g) => g
      | _ => []
    setField fs k (Json.obj (insertPath sub rest leaf))

/-- Path lookup in the nested document (observation only). -/
def getPath : List (String × Json) → List String → Option Json
  | _, [] => none
  | fs, [k] => getField fs k
  | fs, k :: rest =>
    match getField fs k with
    | some (Json.obj g) => getPath g rest
    | _ => none

/-- The exporter's own `toHex` (line 810); same `#rrggbb` rendering as
`rgbToHex`. -/
def toHexE (c : Rgb) : String :=
  String.mk ('#' :: (byteChars c.r ++ byteChars c.g ++ byteChars c.b))

/-- `Number(a.toFixed(2))`: round to two decimals, half up. -/
def round2 (a : ℚ) : ℚ := (jsRound (a * 100) : ℚ) / 100

/-- JS decimal rendering of a non-negative two-decimal number `k/100`
(trailing zeros dropped, as `Number` prints). -/
def qStr (q : ℚ) : String :=
  let k := (jsRound (q * 100)).toNat
  if k % 100 = 0 then toString (k / 100)
  else if k % 10 = 0 then toString (k / 100) ++ "." ++ toString (k / 10 % 10)
  else toString (k / 100) ++ "." ++ toString (k % 100 / 10) ++ toString (k % 10)

/-- `toRgbaString` (line 811): channels are bytes (the `/255` store and
`*255`+round of the exporter cancel), alpha printed via `toFixed(2)`. -/
def toRgbaString (c : Rgb) (a : ℚ) : String :=
  "rgba(" ++ toString c.r.val ++ ", " ++ toString c.g.val ++ ", " ++
    toString c.b.val ++ ", " ++ qStr (round2 a) ++ ")"

/-- Color `$value` rendering (line 826): rgba string when alpha < 1, else
6-digit hex. -/
def fmtColorValue (c : Rgb) (a : ℚ) : String :=
  if a < 1 then toRgbaString c a else toHexE c

def jsonOfLit : Option VarValue → Json
  | some (.strV s) => .str s
  | some (.floatV q) => .num q
  | some (.boolV b) => .bool b
  | _ => .null

/-- `name.split('/')` over the character list (kernel-reducible
replacement for the byte-position based `String.splitOn`). -/
def splitOnSlash : List Char → List (List Char)
  | [] => [[]]
  | a :: t =>
    let r := splitOnSlash t
    if a = '/' then [] :: r
    else
      match r with
      | [] => [[a]]
      | h :: t2 => (a :: h) :: t2

def splitPath (name : String) : List String := (splitOnSlash name.data).map String.mk

/-- `refVar.name.replace(/\//g, '.')` wrapped in braces. -/
def refPathOf (name : String) : String :=
  "\x7b" ++ String.mk (name.data.map (fun c => if c = '/' then '.' else c)) ++ "\x7d"

structure BaseBuckets where
  colors : List (String × Json)
  typ : List (String × Json)
  spacing : List (String × Json)
  corners : List (String × Json)

/-- One iteration of the Base-variable export loop (lines 814–870). -/
def exportBaseVar (m0 : Nat) (bk : BaseBuckets) (v : Variable) : BaseBuckets :=
  let parts := splitPath v.name
  let root := parts.headD ""
  let modeValue := lookupMode v.values m0
  if root = "Colors" then
    match modeValue with
    | some (.colorV rgb a) =>
      let leaf := Json.obj [("$scopes", .arr [.str "ALL_SCOPES"]),
                           ("$type", .str "color"),
                           ("$value", .str (fmtColorValue rgb a))]
      { bk with colors := insertPath bk.colors (parts.drop 1) leaf }
    | _ => bk
  else if root = "Typography" then
    if parts.length = 3 then
      let typeName := parts.getD 1 ""
      let varType := parts.getD 2 ""
      let scopes := if varType = "Font"
        then [Json.str "TEXT_CONTENT", Json.str "FONT_FAMILY"]
        else [Json.str "FONT_STYLE"]
      let leaf := Json.obj [("$scopes", .arr scopes), ("$type", .str "string"),
                           ("$value", jsonOfLit modeValue)]
      { bk with typ := insertPath bk.typ [typeName, varType] leaf }
    else bk
  else if root = "Spacing" then
    let key := parts.getD 1 ""
    let leaf := Json.obj
      [("$scopes", .arr (if strStartsWith key "-" then [.str "ALL_SCOPES"]
                         else [.str "WIDTH_HEIGHT", .str "GAP"])),
       ("$type", .str "number"), ("$value", jsonOfLit modeValue)]
    { bk with spacing := setField bk.spacing key leaf }
  else if root = "Corners" then
    let key := parts.getD 1 ""
    let leaf := Json.obj [("$scopes", .arr [.str "ALL_SCOPES"]),
                         ("$type", .str "number"), ("$value", jsonOfLit modeValue)]
    { bk with corners := setField bk.corners key leaf }
  else bk

def themeLeaf (rp : String) : Json :=
  .obj [("$libraryName", .str ""), ("$collectionName", .str "Base"),
        ("$value", .str rp)]

/-- One Theme mode bucket (lines 875–898): only alias values whose target
still exists are emitted, as brace-wrapped dotted references. -/
def exportThemeMode (s : Store) (tc : Collection) (modeId : Nat) :
    List (String × Json) :=
  tc.vars.foldl (fun bucket tv =>
    match lookupMode tv.values modeId with
    | some (.aliasV refId) =>
      match s.findVarById refId with
      | some refVar => insertPath bucket (splitPath tv.name) (themeLeaf (refPathOf refVar.name))
      | none => bucket
    | _ => bucket) []

def exportTheme (s : Store) (tc : Collection) : Json :=
  .obj [("modes", .obj (tc.modes.map (fun md => (md.2, Json.obj (exportThemeMode s tc md.1)))))]

/-- The boolean coercion of non-Padding Bridge values (lines 944–959):
booleans kept, numbers become `> 0`, aliases become `true`, colors become
`alpha > 0`, anything else `true`. -/
def coerceBridgeBool : VarValue → Bool
  | .boolV b => b
  | .floatV q => decide (q > 0)
  | .aliasV _ => true
  | .colorV _ a => decide (a > 0)
  | .strV _ => true

def numLeaf (v : Json) : Json :=
  .obj [("$scopes", .arr [.str "WIDTH_HEIGHT", .str "GAP"]),
        ("$type", .str "number"), ("$value", v)]

def boolLeaf (b : Bool) : Json :=
  .obj [("$scopes", .arr [.str "ALL_SCOPES"]), ("$type", .str "boolean"),
        ("$value", .bool b)]

/-- One iteration of the Bridge-variable export loop (lines 908–988).
`/Padding` variables export as numbers or Base references; everything
else exports as a coerced boolean. -/
def exportBridgeVar (s : Store) (bm : Nat) (bucket : List (String × Json))
    (bv : Variable) : List (String × Json) :=
  match lookupMode bv.values bm with
  | none => bucket
  | some val =>
    let parts := splitPath bv.name
    if hasSubstr bv.name "/Padding" then
      match val with
      | .floatV q => insertPath bucket parts (numLeaf (.num q))
      | .aliasV refId =>
        let inner := match s.findVarById refId with
          | some refVar => Json.str (refPathOf refVar.name)
          | none => Json.num 0
        insertPath bucket parts
          (.obj [("$libraryName", .str ""), ("$collectionName", .str "Base"),
                 ("$value", inner)])
      | _ => insertPath bucket parts (numLeaf (.num 0))
    else
      insertPath bucket parts (boolLeaf (coerceBridgeBool val))

/-- `exportThemeAsJson`: walk the three collections and wrap the document
in a single-element array.  `none` models the missing-Base notification
path (line 788). -/
def exportThemeAsJson (s : Store) : Option Json :=
  match s.findColl "Base" with
  | none => none
  | some bc =>
    let m0 := bc.mode0
    let bk := bc.vars.foldl (exportBaseVar m0) ⟨[], [], [], []⟩
    let baseJson := Json.obj
      [("modes", .obj [("Caldera", .obj
        [("Colors", .obj bk.colors), ("Typography", .obj bk.typ),
         ("Spacing", .obj bk.spacing), ("Corners", .obj bk.corners)])])]
    let fields1 := [("Base", baseJson)]
    let fields2 := match s.findColl "Theme" with
      | some tc => fields1 ++ [("Theme", exportTheme s tc)]
      | none => fields1
    let fields3 := match s.findColl "Bridge" with
      | some brc =>
        fields2 ++ [("Bridge", Json.obj (brc.vars.foldl (exportBridgeVar s brc.mode0) []))]
      | none => fields2
    some (Json.arr [Json.obj fields3])

/-! ### Predicates used by the claims about the export -/

def isHexDigit (c : Char) : Bool := (hexDigitVal c).isSome

/-- A `#` followed by exactly six hexadecimal digits. -/
def isHex6 (s : String) : Bool :=
  match s.data with
  | '#' :: rest => rest.length == 6 && rest.all isHexDigit
  | _ => false

/-- A well-formed color `$value`: a 6-digit hex string, or an rgba
rendering whose alpha is an exact two-decimal fraction `k/100`. -/
def GoodColorStr (s : String) : Prop :=
  isHex6 s = true ∨ ∃ c : Rgb, ∃ k : ℕ, k ≤ 100 ∧ s = toRgbaString c ((k : ℚ) / 100)

/-- A JSON object that declares `$type: "color"` must carry a
`GoodColorStr` as its `$value`. -/
def SelfColorOK (fs : List (String × Json)) : Prop :=
  match getField fs "$type" with
  | some (Json.str t) =>
    if t = "color" then
      match getField fs "$value" with
      | some (Json.str sv) => GoodColorStr sv
      | _ => False
    else True
  | _ => True

mutual

def JsonColorsOK : Json → Prop
  | .obj fs => SelfColorOK fs ∧ FieldsColorsOK fs
  | .arr es => ElemsColorsOK es
  | _ => True

def FieldsColorsOK : List (String × Json) → Prop
  | [] => True
  | p :: t => JsonColorsOK p.2 ∧ FieldsColorsOK t

def ElemsColorsOK : List Json → Prop
  | [] => True
  | j :: t => JsonColorsOK j ∧ ElemsColorsOK t

end

/-! ### Definitions used by theorem statements -/

/-- Does a step write to this (collection, path) target? -/
def stepTouches (c p : String) (st : Step) : Bool := st.coll == c && st.path == p

def hexOk (h : String) : Bool := (parseHex h).isSome

def ovOk : Option String → Bool
  | none => true
  | some h => hexOk h

/-- All hex inputs of a `generate-theme` message parse. -/
def ValidMsg (msg : GenMsg) : Prop :=
  hexOk msg.hex = true ∧ ovOk msg.neutralHex = true ∧ ovOk msg.successHex = true ∧
  ovOk msg.warningHex = true ∧ ovOk msg.infoHex = true ∧ ovOk msg.failureHex = true

/-- Variable identity survives: same id, name and resolved type (only
per-mode values and scopes may differ). -/
def VKeep (v w : Variable) : Prop := w.id = v.id ∧ w.name = v.name ∧ w.vtype = v.vtype

/-- The variables of a collection survive in order (values possibly
updated in place), with new variables only appended. -/
def VarsPres (vs ws : List Variable) : Prop :=
  ∃ front ext2, ws = front ++ ext2 ∧ List.Forall₂ VKeep vs front

def CKeep (c d : Collection) : Prop := d.name = c.name ∧ VarsPres c.vars d.vars

/-- Store evolution discipline of the generator: collections survive in
order by name, their variables survive by id/name/type, and new
collections/variables are only appended — nothing is deleted. -/
def StorePres (s t : Store) : Prop :=
  ∃ front ext2, t.collections = front ++ ext2 ∧ List.Forall₂ CKeep s.collections front

/-- A concrete external world for witness computations: deterministic
samplers and a font loader that only has Inter Regular. -/
def extSample : Ext :=
  ⟨fun _ t => ⟨⟨t % 256, Nat.mod_lt _ (by norm_num)⟩, ⟨2, by norm_num⟩, ⟨3, by norm_num⟩⟩,
   fun _ _ t => ⟨⟨t % 256, Nat.mod_lt _ (by norm_num)⟩, ⟨5, by norm_num⟩, ⟨6, by norm_num⟩⟩,
   fun f st => f == "Inter" && st == "Regular"⟩

/-- A concrete external world whose font loader always fails. -/
def extNoFonts : Ext :=
  ⟨fun _ t => ⟨⟨t % 256, Nat.mod_lt _ (by norm_num)⟩, ⟨2, by norm_num⟩, ⟨3, by norm_num⟩⟩,
   fun _ _ t => ⟨⟨t % 256, Nat.mod_lt _ (by norm_num)⟩, ⟨5, by norm_num⟩, ⟨6, by norm_num⟩⟩,
   fun _ _ => false⟩

/-- A `generate-theme` message with only the primary hex set. -/
def mkMsg (hex : String) : GenMsg :=
  ⟨hex, none, none, none, none, none, none, none, none, none, none, none, none, none, none⟩

/-- The store at the start of a run against an empty store: the Base
collection exists with its renamed default mode. -/
def baseStart : Store := ⟨[⟨"Base", [(0, "Caldera")], []⟩], 0, 1⟩

/-- The store after the Base collection of a fully valid run from empty. -/
def runBase (ext : Ext) (msg : GenMsg) (hd : HandlerData) : Store :=
  applySteps baseStart (baseStepsOk ext msg hd 0)

/-- Base done, Theme collection just created (modes Light 1, Dark 2). -/
def themeStart (ext : Ext) (msg : GenMsg) (hd : HandlerData) : Store :=
  ⟨(runBase ext msg hd).collections ++ [⟨"Theme", [(1, "Light"), (2, "Dark")], []⟩],
    (runBase ext msg hd).nextId, 3⟩

/-- The store after the Theme collection of a fully valid run from empty. -/
def runTheme (ext : Ext) (msg : GenMsg) (hd : HandlerData) : Store :=
  applySteps (themeStart ext msg hd) (themeSteps 1 2 (msg.cornerRadiusLevel.getD 3))

/-- Theme done, Bridge collection just created (mode Default 3). -/
def bridgeStart (ext : Ext) (msg : GenMsg) (hd : HandlerData) : Store :=
  ⟨(runTheme ext msg hd).collections ++ [⟨"Bridge", [(3, "Default")], []⟩],
    (runTheme ext msg hd).nextId, 4⟩

/-- The explicit shape of a fully valid run from the empty store: Base
gets mode id 0 (Caldera), Theme mode ids 1 (Light) and 2 (Dark), Bridge
mode id 3 (Default); the three collections are created in that order.
`runGenerate` from `emptyStore` agrees with this on valid input. -/
def runStoreOk (ext : Ext) (msg : GenMsg) (hd : HandlerData) : Store :=
  applySteps (bridgeStart ext msg hd)
    (bridgeSteps 3 (msg.modalBackgroundEnabled.getD true) (msg.modalPaddingSize.getD "2")
      (msg.headerIconsPairingEnabled.getD true) (msg.headerBackgroundEnabled.getD false))

/-- The variable paths the primary/neutral sections of
`createBaseCollection` may write. -/
def prePaths : List String :=
  primaryTones.map (fun t => "Colors/Primary/" ++ toString t) ++ ["Colors/Primary/Base"] ++
  alphaRange.map (fun t => "Colors/Primary/Alpha/" ++ toString t) ++
  neutralTones.map (fun t => "Colors/Neutral/" ++ toString t) ++ ["Colors/Neutral/Base"] ++
  alphaRange.map (fun t => "Colors/Neutral/Alpha/" ++ toString t)

/-- The variable paths one status section may write. -/
def statusPaths (name : String) : List String :=
  statusTones.map (fun t => "Colors/" ++ name ++ "/" ++ toString t) ++
  ["Colors/" ++ name ++ "/Base"]

/-- The variable paths of the white/black, corner, spacing and typography
sections. -/
def tailPaths : List String :=
  ["Colors/White/100"] ++ alphaRange.map (fun a => "Colors/White/" ++ toString a) ++
  ["Colors/Black/100"] ++ alphaRange.map (fun a => "Colors/Black/" ++ toString a) ++
  cornersTable.map (fun p => "Corners/" ++ p.1) ++
  spacingTable.map (fun p => "Spacing/" ++ p.1) ++
  typographyRoles.flatMap (fun r => ["Typography/" ++ r ++ "/Font", "Typography/" ++ r ++ "/Style"])

/-- The Theme variable paths (independent of the corner level, which only
changes alias targets). -/
def themePathList : List String := (themeAliasTable 3).map (fun e => e.path)

/-- The two writes of one typography role (or none when the whole font
chain fails). -/
def roleBlock (ext : Ext) (msg : GenMsg) (m : Nat) (role : String) : List Step :=
  match resolveFont ext.fontLoads (fontOverrideFor msg role) (typDefault role) with
  | none => []
  | some f =>
    [⟨"Base", "Typography/" ++ role ++ "/Font",
       .writeLit .str m (.strV f.family) (some ["TEXT_CONTENT", "FONT_FAMILY"])⟩,
     ⟨"Base", "Typography/" ++ role ++ "/Style",
       .writeLit .str m (.strV f.style) (some ["FONT_STYLE"])⟩]

/-- Every Base path outside the typography section. -/
def nonTypPaths : List String :=
  prePaths ++ statusPaths "Success" ++ statusPaths "Warning" ++ statusPaths "Info" ++
  statusPaths "Failure" ++
  ["Colors/White/100"] ++ alphaRange.map (fun a => "Colors/White/" ++ toString a) ++
  ["Colors/Black/100"] ++ alphaRange.map (fun a => "Colors/Black/" ++ toString a) ++
  cornersTable.map (fun p => "Corners/" ++ p.1) ++
  spacingTable.map (fun p => "Spacing/" ++ p.1)

/-- The store left behind when every handler-checked hex is valid but the
failure override is malformed: the Base sections through Info are already
written when `generateTonalPalette` throws inside the Failure section. -/
def runStoreFail (ext : Ext) (msg : GenMsg) (hd : HandlerData) : Store :=
  applySteps baseStart
    (basePreSteps msg hd 0 ++
      (statusSectionOk ext 0 "Success" 150 66 msg.successHex ++
      (statusSectionOk ext 0 "Warning" 40 70 msg.warningHex ++
       statusSectionOk ext 0 "Info" 260 84 msg.infoHex)))

/-- The status override field of the message for a given status name. -/
def statusOv (msg : GenMsg) (name : String) : Option String :=
  if name = "Success" then msg.successHex
  else if name = "Warning" then msg.warningHex
  else if name = "Info" then msg.infoHex
  else if name = "Failure" then msg.failureHex
  else none

/-! ## Theorems -/

theorem vKeep_refl (v : Variable) : VKeep v v := ⟨rfl, rfl, rfl⟩

theorem vKeep_trans {u v w : Variable} (h1 : VKeep u v) (h2 : VKeep v w) : VKeep u w :=
  ⟨h2.1.trans h1.1, h2.2.1.trans h1.2.1, h2.2.2.trans h1.2.2⟩

theorem forall₂_vkeep_refl (vs : List Variable) : List.Forall₂ VKeep vs vs :=
  List.forall₂_same.2 (fun x _ => vKeep_refl x)

theorem forall₂_trans_of {α : Type} {R : α → α → Prop}
    (hR : ∀ a b c, R a b → R b c → R a c) :
    ∀ {l m n : List α}, List.Forall₂ R l m → List.Forall₂ R m n → List.Forall₂ R l n := by
  intro l m n h1
  induction h1 generalizing n with
  | nil =>
    intro h2
    cases h2
    exact List.Forall₂.nil
  | cons hab _ ih =>
    intro h2
    cases h2 with
    | cons hbc htail => exact List.Forall₂.cons (hR _ _ _ hab hbc) (ih htail)

theorem forall₂_append_split {α β : Type} {R : α → β → Prop} :
    ∀ {l1 l2 : List α} {m : List β}, List.Forall₂ R (l1 ++ l2) m →
      ∃ m1 m2, m = m1 ++ m2 ∧ List.Forall₂ R l1 m1 ∧ List.Forall₂ R l2 m2 := by
  intro l1
  induction l1 with
  | nil => exact fun h => ⟨[], _, rfl, List.Forall₂.nil, h⟩
  | cons a t ih =>
    intro l2 m h
    cases h with
    | cons hab htail =>
      obtain ⟨m1, m2, rfl, hf1, hf2⟩ := ih htail
      exact ⟨_ :: m1, m2, rfl, List.Forall₂.cons hab hf1, hf2⟩

theorem varsPres_refl (vs : List Variable) : VarsPres vs vs :=
  ⟨vs, [], (List.append_nil vs).symm, forall₂_vkeep_refl vs⟩

theorem varsPres_trans {a b c : List Variable} (h1 : VarsPres a b) (h2 : VarsPres b c) :
    VarsPres a c := by
  obtain ⟨f1, e1, rfl, hf1⟩ := h1
  obtain ⟨f2, e2, rfl, hf2⟩ := h2
  obtain ⟨m1, m2, rfl, hm1, _⟩ := forall₂_append_split hf2
  exact ⟨m1, m2 ++ e2, List.append_assoc m1 m2 e2,
    @forall₂_trans_of _ VKeep (fun _ _ _ h1 h2 => vKeep_trans h1 h2) _ _ _ hf1 hm1⟩

theorem cKeep_refl (c : Collection) : CKeep c c := ⟨rfl, varsPres_refl c.vars⟩

theorem cKeep_trans {a b c : Collection} (h1 : CKeep a b) (h2 : CKeep b c) : CKeep a c :=
  ⟨h2.1.trans h1.1, varsPres_trans h1.2 h2.2⟩

theorem forall₂_ckeep_refl (cs : List Collection) : List.Forall₂ CKeep cs cs :=
  List.forall₂_same.2 (fun x _ => cKeep_refl x)

theorem storePres_refl (s : Store) : StorePres s s :=
  ⟨s.collections, [], (List.append_nil _).symm, forall₂_ckeep_refl s.collections⟩

theorem storePres_trans {a b c : Store} (h1 : StorePres a b) (h2 : StorePres b c) :
    StorePres a c := by
  obtain ⟨f1, e1, hb, hf1⟩ := h1
  obtain ⟨f2, e2, hc, hf2⟩ := h2
  rw [hb] at hf2
  obtain ⟨m1, m2, hm, hm1, _⟩ := forall₂_append_split hf2
  refine ⟨m1, m2 ++ e2, ?_, @forall₂_trans_of _ CKeep (fun _ _ _ h3 h4 => cKeep_trans h3 h4) _ _ _ hf1 hm1⟩
  rw [hc, hm, List.append_assoc]

/-- Generic first-match stability: a `find?` hit survives a
`Forall₂`-evolution that preserves the predicate, with appended elements
scanned only after. -/
theorem find?_keep_of_forall₂ {α : Type} {R : α → α → Prop} {q : α → Bool}
    (hq : ∀ a b, R a b → q b = q a) :
    ∀ {l fr : List α} (ext2 : List α) {x : α}, List.Forall₂ R l fr →
      l.find? q = some x → ∃ y, (fr ++ ext2).find? q = some y ∧ R x y := by
  intro l
  induction l with
  | nil =>
    intro fr ext2 x hfa hf
    rw [List.find?_nil] at hf
    cases hf
  | cons a t ih =>
    intro fr ext2 x hfa hf
    cases hfa with
    | cons hab htail =>
      rw [List.find?_cons] at hf
      rename_i b fr2
      cases hcase : q a with
      | true =>
        rw [hcase] at hf
        cases hf
        refine ⟨b, ?_, hab⟩
        rw [List.cons_append, List.find?_cons, hq _ _ hab, hcase]
      | false =>
        rw [hcase] at hf
        obtain ⟨y, hy, hxy⟩ := ih ext2 htail hf
        refine ⟨y, ?_, hxy⟩
        rw [List.cons_append, List.find?_cons, hq _ _ hab, hcase]
        exact hy

theorem findColl_keep {s t : Store} {n : String} {c0 : Collection}
    (hp : StorePres s t) (h : s.findColl n = some c0) :
    ∃ d, t.findColl n = some d ∧ CKeep c0 d := by
  obtain ⟨front, ext2, hcols, hfa⟩ := hp
  unfold Store.findColl at h ⊢
  have := find?_keep_of_forall₂ (q := fun c => c.name == n)
    (fun a b hab => by show (b.name == n) = (a.name == n); rw [hab.1]) ext2 hfa h
  rw [← hcols] at this
  exact this

theorem findVar_keep {vs ws : List Variable} {p : String} {v : Variable}
    (hp : VarsPres vs ws) (h : vs.find? (fun x => x.name == p) = some v) :
    ∃ w, ws.find? (fun x => x.name == p) = some w ∧ VKeep v w := by
  obtain ⟨front, ext2, hws, hfa⟩ := hp
  have := find?_keep_of_forall₂ (q := fun x => x.name == p)
    (fun a b hab => by show (b.name == p) = (a.name == p); rw [hab.2.1]) ext2 hfa h
  rw [← hws] at this
  exact this

/-- A variable found by name survives a preserving store evolution with
the same id, name and type. -/
theorem varState_keep {s t : Store} {n p : String} {v : Variable}
    (hp : StorePres s t) (h : s.varState n p = some v) :
    ∃ w, t.varState n p = some w ∧ VKeep v w := by
  unfold Store.varState at h ⊢
  cases hc : s.findColl n with
  | none => rw [hc] at h; cases h
  | some c0 =>
    rw [hc] at h
    obtain ⟨d, hd, hcd⟩ := findColl_keep hp hc
    obtain ⟨w, hw, hvw⟩ := findVar_keep hcd.2 h
    rw [hd]
    exact ⟨w, hw, hvw⟩

theorem forall₂_modifyVar (f : Variable → Variable) (hf : ∀ v, VKeep v (f v))
    (p : String) : ∀ vs : List Variable, List.Forall₂ VKeep vs (modifyVarByName vs p f) := by
  intro vs
  induction vs with
  | nil => exact List.Forall₂.nil
  | cons a t ih =>
    unfold modifyVarByName
    by_cases h : a.name = p
    · rw [if_pos h]; exact List.Forall₂.cons (hf a) (forall₂_vkeep_refl t)
    · rw [if_neg h]; exact List.Forall₂.cons (vKeep_refl a) ih

theorem varsPres_modifyVar (f : Variable → Variable) (hf : ∀ v, VKeep v (f v))
    (p : String) (vs : List Variable) : VarsPres vs (modifyVarByName vs p f) :=
  ⟨modifyVarByName vs p f, [], (List.append_nil _).symm, forall₂_modifyVar f hf p vs⟩

theorem forall₂_modifyColl (f : Collection → Collection) (hf : ∀ c, CKeep c (f c))
    (n : String) : ∀ cs : List Collection, List.Forall₂ CKeep cs (modifyCollByName cs n f) := by
  intro cs
  induction cs with
  | nil => exact List.Forall₂.nil
  | cons a t ih =>
    unfold modifyCollByName
    by_cases h : a.name = n
    · rw [if_pos h]; exact List.Forall₂.cons (hf a) (forall₂_ckeep_refl t)
    · rw [if_neg h]; exact List.Forall₂.cons (cKeep_refl a) ih

theorem storePres_modifyColl (s : Store) (n : String) (f : Collection → Collection)
    (hf : ∀ c, CKeep c (f c)) (ni nm : Nat) :
    StorePres s ⟨modifyCollByName s.collections n f, ni, nm⟩ :=
  ⟨modifyCollByName s.collections n f, [], (List.append_nil _).symm,
    forall₂_modifyColl f hf n s.collections⟩

theorem storePres_upsertVar (s : Store) (c p : String) (ty : VarType) :
    StorePres s (s.upsertVar c p ty) := by
  unfold Store.upsertVar
  split
  · exact storePres_refl s
  · split
    · exact storePres_refl s
    · apply storePres_modifyColl
      intro d
      exact ⟨rfl, d.vars, [⟨s.nextId, p, ty, [], []⟩], rfl, forall₂_vkeep_refl d.vars⟩

theorem storePres_setVarValue (s : Store) (c p : String) (m : Nat) (val : VarValue) :
    StorePres s (s.setVarValue c p m val) := by
  unfold Store.setVarValue
  apply storePres_modifyColl
  intro d
  refine ⟨rfl, ?_⟩
  exact varsPres_modifyVar (fun v => setModeValue v m val) (fun _ => ⟨rfl, rfl, rfl⟩) p d.vars

theorem storePres_setVarScopes (s : Store) (c p : String) (sc : List String) :
    StorePres s (s.setVarScopes c p sc) := by
  unfold Store.setVarScopes
  apply storePres_modifyColl
  intro d
  refine ⟨rfl, ?_⟩
  exact varsPres_modifyVar (fun v => { v with scopes := sc }) (fun _ => ⟨rfl, rfl, rfl⟩) p d.vars

theorem storePres_ensureColl (s : Store) (n m0 : String) :
    StorePres s (s.ensureColl n m0) := by
  unfold Store.ensureColl
  split
  · apply storePres_modifyColl
    intro c
    exact ⟨rfl, varsPres_refl c.vars⟩
  · exact ⟨s.collections, [⟨n, [(s.nextModeId, m0)], []⟩], rfl, forall₂_ckeep_refl _⟩

theorem storePres_addMode (s : Store) (n nm : String) : StorePres s (s.addMode n nm) := by
  unfold Store.addMode
  apply storePres_modifyColl
  intro c
  exact ⟨rfl, varsPres_refl c.vars⟩

theorem storePres_ensureThemeDark (s : Store) : StorePres s s.ensureThemeDark := by
  unfold Store.ensureThemeDark
  split
  · exact storePres_refl s
  · exact storePres_addMode s "Theme" "Dark"

theorem storePres_applyStep (s : Store) (st : Step) : StorePres s (applyStep s st) := by
  unfold applyStep
  split
  · exact storePres_upsertVar s st.coll st.path _
  · split
    · exact storePres_refl s
    · exact storePres_trans (storePres_upsertVar s st.coll st.path .color)
        (storePres_setVarValue _ st.coll st.path _ _)
  · split
    · exact storePres_trans (storePres_upsertVar s st.coll st.path _)
        (storePres_setVarValue _ st.coll st.path _ _)
    · exact storePres_trans
        (storePres_trans (storePres_upsertVar s st.coll st.path _)
          (storePres_setVarValue _ st.coll st.path _ _))
        (storePres_setVarScopes _ st.coll st.path _)
  · split
    · exact storePres_setVarValue s st.coll st.path _ _
    · exact storePres_refl s
  · split
    · exact storePres_trans (storePres_upsertVar s st.coll st.path _)
        (storePres_setVarValue _ st.coll st.path _ _)
    · exact storePres_trans (storePres_upsertVar s st.coll st.path _)
        (storePres_setVarValue _ st.coll st.path _ _)

theorem storePres_applySteps (s : Store) (l : List Step) : StorePres s (applySteps s l) := by
  induction l generalizing s with
  | nil => exact storePres_refl s
  | cons st rest ih =>
    exact storePres_trans (storePres_applyStep s st) (ih (applyStep s st))

theorem storePres_applySteps_of {s t : Store} (h : StorePres s t) (l : List Step) :
    StorePres s (applySteps t l) :=
  storePres_trans h (storePres_applySteps t l)

theorem storePres_ensureColl_of {s t : Store} (h : StorePres s t) (n m0 : String) :
    StorePres s (t.ensureColl n m0) :=
  storePres_trans h (storePres_ensureColl t n m0)

theorem storePres_buildBase (ext : Ext) (msg : GenMsg) (hd : HandlerData) (s : Store) :
    StorePres s (buildBase ext msg hd s).1 := by
  unfold buildBase
  dsimp only
  have h0 : StorePres s (s.ensureColl "Base" "Caldera") := storePres_ensureColl s _ _
  cases statusSection ext ((s.ensureColl "Base" "Caldera").collMode0 "Base")
      "Success" 150 66 msg.successHex with
  | none => dsimp only; exact storePres_applySteps_of h0 _
  | some suc =>
    cases statusSection ext ((s.ensureColl "Base" "Caldera").collMode0 "Base")
        "Warning" 40 70 msg.warningHex with
    | none => dsimp only; exact storePres_applySteps_of (storePres_applySteps_of h0 _) _
    | some war =>
      cases statusSection ext ((s.ensureColl "Base" "Caldera").collMode0 "Base")
          "Info" 260 84 msg.infoHex with
      | none =>
        dsimp only
        exact storePres_applySteps_of (storePres_applySteps_of (storePres_applySteps_of h0 _) _) _
      | some inf =>
        cases statusSection ext ((s.ensureColl "Base" "Caldera").collMode0 "Base")
            "Failure" 25 84 msg.failureHex with
        | none =>
          dsimp only
          exact storePres_applySteps_of
            (storePres_applySteps_of (storePres_applySteps_of (storePres_applySteps_of h0 _) _) _) _
        | some fal =>
          dsimp only
          exact storePres_applySteps_of (storePres_applySteps_of
            (storePres_applySteps_of (storePres_applySteps_of (storePres_applySteps_of h0 _) _) _) _) _

theorem storePres_buildAll (ext : Ext) (msg : GenMsg) (hd : HandlerData) (s : Store) :
    StorePres s (buildAll ext msg hd s).1 := by
  unfold buildAll
  generalize hb : buildBase ext msg hd s = pr
  have hB : StorePres s pr.1 := by
    rw [← hb]
    exact storePres_buildBase ext msg hd s
  cases pr with
  | mk sB err =>
    cases err with
    | some e => exact hB
    | none =>
      dsimp only
      dsimp only at hB
      exact storePres_applySteps_of
        (storePres_ensureColl_of
          (storePres_applySteps_of
            (storePres_trans (storePres_ensureColl_of hB "Theme" "Light")
              (storePres_ensureThemeDark _)) _) "Bridge" "Default") _

theorem storePres_runGenerate (ext : Ext) (msg : GenMsg) (s0 : Store) :
    StorePres s0 (runGenerate ext msg s0).1 := by
  unfold runGenerate
  cases generateTonalPalette ext msg.hex fullTones with
  | none => exact storePres_refl s0
  | some primaryPalette =>
    cases neutralData ext msg with
    | none => exact storePres_refl s0
    | some nd =>
      dsimp only
      by_cases h1 : optPaletteOk ext msg.successHex = true
      · rw [if_pos h1]
        by_cases h2 : optPaletteOk ext msg.warningHex = true
        · rw [if_pos h2]
          by_cases h3 : optPaletteOk ext msg.infoHex = true
          · rw [if_pos h3]
            exact storePres_buildAll ext msg _ s0
          · rw [if_neg h3]; exact storePres_refl s0
        · rw [if_neg h2]; exact storePres_refl s0
      · rw [if_neg h1]; exact storePres_refl s0

end Caldera

namespace Caldera

/-- C1: Regeneration against the same store is an upsert: every existing
Base/Theme/Bridge collection and variable survives a second
`generate-theme` run by exact name with the same identity (id, name,
resolved type) and is only updated in place — nothing is deleted — so the
variable a path such as Theme `Background/Main` resolves to after the
second run is the same variable (same id) as after the first, with only
its per-mode values changed. -/
theorem c1_regeneration_preserves_identity (ext : Ext) (m1 m2 : GenMsg) (s0 : Store) :
    StorePres (runGenerate ext m1 s0).1 (runGenerate ext m2 (runGenerate ext m1 s0).1).1 ∧
    ∀ (cn p : String) (v : Variable),
      ((runGenerate ext m1 s0).1).varState cn p = some v →
      ∃ w, ((runGenerate ext m2 (runGenerate ext m1 s0).1).1).varState cn p = some w ∧
        w.id = v.id ∧ w.name = v.name ∧ w.vtype = v.vtype :=
  ⟨storePres_runGenerate ext m2 _,
   fun _ _ _ hv => varState_keep (storePres_runGenerate ext m2 _) hv⟩

end Caldera

namespace Caldera

/-! ### Observation lemmas for the store primitives -/

theorem find?_append_var (l1 l2 : List Variable) (q : Variable → Bool) :
    (l1 ++ l2).find? q = ((l1.find? q).orElse fun _ => l2.find? q) := by
  induction l1 with
  | nil => simp [List.find?]
  | cons a t ih =>
    rw [List.cons_append, List.find?_cons, List.find?_cons]
    cases q a with
    | true => simp [Option.orElse]
    | false => simp only [ih]

theorem find?_modifyVar (vs : List Variable) (p : String) (f : Variable → Variable)
    (hf : ∀ v, (f v).name = v.name) (q : String) :
    (modifyVarByName vs p f).find? (fun v => v.name == q) =
      if q = p then (vs.find? (fun v => v.name == p)).map f
      else vs.find? (fun v => v.name == q) := by
  induction vs with
  | nil => cases Decidable.em (q = p) with
    | inl h => simp [modifyVarByName, List.find?, h]
    | inr h => simp [modifyVarByName, List.find?, h]
  | cons a t ih =>
    unfold modifyVarByName
    by_cases hap : a.name = p
    · rw [if_pos hap]
      by_cases hqp : q = p
      · subst hqp
        rw [if_pos rfl, List.find?_cons, List.find?_cons]
        have : (a.name == q) = true := by simp [hap]
        rw [this]
        have : ((f a).name == q) = true := by simp [hf, hap]
        rw [this]
        simp
      · rw [if_neg hqp, List.find?_cons, List.find?_cons]
        have h1 : (a.name == q) = false := by
          simp only [beq_eq_false_iff_ne, ne_eq]
          rw [hap]; exact fun h => hqp h.symm
        have h2 : ((f a).name == q) = false := by
          simp only [beq_eq_false_iff_ne, ne_eq]
          rw [hf, hap]; exact fun h => hqp h.symm
        rw [h1, h2]
    · rw [if_neg hap]
      by_cases hqp : q = p
      · subst hqp
        rw [if_pos rfl, List.find?_cons, List.find?_cons]
        have h1 : (a.name == q) = false := by
          simp only [beq_eq_false_iff_ne, ne_eq]
          exact hap
        rw [h1, ih]
        simp
      · rw [if_neg hqp, List.find?_cons, List.find?_cons]
        cases hcase : (a.name == q) with
        | true => rfl
        | false => rw [ih, if_neg hqp]

theorem find?_modifyColl (cs : List Collection) (n : String) (f : Collection → Collection)
    (hf : ∀ c, (f c).name = c.name) (q : String) :
    (modifyCollByName cs n f).find? (fun c => c.name == q) =
      if q = n then (cs.find? (fun c => c.name == n)).map f
      else cs.find? (fun c => c.name == q) := by
  induction cs with
  | nil => cases Decidable.em (q = n) with
    | inl h => simp [modifyCollByName, List.find?, h]
    | inr h => simp [modifyCollByName, List.find?, h]
  | cons a t ih =>
    unfold modifyCollByName
    by_cases hap : a.name = n
    · rw [if_pos hap]
      by_cases hqp : q = n
      · subst hqp
        rw [if_pos rfl, List.find?_cons, List.find?_cons]
        have : (a.name == q) = true := by simp [hap]
        rw [this]
        have : ((f a).name == q) = true := by simp [hf, hap]
        rw [this]
        simp
      · rw [if_neg hqp, List.find?_cons, List.find?_cons]
        have h1 : (a.name == q) = false := by
          simp only [beq_eq_false_iff_ne, ne_eq]
          rw [hap]; exact fun h => hqp h.symm
        have h2 : ((f a).name == q) = false := by
          simp only [beq_eq_false_iff_ne, ne_eq]
          rw [hf, hap]; exact fun h => hqp h.symm
        rw [h1, h2]
    · rw [if_neg hap]
      by_cases hqp : q = n
      · subst hqp
        rw [if_pos rfl, List.find?_cons, List.find?_cons]
        have h1 : (a.name == q) = false := by
          simp only [beq_eq_false_iff_ne, ne_eq]
          exact hap
        rw [h1, ih]
        simp
      · rw [if_neg hqp, List.find?_cons, List.find?_cons]
        cases hcase : (a.name == q) with
        | true => rfl
        | false => rw [ih, if_neg hqp]

theorem lookupMode_update (vals : List (Nat × VarValue)) (m : Nat) (val : VarValue)
    (m2 : Nat) :
    lookupMode (updateModeValue vals m val) m2 =
      if m2 = m then some val else lookupMode vals m2 := by
  induction vals with
  | nil =>
    by_cases h : m2 = m
    · subst h
      simp [updateModeValue, lookupMode]
    · have hb : (m == m2) = false := beq_eq_false_iff_ne.2 (fun hh => h hh.symm)
      simp [updateModeValue, lookupMode, hb, h]
  | cons a t ih =>
    unfold updateModeValue
    by_cases hk : a.1 = m
    · rw [if_pos hk]
      by_cases h2 : m2 = m
      · subst h2
        simp [lookupMode]
      · have hb : (m == m2) = false := beq_eq_false_iff_ne.2 (fun hh => h2 hh.symm)
        have hb2 : (a.1 == m2) = false := by rw [hk]; exact hb
        simp [lookupMode, List.find?_cons, hb, hb2, h2]
    · rw [if_neg hk]
      by_cases h2 : m2 = m
      · subst h2
        have hb2 : (a.1 == m2) = false := beq_eq_false_iff_ne.2 hk
        have iht := ih
        unfold lookupMode at iht ⊢
        rw [List.find?_cons, hb2, iht, if_pos rfl, if_pos rfl]
      · unfold lookupMode
        rw [List.find?_cons, List.find?_cons]
        cases hcase : (a.1 == m2) with
        | true => simp [if_neg h2]
        | false =>
          have iht := ih
          unfold lookupMode at iht
          simp only [hcase]
          rw [iht, if_neg h2]

end Caldera

namespace Caldera

/-! ### varState / valueAt characterization of the primitives -/

theorem name_appendVarF (i : Nat) (p : String) (ty : VarType) (c : Collection) :
    (appendVarF i p ty c).name = c.name := rfl

theorem name_setValF (p : String) (m : Nat) (val : VarValue) (c : Collection) :
    (setValF p m val c).name = c.name := rfl

theorem name_setScopesF (p : String) (sc : List String) (c : Collection) :
    (setScopesF p sc c).name = c.name := rfl

theorem findColl_upsert_ne (s : Store) (c p : String) (ty : VarType) (cn : String)
    (h : cn ≠ c) : (s.upsertVar c p ty).findColl cn = s.findColl cn := by
  unfold Store.upsertVar
  split
  · rfl
  · split
    · rfl
    · unfold Store.findColl
      try dsimp only
      rw [find?_modifyColl s.collections c (appendVarF s.nextId p ty)
            (name_appendVarF s.nextId p ty) cn, if_neg h]

theorem varState_setVarValue_self (s : Store) (c p : String) (m : Nat) (val : VarValue) :
    (s.setVarValue c p m val).varState c p =
      (s.varState c p).map (fun v => setModeValue v m val) := by
  unfold Store.setVarValue Store.varState Store.findColl
  try dsimp only
  rw [find?_modifyColl s.collections c (setValF p m val) (name_setValF p m val) c, if_pos rfl]
  cases s.collections.find? (fun x => x.name == c) with
  | none => rfl
  | some c0 =>
    unfold setValF Collection.findVar
    dsimp only [Option.map, Option.bind]
    rw [find?_modifyVar c0.vars p (fun v => setModeValue v m val) (fun _ => rfl) p, if_pos rfl]
    rfl

theorem varState_setVarValue_ne (s : Store) (c p : String) (m : Nat) (val : VarValue)
    (cn pn : String) (h : ¬(cn = c ∧ pn = p)) :
    (s.setVarValue c p m val).varState cn pn = s.varState cn pn := by
  unfold Store.setVarValue Store.varState Store.findColl
  try dsimp only
  rw [find?_modifyColl s.collections c (setValF p m val) (name_setValF p m val) cn]
  by_cases hc : cn = c
  · subst hc
    rw [if_pos rfl]
    cases s.collections.find? (fun x => x.name == cn) with
    | none => rfl
    | some c0 =>
      unfold setValF Collection.findVar
      dsimp only [Option.map, Option.bind]
      rw [find?_modifyVar c0.vars p (fun v => setModeValue v m val) (fun _ => rfl) pn,
        if_neg (fun hh => h ⟨rfl, hh⟩)]
  · rw [if_neg hc]

theorem varState_setVarScopes_self (s : Store) (c p : String) (sc : List String) :
    (s.setVarScopes c p sc).varState c p =
      (s.varState c p).map (fun v => { v with scopes := sc }) := by
  unfold Store.setVarScopes Store.varState Store.findColl
  try dsimp only
  rw [find?_modifyColl s.collections c (setScopesF p sc) (name_setScopesF p sc) c, if_pos rfl]
  cases s.collections.find? (fun x => x.name == c) with
  | none => rfl
  | some c0 =>
    unfold setScopesF Collection.findVar
    dsimp only [Option.map, Option.bind]
    rw [find?_modifyVar c0.vars p (fun v => { v with scopes := sc }) (fun _ => rfl) p, if_pos rfl]
    rfl

theorem varState_setVarScopes_ne (s : Store) (c p : String) (sc : List String)
    (cn pn : String) (h : ¬(cn = c ∧ pn = p)) :
    (s.setVarScopes c p sc).varState cn pn = s.varState cn pn := by
  unfold Store.setVarScopes Store.varState Store.findColl
  try dsimp only
  rw [find?_modifyColl s.collections c (setScopesF p sc) (name_setScopesF p sc) cn]
  by_cases hc : cn = c
  · subst hc
    rw [if_pos rfl]
    cases s.collections.find? (fun x => x.name == cn) with
    | none => rfl
    | some c0 =>
      unfold setScopesF Collection.findVar
      dsimp only [Option.map, Option.bind]
      rw [find?_modifyVar c0.vars p (fun v => { v with scopes := sc }) (fun _ => rfl) pn,
        if_neg (fun hh => h ⟨rfl, hh⟩)]
  · rw [if_neg hc]

theorem varState_upsert_self (s : Store) (c p : String) (ty : VarType) {c0 : Collection}
    (hc : s.findColl c = some c0) :
    (s.upsertVar c p ty).varState c p =
      some ((c0.findVar p).getD ⟨s.nextId, p, ty, [], []⟩) := by
  unfold Store.upsertVar
  simp only [hc]
  cases hv : c0.findVar p with
  | some v =>
    unfold Store.varState
    rw [hc]
    simp [hv]
  | none =>
    unfold Store.varState Store.findColl
    try dsimp only
    rw [find?_modifyColl s.collections c (appendVarF s.nextId p ty)
          (name_appendVarF s.nextId p ty) c, if_pos rfl]
    have hc2 : s.collections.find? (fun x => x.name == c) = some c0 := hc
    rw [hc2]
    unfold appendVarF Collection.findVar
    dsimp only [Option.map, Option.bind]
    rw [find?_append_var]
    have hv2 : c0.vars.find? (fun v => v.name == p) = none := hv
    rw [hv2]
    simp [List.find?]

theorem varState_upsert_ne (s : Store) (c p : String) (ty : VarType) (cn pn : String)
    (h : ¬(cn = c ∧ pn = p)) :
    (s.upsertVar c p ty).varState cn pn = s.varState cn pn := by
  by_cases hc : cn = c
  · subst hc
    have hp : pn ≠ p := fun hh => h ⟨rfl, hh⟩
    unfold Store.upsertVar
    split
    · rfl
    · split
      · rfl
      · rename_i x1 c0 hc0 x2 hv0
        unfold Store.varState Store.findColl
        try dsimp only
        rw [find?_modifyColl s.collections cn (appendVarF s.nextId p ty)
              (name_appendVarF s.nextId p ty) cn, if_pos rfl]
        have hc2 : s.collections.find? (fun x => x.name == cn) = some c0 := hc0
        rw [hc2]
        unfold appendVarF Collection.findVar
        dsimp only [Option.map, Option.bind]
        rw [find?_append_var]
        have hlast : (([⟨s.nextId, p, ty, [], []⟩] : List Variable).find?
            (fun v => v.name == pn)) = none := by
          have hb : (p == pn) = false := beq_eq_false_iff_ne.2 (fun hh => hp hh.symm)
          simp [List.find?, hb]
        rw [hlast]
        cases c0.vars.find? (fun v => v.name == pn) with
        | none => rfl
        | some v => rfl
  · unfold Store.varState
    rw [findColl_upsert_ne s c p ty cn hc]

end Caldera

namespace Caldera

/-! ### Hex printing / parsing roundtrip -/

set_option maxRecDepth 2000 in
theorem parseByte_byteChars (x : Fin 256) :
    parseByte (hexDigitChar (x.val / 16)) (hexDigitChar (x.val % 16)) = some x := by
  revert x
  decide

theorem parseHex_rgbToHex (c : Rgb) : parseHex (rgbToHex c) = some c := by
  show parseHexChars (rgbToHex c).data = some c
  have hdata : (rgbToHex c).data =
      ['#', hexDigitChar (c.r.val / 16), hexDigitChar (c.r.val % 16),
       hexDigitChar (c.g.val / 16), hexDigitChar (c.g.val % 16),
       hexDigitChar (c.b.val / 16), hexDigitChar (c.b.val % 16)] := by
    show ('#' :: (byteChars c.r ++ byteChars c.g ++ byteChars c.b)) = _
    simp [byteChars]
  rw [hdata]
  show (do
    let r ← parseByte (hexDigitChar (c.r.val / 16)) (hexDigitChar (c.r.val % 16))
    let g ← parseByte (hexDigitChar (c.g.val / 16)) (hexDigitChar (c.g.val % 16))
    let b ← parseByte (hexDigitChar (c.b.val / 16)) (hexDigitChar (c.b.val % 16))
    pure (⟨r, g, b⟩ : Rgb)) = some c
  rw [parseByte_byteChars c.r, parseByte_byteChars c.g, parseByte_byteChars c.b]
  rfl

theorem hexOk_rgbToHex (c : Rgb) : hexOk (rgbToHex c) = true := by
  unfold hexOk
  rw [parseHex_rgbToHex]
  rfl

end Caldera

namespace Caldera

/-! ### Step-level frame lemmas -/

theorem findColl_setVarValue_ne (s : Store) (c p : String) (m : Nat) (val : VarValue)
    (cn : String) (h : cn ≠ c) :
    (s.setVarValue c p m val).findColl cn = s.findColl cn := by
  unfold Store.setVarValue Store.findColl
  try dsimp only
  rw [find?_modifyColl s.collections c (setValF p m val) (name_setValF p m val) cn, if_neg h]

theorem findColl_setVarScopes_ne (s : Store) (c p : String) (sc : List String)
    (cn : String) (h : cn ≠ c) :
    (s.setVarScopes c p sc).findColl cn = s.findColl cn := by
  unfold Store.setVarScopes Store.findColl
  try dsimp only
  rw [find?_modifyColl s.collections c (setScopesF p sc) (name_setScopesF p sc) cn, if_neg h]

theorem varState_applyStep_frame (s : Store) (st : Step) (cn pn : String)
    (h : stepTouches cn pn st = false) :
    (applyStep s st).varState cn pn = s.varState cn pn := by
  obtain ⟨sc, sp, act⟩ := st
  have h2 : ¬(cn = sc ∧ pn = sp) := by
    rintro ⟨rfl, rfl⟩
    simp [stepTouches] at h
  unfold applyStep
  cases act with
  | ensure ty => exact varState_upsert_ne s sc sp ty cn pn h2
  | writeColor m hex a =>
    dsimp only
    split
    · rfl
    · rw [varState_setVarValue_ne _ _ _ _ _ _ _ h2, varState_upsert_ne _ _ _ _ _ _ h2]
  | writeLit ty m val sco =>
    dsimp only
    split
    · rw [varState_setVarValue_ne _ _ _ _ _ _ _ h2, varState_upsert_ne _ _ _ _ _ _ h2]
    · rw [varState_setVarScopes_ne _ _ _ _ _ _ h2, varState_setVarValue_ne _ _ _ _ _ _ _ h2,
        varState_upsert_ne _ _ _ _ _ _ h2]
  | setAlias m tc tp =>
    dsimp only
    split
    · rw [varState_setVarValue_ne _ _ _ _ _ _ _ h2]
    · rfl
  | setAliasOr ty m tc tp fb =>
    dsimp only
    split
    · rw [varState_setVarValue_ne _ _ _ _ _ _ _ h2, varState_upsert_ne _ _ _ _ _ _ h2]
    · rw [varState_setVarValue_ne _ _ _ _ _ _ _ h2, varState_upsert_ne _ _ _ _ _ _ h2]

theorem varState_applySteps_frame (s : Store) (l : List Step) (cn pn : String)
    (h : ∀ st ∈ l, stepTouches cn pn st = false) :
    (applySteps s l).varState cn pn = s.varState cn pn := by
  induction l generalizing s with
  | nil => rfl
  | cons st rest ih =>
    show (applySteps (applyStep s st) rest).varState cn pn = _
    rw [ih (applyStep s st) (fun st2 h2 => h st2 (List.mem_cons_of_mem st h2)),
      varState_applyStep_frame s st cn pn (h st (List.mem_cons_self st rest))]

theorem findColl_applyStep_frame (s : Store) (st : Step) (cn : String)
    (h : cn ≠ st.coll) :
    (applyStep s st).findColl cn = s.findColl cn := by
  obtain ⟨sc, sp, act⟩ := st
  simp only at h
  unfold applyStep
  cases act with
  | ensure ty => exact findColl_upsert_ne s sc sp ty cn h
  | writeColor m hex a =>
    dsimp only
    split
    · rfl
    · rw [findColl_setVarValue_ne _ _ _ _ _ _ h, findColl_upsert_ne _ _ _ _ _ h]
  | writeLit ty m val sco =>
    dsimp only
    split
    · rw [findColl_setVarValue_ne _ _ _ _ _ _ h, findColl_upsert_ne _ _ _ _ _ h]
    · rw [findColl_setVarScopes_ne _ _ _ _ _ h, findColl_setVarValue_ne _ _ _ _ _ _ h,
        findColl_upsert_ne _ _ _ _ _ h]
  | setAlias m tc tp =>
    dsimp only
    split
    · rw [findColl_setVarValue_ne _ _ _ _ _ _ h]
    · rfl
  | setAliasOr ty m tc tp fb =>
    dsimp only
    split
    · rw [findColl_setVarValue_ne _ _ _ _ _ _ h, findColl_upsert_ne _ _ _ _ _ h]
    · rw [findColl_setVarValue_ne _ _ _ _ _ _ h, findColl_upsert_ne _ _ _ _ _ h]

theorem findColl_applySteps_frame (s : Store) (l : List Step) (cn : String)
    (h : ∀ st ∈ l, cn ≠ st.coll) :
    (applySteps s l).findColl cn = s.findColl cn := by
  induction l generalizing s with
  | nil => rfl
  | cons st rest ih =>
    show (applySteps (applyStep s st) rest).findColl cn = _
    rw [ih (applyStep s st) (fun st2 h2 => h st2 (List.mem_cons_of_mem st h2)),
      findColl_applyStep_frame s st cn (h st (List.mem_cons_self st rest))]

/-! ### Collection-name and mode-counter invariants -/

theorem names_modifyColl (cs : List Collection) (n : String) (f : Collection → Collection)
    (hf : ∀ c, (f c).name = c.name) :
    (modifyCollByName cs n f).map (fun c => c.name) = cs.map (fun c => c.name) := by
  induction cs with
  | nil => rfl
  | cons a t ih =>
    unfold modifyCollByName
    by_cases hc : a.name = n
    · rw [if_pos hc]
      simp [hf]
    · rw [if_neg hc]
      simp [ih]

theorem collNames_applyStep (s : Store) (st : Step) :
    (applyStep s st).collections.map (fun c => c.name) =
      s.collections.map (fun c => c.name) := by
  obtain ⟨sc, sp, act⟩ := st
  have hup : ∀ ty, ((s.upsertVar sc sp ty).collections.map (fun c => c.name)) =
      s.collections.map (fun c => c.name) := by
    intro ty
    unfold Store.upsertVar
    split
    · rfl
    · split
      · rfl
      · exact names_modifyColl s.collections sc _ (name_appendVarF s.nextId sp ty)
  have hsv : ∀ (s2 : Store) (m val), ((s2.setVarValue sc sp m val).collections.map
      (fun c => c.name)) = s2.collections.map (fun c => c.name) := by
    intro s2 m val
    exact names_modifyColl s2.collections sc _ (name_setValF sp m val)
  have hss : ∀ (s2 : Store) (sco), ((s2.setVarScopes sc sp sco).collections.map
      (fun c => c.name)) = s2.collections.map (fun c => c.name) := by
    intro s2 sco
    exact names_modifyColl s2.collections sc _ (name_setScopesF sp sco)
  unfold applyStep
  cases act with
  | ensure ty => exact hup ty
  | writeColor m hex a =>
    dsimp only
    split
    · rfl
    · rw [hsv, hup]
  | writeLit ty m val sco =>
    dsimp only
    split
    · rw [hsv, hup]
    · rw [hss, hsv, hup]
  | setAlias m tc tp =>
    dsimp only
    split
    · rw [hsv]
    · rfl
  | setAliasOr ty m tc tp fb =>
    dsimp only
    split
    · rw [hsv, hup]
    · rw [hsv, hup]

theorem collNames_applySteps (s : Store) (l : List Step) :
    (applySteps s l).collections.map (fun c => c.name) =
      s.collections.map (fun c => c.name) := by
  induction l generalizing s with
  | nil => rfl
  | cons st rest ih =>
    show (applySteps (applyStep s st) rest).collections.map _ = _
    rw [ih (applyStep s st), collNames_applyStep s st]

theorem nextModeId_applyStep (s : Store) (st : Step) :
    (applyStep s st).nextModeId = s.nextModeId := by
  obtain ⟨sc, sp, act⟩ := st
  have hup : ∀ ty, (s.upsertVar sc sp ty).nextModeId = s.nextModeId := by
    intro ty
    unfold Store.upsertVar
    split
    · rfl
    · split
      · rfl
      · rfl
  unfold applyStep
  cases act with
  | ensure ty => exact hup ty
  | writeColor m hex a =>
    dsimp only
    split
    · rfl
    · show (Store.setVarValue _ _ _ _ _).nextModeId = _
      rw [show ∀ (s2 : Store) c2 p2 m2 v2, (Store.setVarValue s2 c2 p2 m2 v2).nextModeId =
        s2.nextModeId from fun _ _ _ _ _ => rfl, hup]
  | writeLit ty m val sco =>
    dsimp only
    split
    · show (Store.setVarValue _ _ _ _ _).nextModeId = _
      rw [show ∀ (s2 : Store) c2 p2 m2 v2, (Store.setVarValue s2 c2 p2 m2 v2).nextModeId =
        s2.nextModeId from fun _ _ _ _ _ => rfl, hup]
    · show (Store.setVarScopes _ _ _ _).nextModeId = _
      rw [show ∀ (s2 : Store) c2 p2 sc2, (Store.setVarScopes s2 c2 p2 sc2).nextModeId =
        s2.nextModeId from fun _ _ _ _ => rfl]
      rw [show ∀ (s2 : Store) c2 p2 m2 v2, (Store.setVarValue s2 c2 p2 m2 v2).nextModeId =
        s2.nextModeId from fun _ _ _ _ _ => rfl, hup]
  | setAlias m tc tp =>
    dsimp only
    split
    · rfl
    · rfl
  | setAliasOr ty m tc tp fb =>
    dsimp only
    split
    · show (Store.setVarValue _ _ _ _ _).nextModeId = _
      rw [show ∀ (s2 : Store) c2 p2 m2 v2, (Store.setVarValue s2 c2 p2 m2 v2).nextModeId =
        s2.nextModeId from fun _ _ _ _ _ => rfl, hup]
    · show (Store.setVarValue _ _ _ _ _).nextModeId = _
      rw [show ∀ (s2 : Store) c2 p2 m2 v2, (Store.setVarValue s2 c2 p2 m2 v2).nextModeId =
        s2.nextModeId from fun _ _ _ _ _ => rfl, hup]

theorem nextModeId_applySteps (s : Store) (l : List Step) :
    (applySteps s l).nextModeId = s.nextModeId := by
  induction l generalizing s with
  | nil => rfl
  | cons st rest ih =>
    show (applySteps (applyStep s st) rest).nextModeId = _
    rw [ih (applyStep s st), nextModeId_applyStep s st]

theorem find?_eq_none_of_names (cs : List Collection) (q : String)
    (h : ∀ c ∈ cs, c.name ≠ q) :
    cs.find? (fun c => c.name == q) = none := by
  induction cs with
  | nil => rfl
  | cons a t ih =>
    rw [List.find?_cons]
    have hb : (a.name == q) = false :=
      beq_eq_false_iff_ne.2 (h a (List.mem_cons_self a t))
    rw [hb]
    exact ih (fun c hc => h c (List.mem_cons_of_mem a hc))

theorem modifyColl_append_notin (cs : List Collection) (c : Collection) (n : String)
    (f : Collection → Collection) (h : ∀ x ∈ cs, x.name ≠ n) (hc : c.name = n) :
    modifyCollByName (cs ++ [c]) n f = cs ++ [f c] := by
  induction cs with
  | nil => simp [modifyCollByName, hc]
  | cons a t ih =>
    rw [List.cons_append]
    unfold modifyCollByName
    rw [if_neg (h a (List.mem_cons_self a t))]
    rw [ih (fun x hx => h x (List.mem_cons_of_mem a hx))]
    rfl

end Caldera

namespace Caldera

/-! ### Reduction of a valid run to its explicit shape -/

theorem applySteps_append (s : Store) (l1 l2 : List Step) :
    applySteps s (l1 ++ l2) = applySteps (applySteps s l1) l2 := by
  unfold applySteps
  exact List.foldl_append applyStep s l1 l2

theorem find?_append_gen {α : Type} (l1 l2 : List α) (q : α → Bool) :
    (l1 ++ l2).find? q = ((l1.find? q).orElse fun _ => l2.find? q) := by
  induction l1 with
  | nil => simp [List.find?]
  | cons a t ih =>
    rw [List.cons_append, List.find?_cons, List.find?_cons]
    cases q a with
    | true => simp [Option.orElse]
    | false => simp only [ih]

theorem names_eq_forall {cs : List Collection} {L : List String}
    (h : cs.map (fun c => c.name) = L) : ∀ c ∈ cs, c.name ∈ L := by
  intro c hc
  rw [← h]
  exact List.mem_map_of_mem (fun c => c.name) hc

theorem ensureColl_create (s : Store) (n m0 : String) (h : s.findColl n = none) :
    s.ensureColl n m0 =
      ⟨s.collections ++ [⟨n, [(s.nextModeId, m0)], []⟩], s.nextId, s.nextModeId + 1⟩ := by
  unfold Store.ensureColl
  rw [h]

theorem statusSection_ok (ext : Ext) (m : Nat) (name : String) (hue chroma : Nat)
    (ov : Option String) (h : ovOk ov = true) :
    statusSection ext m name hue chroma ov =
      some (statusSectionOk ext m name hue chroma ov) := by
  unfold statusSectionOk
  cases ov with
  | none => rfl
  | some o =>
    simp only [ovOk, hexOk] at h
    simp only [statusSection]
    cases ho : parseHex o with
    | none => rw [ho] at h; cases h
    | some seed => simp [ho]

theorem buildBase_valid (ext : Ext) (msg : GenMsg) (hd : HandlerData) (s : Store)
    (hs : ovOk msg.successHex = true) (hw : ovOk msg.warningHex = true)
    (hi : ovOk msg.infoHex = true) (hf : ovOk msg.failureHex = true) :
    buildBase ext msg hd s =
      (applySteps (s.ensureColl "Base" "Caldera")
        (baseStepsOk ext msg hd ((s.ensureColl "Base" "Caldera").collMode0 "Base")), none) := by
  unfold buildBase
  dsimp only
  rw [statusSection_ok ext _ "Success" 150 66 msg.successHex hs,
    statusSection_ok ext _ "Warning" 40 70 msg.warningHex hw,
    statusSection_ok ext _ "Info" 260 84 msg.infoHex hi,
    statusSection_ok ext _ "Failure" 25 84 msg.failureHex hf]
  dsimp only
  unfold baseStepsOk
  rw [applySteps_append, applySteps_append, applySteps_append, applySteps_append,
    applySteps_append, applySteps_append]

end Caldera

namespace Caldera

theorem name_ne_of_names {cs : List Collection} {L : List String}
    (h : cs.map (fun c => c.name) = L) (q : String) (hq : q ∉ L) :
    ∀ c ∈ cs, c.name ≠ q :=
  fun c hc he => hq (he ▸ names_eq_forall h c hc)

theorem findColl_append_self (cs : List Collection) (c : Collection) (i m : Nat)
    (h : ∀ x ∈ cs, x.name ≠ c.name) :
    (⟨cs ++ [c], i, m⟩ : Store).findColl c.name = some c := by
  unfold Store.findColl
  try dsimp only
  rw [find?_append_gen, find?_eq_none_of_names cs c.name h]
  simp [List.find?]

theorem ensureTheme_shape (sB : Store)
    (hnames : sB.collections.map (fun c => c.name) = ["Base"])
    (hm : sB.nextModeId = 1) :
    (sB.ensureColl "Theme" "Light").ensureThemeDark =
      ⟨sB.collections ++ [⟨"Theme", [(1, "Light"), (2, "Dark")], []⟩], sB.nextId, 3⟩ := by
  have hne : ∀ c ∈ sB.collections, c.name ≠ "Theme" :=
    name_ne_of_names hnames "Theme" (by decide)
  have hnone : sB.findColl "Theme" = none := find?_eq_none_of_names sB.collections "Theme" hne
  rw [ensureColl_create sB "Theme" "Light" hnone, hm]
  unfold Store.ensureThemeDark Store.themeDarkId
  have hfind : (⟨sB.collections ++ [⟨"Theme", [(1, "Light")], []⟩], sB.nextId, 2⟩ :
      Store).findColl "Theme" = some ⟨"Theme", [(1, "Light")], []⟩ :=
    findColl_append_self sB.collections ⟨"Theme", [(1, "Light")], []⟩ sB.nextId 2 hne
  rw [hfind]
  simp only [Option.bind, List.find?, Option.map]
  unfold Store.addMode
  try dsimp only
  rw [modifyColl_append_notin sB.collections ⟨"Theme", [(1, "Light")], []⟩ "Theme" _ hne rfl]
  rfl

theorem ensureBridge_shape (sT : Store)
    (hnames : sT.collections.map (fun c => c.name) = ["Base", "Theme"])
    (hm : sT.nextModeId = 3) :
    sT.ensureColl "Bridge" "Default" =
      ⟨sT.collections ++ [⟨"Bridge", [(3, "Default")], []⟩], sT.nextId, 4⟩ := by
  have hne : ∀ c ∈ sT.collections, c.name ≠ "Bridge" :=
    name_ne_of_names hnames "Bridge" (by decide)
  have hnone : sT.findColl "Bridge" = none := find?_eq_none_of_names sT.collections "Bridge" hne
  rw [ensureColl_create sT "Bridge" "Default" hnone, hm]

theorem neutralData_valid (ext : Ext) (msg : GenMsg) (h1 : hexOk msg.hex = true)
    (h2 : ovOk msg.neutralHex = true) :
    ∃ nd, neutralData ext msg = some nd ∧ hexOk nd.2 = true := by
  unfold neutralData
  cases hn : msg.neutralHex with
  | some nh =>
    rw [hn] at h2
    simp only [ovOk, hexOk] at h2
    cases hp : parseHex nh with
    | none => rw [hp] at h2; cases h2
    | some r =>
      refine ⟨(fullTones.map (fun t => (t, rgbToHex (ext.toneOfSeed r t))), nh), ?_, ?_⟩
      · simp [generateTonalPalette, hp]
      · unfold hexOk
        rw [hp]
        rfl
  | none =>
    simp only [hexOk] at h1
    cases hp : parseHex msg.hex with
    | none => rw [hp] at h1; cases h1
    | some rp =>
      refine ⟨(fullTones.map (fun t => (t, rgbToHex (ext.toneOfSeed
          (hslToRgb (rgbToHsl rp).h 2 (rgbToHsl rp).l) t))),
          rgbToHex (hslToRgb (rgbToHsl rp).h 2 (rgbToHsl rp).l)), ?_, ?_⟩
      · simp [generateNeutralFromPrimary, hp, generateTonalPalette, parseHex_rgbToHex]
      · exact hexOk_rgbToHex _

theorem optPaletteOk_of (ext : Ext) {o : Option String} (h : ovOk o = true) :
    optPaletteOk ext o = true := by
  cases o with
  | none => rfl
  | some hx =>
    simp only [ovOk, hexOk] at h
    simp only [optPaletteOk, generateTonalPalette]
    cases hp : parseHex hx with
    | none => rw [hp] at h; cases h
    | some r => simp [hp]

end Caldera

namespace Caldera

/-- A valid `generate-theme` run against the empty store succeeds and
produces exactly the `runStoreOk` shape. -/
theorem runGenerate_empty_valid (ext : Ext) (msg : GenMsg) (hv : ValidMsg msg) :
    ∃ hd : HandlerData, hexOk hd.neutralBaseHex = true ∧
      runGenerate ext msg emptyStore = (runStoreOk ext msg hd, none) := by
  obtain ⟨h1, h2, h3, h4, h5, h6⟩ := hv
  have h1b := h1
  simp only [hexOk] at h1b
  cases hp : parseHex msg.hex with
  | none => rw [hp] at h1b; cases h1b
  | some rp =>
    obtain ⟨nd, hnd, hndOk⟩ := neutralData_valid ext msg h1 h2
    refine ⟨⟨fullTones.map (fun t => (t, rgbToHex (ext.toneOfSeed rp t))), nd.1, nd.2⟩,
      hndOk, ?_⟩
    unfold runGenerate
    rw [show generateTonalPalette ext msg.hex fullTones =
          some (fullTones.map (fun t => (t, rgbToHex (ext.toneOfSeed rp t))))
        from by simp [generateTonalPalette, hp]]
    rw [hnd]
    dsimp only
    rw [if_pos (optPaletteOk_of ext h3), if_pos (optPaletteOk_of ext h4),
      if_pos (optPaletteOk_of ext h5)]
    unfold buildAll
    rw [buildBase_valid ext msg _ emptyStore h3 h4 h5 h6]
    dsimp only
    have hs1 : emptyStore.ensureColl "Base" "Caldera" =
        (⟨[⟨"Base", [(0, "Caldera")], []⟩], 0, 1⟩ : Store) := rfl
    rw [hs1]
    have hm0 : (⟨[⟨"Base", [(0, "Caldera")], []⟩], 0, 1⟩ : Store).collMode0 "Base" = 0 := rfl
    rw [hm0]
    set sB := applySteps (⟨[⟨"Base", [(0, "Caldera")], []⟩], 0, 1⟩ : Store)
      (baseStepsOk ext msg ⟨fullTones.map (fun t => (t, rgbToHex (ext.toneOfSeed rp t))),
        nd.1, nd.2⟩ 0) with hsB
    have hnamesB : sB.collections.map (fun c => c.name) = ["Base"] := by
      rw [hsB]
      rw [collNames_applySteps]
      rfl
    have hmB : sB.nextModeId = 1 := by
      rw [hsB, nextModeId_applySteps]
    rw [ensureTheme_shape sB hnamesB hmB]
    set sT0 : Store := ⟨sB.collections ++ [⟨"Theme", [(1, "Light"), (2, "Dark")], []⟩],
      sB.nextId, 3⟩ with hsT0
    have hfT : sT0.findColl "Theme" = some ⟨"Theme", [(1, "Light"), (2, "Dark")], []⟩ :=
      findColl_append_self sB.collections ⟨"Theme", [(1, "Light"), (2, "Dark")], []⟩
        sB.nextId 3 (name_ne_of_names hnamesB "Theme" (by decide))
    have hmT : sT0.collMode0 "Theme" = 1 := by
      unfold Store.collMode0
      rw [hfT]
      rfl
    have hdT : sT0.themeDarkId = some 2 := by
      unfold Store.themeDarkId
      rw [hfT]
      rfl
    rw [hmT, hdT]
    rw [show (some 2).getD 0 = 2 from rfl]
    set sT := applySteps sT0 (themeSteps 1 2 (msg.cornerRadiusLevel.getD 3)) with hsT
    have hnamesT : sT.collections.map (fun c => c.name) = ["Base", "Theme"] := by
      rw [hsT, collNames_applySteps, hsT0]
      simp [hnamesB]
    have hmTT : sT.nextModeId = 3 := by
      rw [hsT, nextModeId_applySteps]
    rw [ensureBridge_shape sT hnamesT hmTT]
    have hmBr : (⟨sT.collections ++ [⟨"Bridge", [(3, "Default")], []⟩], sT.nextId, 4⟩ :
        Store).collMode0 "Bridge" = 3 := by
      unfold Store.collMode0
      rw [findColl_append_self sT.collections ⟨"Bridge", [(3, "Default")], []⟩ sT.nextId 4
        (name_ne_of_names hnamesT "Bridge" (by decide))]
      rfl
    rw [hmBr]
    rfl

end Caldera

namespace Caldera

/-! ### Value-write (hit) lemmas for single steps -/

theorem valueAt_setVarScopes (s : Store) (c p : String) (sc : List String)
    (cn pn : String) (m : Nat) :
    (s.setVarScopes c p sc).valueAt cn pn m = s.valueAt cn pn m := by
  unfold Store.valueAt
  by_cases h : cn = c ∧ pn = p
  · obtain ⟨rfl, rfl⟩ := h
    rw [varState_setVarScopes_self]
    cases s.varState cn pn with
    | none => rfl
    | some v => rfl
  · rw [varState_setVarScopes_ne s c p sc cn pn h]

theorem valueAt_setVarValue_self (s : Store) (c p : String) (m : Nat) (val : VarValue)
    (hs : (s.varState c p).isSome = true) :
    (s.setVarValue c p m val).valueAt c p m = some val := by
  unfold Store.valueAt
  rw [varState_setVarValue_self]
  obtain ⟨v, hv⟩ := Option.isSome_iff_exists.1 hs
  rw [hv]
  show lookupMode (updateModeValue v.values m val) m = some val
  rw [lookupMode_update, if_pos rfl]

theorem valueAt_setVarValue_mode (s : Store) (c p : String) (m : Nat) (val : VarValue)
    (cn pn : String) (m2 : Nat) (h : m2 ≠ m ∨ ¬(cn = c ∧ pn = p)) :
    (s.setVarValue c p m val).valueAt cn pn m2 = s.valueAt cn pn m2 := by
  unfold Store.valueAt
  by_cases hcp : cn = c ∧ pn = p
  · obtain ⟨rfl, rfl⟩ := hcp
    have hm : m2 ≠ m := by
      cases h with
      | inl h => exact h
      | inr h => exact absurd ⟨rfl, rfl⟩ h
    rw [varState_setVarValue_self]
    cases s.varState cn pn with
    | none => rfl
    | some v =>
      show lookupMode (updateModeValue v.values m val) m2 = _
      rw [lookupMode_update, if_neg hm]
      rfl
  · rw [varState_setVarValue_ne s c p m val cn pn hcp]

theorem varState_isSome_upsert (s : Store) (c p : String) (ty : VarType)
    (hc : (s.findColl c).isSome = true) :
    ((s.upsertVar c p ty).varState c p).isSome = true := by
  obtain ⟨c0, hc0⟩ := Option.isSome_iff_exists.1 hc
  rw [varState_upsert_self s c p ty hc0]
  rfl

theorem valueAt_applyStep_writeColor (s : Store) (c p : String) (m : Nat) (hex : String)
    (a : ℚ) (rgb : Rgb) (hc : (s.findColl c).isSome = true) (hh : parseHex hex = some rgb) :
    (applyStep s ⟨c, p, .writeColor m hex a⟩).valueAt c p m = some (.colorV rgb a) := by
  unfold applyStep
  simp only [hh]
  exact valueAt_setVarValue_self _ c p m _ (varState_isSome_upsert s c p .color hc)

theorem valueAt_applyStep_writeLit (s : Store) (c p : String) (ty : VarType) (m : Nat)
    (val : VarValue) (sc : Option (List String)) (hc : (s.findColl c).isSome = true) :
    (applyStep s ⟨c, p, .writeLit ty m val sc⟩).valueAt c p m = some val := by
  unfold applyStep
  cases sc with
  | none => exact valueAt_setVarValue_self _ c p m _ (varState_isSome_upsert s c p ty hc)
  | some l =>
    dsimp only
    rw [valueAt_setVarScopes]
    exact valueAt_setVarValue_self _ c p m _ (varState_isSome_upsert s c p ty hc)

theorem valueAt_applyStep_setAlias (s : Store) (c p : String) (m : Nat) (tc tp : String)
    (hs : (s.varState c p).isSome = true) :
    (applyStep s ⟨c, p, .setAlias m tc tp⟩).valueAt c p m =
      match (s.findColl tc).bind (fun cc => cc.findVar tp) with
      | some tv => some (.aliasV tv.id)
      | none => s.valueAt c p m := by
  unfold applyStep
  dsimp only
  cases ht : (s.findColl tc).bind (fun cc => cc.findVar tp) with
  | some tv =>
    dsimp only
    exact valueAt_setVarValue_self s c p m _ hs
  | none => rfl

theorem valueAt_applyStep_setAlias_mode (s : Store) (c p : String) (m : Nat) (tc tp : String)
    (cn pn : String) (m2 : Nat) (h : m2 ≠ m ∨ ¬(cn = c ∧ pn = p)) :
    (applyStep s ⟨c, p, .setAlias m tc tp⟩).valueAt cn pn m2 = s.valueAt cn pn m2 := by
  unfold applyStep
  dsimp only
  cases ht : (s.findColl tc).bind (fun cc => cc.findVar tp) with
  | some tv =>
    dsimp only
    exact valueAt_setVarValue_mode s c p m _ cn pn m2 h
  | none => rfl

theorem valueAt_applyStep_setAliasOr (s : Store) (c p : String) (ty : VarType) (m : Nat)
    (tc tp : String) (fb : VarValue) (hc : (s.findColl c).isSome = true) (htc : tc ≠ c) :
    (applyStep s ⟨c, p, .setAliasOr ty m tc tp fb⟩).valueAt c p m =
      match (s.findColl tc).bind (fun cc => cc.findVar tp) with
      | some tv => some (.aliasV tv.id)
      | none => some fb := by
  unfold applyStep
  dsimp only
  have hsame : ((s.upsertVar c p ty).findColl tc).bind (fun cc => cc.findVar tp) =
      (s.findColl tc).bind (fun cc => cc.findVar tp) := by
    rw [findColl_upsert_ne s c p ty tc htc]
  rw [hsame]
  cases ht : (s.findColl tc).bind (fun cc => cc.findVar tp) with
  | some tv =>
    dsimp only
    exact valueAt_setVarValue_self _ c p m _ (varState_isSome_upsert s c p ty hc)
  | none =>
    dsimp only
    exact valueAt_setVarValue_self _ c p m _ (varState_isSome_upsert s c p ty hc)

/-- An `ensure` step leaves every value unchanged (it may create a
variable, but with an empty value list). -/
theorem valueAt_applyStep_ensure (s : Store) (c p : String) (ty : VarType)
    (cn pn : String) (m : Nat) :
    (applyStep s ⟨c, p, .ensure ty⟩).valueAt cn pn m = s.valueAt cn pn m := by
  unfold applyStep
  dsimp only
  unfold Store.valueAt
  by_cases hcp : cn = c ∧ pn = p
  · obtain ⟨rfl, rfl⟩ := hcp
    cases hc : s.findColl cn with
    | none =>
      unfold Store.upsertVar
      rw [hc]
    | some c0 =>
      rw [varState_upsert_self s cn pn ty hc]
      have hvs : s.varState cn pn = (c0.findVar pn) := by
        unfold Store.varState
        rw [hc]
        rfl
      cases hv : c0.findVar pn with
      | some v =>
        rw [hvs, hv]
        rfl
      | none =>
        rw [hvs, hv]
        rfl
  · rw [varState_upsert_ne s c p ty cn pn hcp]

theorem valueAt_frame_steps (s : Store) (l : List Step) (cn pn : String) (m : Nat)
    (h : ∀ st ∈ l, stepTouches cn pn st = false) :
    (applySteps s l).valueAt cn pn m = s.valueAt cn pn m := by
  unfold Store.valueAt
  rw [varState_applySteps_frame s l cn pn h]

theorem frame_of_paths {l : List Step} {C : String} {P : List String}
    (hl : ∀ st ∈ l, st.coll = C ∧ st.path ∈ P) (cn pn : String)
    (h : cn ≠ C ∨ pn ∉ P) : ∀ st ∈ l, stepTouches cn pn st = false := by
  intro st hst
  obtain ⟨hc, hp⟩ := hl st hst
  unfold stepTouches
  cases h with
  | inl h =>
    have : (st.coll == cn) = false := by
      rw [hc]
      exact beq_eq_false_iff_ne.2 (fun he => h he.symm)
    rw [this]
    rfl
  | inr h =>
    have : (st.path == pn) = false := by
      refine beq_eq_false_iff_ne.2 (fun he => h ?_)
      rw [← he]
      exact hp
    rw [this]
    simp

theorem frame_of_colls {l : List Step} {C : String}
    (hl : ∀ st ∈ l, st.coll = C) (cn pn : String) (h : cn ≠ C) :
    ∀ st ∈ l, stepTouches cn pn st = false := by
  intro st hst
  unfold stepTouches
  have : (st.coll == cn) = false := by
    rw [hl st hst]
    exact beq_eq_false_iff_ne.2 (fun he => h he.symm)
  rw [this]
  rfl

end Caldera

namespace Caldera

/-! ### Collection existence and staged-store frames -/

theorem find?_isSome_names (q : String) :
    ∀ {cs cs2 : List Collection},
      cs.map (fun c => c.name) = cs2.map (fun c => c.name) →
      (cs.find? (fun c => c.name == q)).isSome = (cs2.find? (fun c => c.name == q)).isSome := by
  intro cs
  induction cs with
  | nil =>
    intro cs2 h
    cases cs2 with
    | nil => rfl
    | cons b t2 => cases h
  | cons a t ih =>
    intro cs2 h
    cases cs2 with
    | nil => cases h
    | cons b t2 =>
      simp only [List.map_cons, List.cons.injEq] at h
      rw [List.find?_cons, List.find?_cons, h.1]
      cases hb : (b.name == q) with
      | true => rfl
      | false => exact ih h.2

theorem findColl_isSome_applySteps (s : Store) (l : List Step) (cn : String) :
    ((applySteps s l).findColl cn).isSome = (s.findColl cn).isSome := by
  unfold Store.findColl
  try dsimp only
  exact find?_isSome_names cn (collNames_applySteps s l)

theorem find?_coll_append_ne (cs : List Collection) (c : Collection) (cn : String)
    (h : cn ≠ c.name) :
    (cs ++ [c]).find? (fun x => x.name == cn) = cs.find? (fun x => x.name == cn) := by
  rw [find?_append_gen]
  have hb : (c.name == cn) = false := beq_eq_false_iff_ne.2 (fun he => h he.symm)
  cases hf : cs.find? (fun x => x.name == cn) with
  | some c0 => rfl
  | none => simp [List.find?, hb]

theorem varState_mk_append (s : Store) (c : Collection) (i m : Nat)
    (cn pn : String) (h : cn ≠ c.name) :
    (⟨s.collections ++ [c], i, m⟩ : Store).varState cn pn = s.varState cn pn := by
  unfold Store.varState Store.findColl
  try dsimp only
  rw [find?_coll_append_ne s.collections c cn h]

theorem aliasSteps_mem (ty : VarType) (lId dId : Nat) (p lt dt : String) :
    ∀ st ∈ aliasSteps ty lId dId p lt dt, st.coll = "Theme" ∧ st.path = p := by
  intro st hst
  unfold aliasSteps at hst
  simp only [List.mem_cons, List.not_mem_nil, or_false] at hst
  rcases hst with rfl | rfl | rfl <;> exact ⟨rfl, rfl⟩

theorem themeSteps_colls (lId dId : Nat) (lvl : ℤ) :
    ∀ st ∈ themeSteps lId dId lvl, st.coll = "Theme" := by
  intro st hst
  unfold themeSteps at hst
  rw [List.mem_flatMap] at hst
  obtain ⟨e, _, hst⟩ := hst
  unfold themeEntrySteps at hst
  exact (aliasSteps_mem e.ty lId dId e.path e.light e.dark st hst).1

theorem bridgeSteps_colls (bm : Nat) (mbe : Bool) (mps : String) (hip hbe : Bool) :
    ∀ st ∈ bridgeSteps bm mbe mps hip hbe, st.coll = "Bridge" := by
  intro st hst
  unfold bridgeSteps at hst
  cases mbe <;> cases hbe <;>
    simp only [if_true, if_false, Bool.false_eq_true, List.mem_append, List.mem_cons,
      List.not_mem_nil, or_false, false_or, or_assoc, if_neg, if_pos] at hst <;>
    (first
      | (rcases hst with rfl | rfl | rfl | rfl | rfl | rfl <;> rfl)
      | (rcases hst with rfl | rfl | rfl | rfl | rfl <;> rfl)
      | (rcases hst with rfl | rfl | rfl | rfl <;> rfl))

theorem runStoreOk_eq (ext : Ext) (msg : GenMsg) (hd : HandlerData) :
    runStoreOk ext msg hd = applySteps (bridgeStart ext msg hd)
      (bridgeSteps 3 (msg.modalBackgroundEnabled.getD true) (msg.modalPaddingSize.getD "2")
        (msg.headerIconsPairingEnabled.getD true) (msg.headerBackgroundEnabled.getD false)) := rfl

theorem varState_runStoreOk_noBridge (ext : Ext) (msg : GenMsg) (hd : HandlerData)
    (cn pn : String) (h : cn ≠ "Bridge") :
    (runStoreOk ext msg hd).varState cn pn = (runTheme ext msg hd).varState cn pn := by
  rw [runStoreOk_eq]
  rw [varState_applySteps_frame _ _ cn pn
    (frame_of_colls (bridgeSteps_colls _ _ _ _ _) cn pn h)]
  unfold bridgeStart
  exact varState_mk_append (runTheme ext msg hd) _ _ _ cn pn h

theorem varState_runTheme_noTheme (ext : Ext) (msg : GenMsg) (hd : HandlerData)
    (cn pn : String) (h : cn ≠ "Theme") :
    (runTheme ext msg hd).varState cn pn = (runBase ext msg hd).varState cn pn := by
  unfold runTheme
  rw [varState_applySteps_frame _ _ cn pn
    (frame_of_colls (themeSteps_colls _ _ _) cn pn h)]
  unfold themeStart
  exact varState_mk_append (runBase ext msg hd) _ _ _ cn pn h

end Caldera

namespace Caldera

/-! ### Normal forms of the palette sections -/

theorem filterMap_eq_map_of {α β : Type} (l : List α) (h : α → Option β) (g : α → β)
    (hl : ∀ a ∈ l, h a = some (g a)) : l.filterMap h = l.map g := by
  induction l with
  | nil => rfl
  | cons a t ih =>
    rw [List.filterMap_cons, hl a (List.mem_cons_self a t), List.map_cons,
      ih (fun x hx => hl x (List.mem_cons_of_mem a hx))]

theorem lookupTone_map (tones : List Nat) (f : Nat → String) (t : Nat) (ht : t ∈ tones) :
    lookupTone (tones.map (fun x => (x, f x))) t = some (f t) := by
  induction tones with
  | nil => cases ht
  | cons a rest ih =>
    rw [List.mem_cons] at ht
    by_cases ha : a = t
    · subst ha
      simp [lookupTone, List.find?_cons]
    · have ht2 := ht.resolve_left (fun he => ha he.symm)
      have hb : (a == t) = false := beq_eq_false_iff_ne.2 ha
      simp only [lookupTone, List.map_cons, List.find?_cons, hb] at ih ⊢
      exact ih ht2

theorem toneVarSteps_full (m : Nat) (g : String) (tones tonesAll : List Nat)
    (f : Nat → String) (hsub : ∀ t ∈ tones, t ∈ tonesAll) :
    toneVarSteps m g tones (tonesAll.map (fun x => (x, f x))) =
      tones.map (fun t => colorStep m ("Colors/" ++ g ++ "/" ++ toString t) (f t) 1) := by
  unfold toneVarSteps
  refine filterMap_eq_map_of tones _ _ (fun t ht => ?_)
  rw [lookupTone_map tonesAll f t (hsub t ht)]
  rfl

theorem statusSectionOk_none (ext : Ext) (m : Nat) (name : String) (hue ch : Nat) :
    statusSectionOk ext m name hue ch none =
      statusTones.map (fun t => colorStep m ("Colors/" ++ name ++ "/" ++ toString t)
        (rgbToHex (ext.toneOfHueChroma hue ch t)) 1) ++
      [colorStep m ("Colors/" ++ name ++ "/Base")
        (rgbToHex (ext.toneOfHueChroma hue ch 50)) 1] := by
  unfold statusSectionOk statusSection
  dsimp only [Option.getD]
  rw [toneVarSteps_full m name statusTones statusTones
    (fun t => rgbToHex (ext.toneOfHueChroma hue ch t)) (fun t ht => ht)]

theorem statusSectionOk_some (ext : Ext) (m : Nat) (name : String) (hue ch : Nat)
    (o : String) (seed : Rgb) (hp : parseHex o = some seed) :
    statusSectionOk ext m name hue ch (some o) =
      statusTones.map (fun t => colorStep m ("Colors/" ++ name ++ "/" ++ toString t)
        (rgbToHex (ext.toneOfSeed seed t)) 1) ++
      [colorStep m ("Colors/" ++ name ++ "/Base") o 1] := by
  unfold statusSectionOk statusSection
  dsimp only
  rw [hp]
  dsimp only [Option.map, Option.getD]
  rw [toneVarSteps_full m name statusTones statusTones
    (fun t => rgbToHex (ext.toneOfSeed seed t)) (fun t ht => ht)]

/-! ### Aggregated write-hit lemmas -/

theorem frames_append {l1 l2 : List Step} {c p : String}
    (h1 : ∀ st ∈ l1, stepTouches c p st = false)
    (h2 : ∀ st ∈ l2, stepTouches c p st = false) :
    ∀ st ∈ l1 ++ l2, stepTouches c p st = false := by
  intro st hst
  rcases List.mem_append.1 hst with h | h
  · exact h1 st h
  · exact h2 st h

theorem valueAt_applySteps_colorStepMap (m : Nat) (tones : List Nat)
    (pathF hexF : Nat → String) :
    ∀ (s : Store), (tones.map pathF).Nodup →
    ((s.findColl "Base").isSome = true) →
    ∀ t ∈ tones, ∀ rgb : Rgb, parseHex (hexF t) = some rgb →
    (applySteps s (tones.map (fun x => colorStep m (pathF x) (hexF x) 1))).valueAt
      "Base" (pathF t) m = some (.colorV rgb 1) := by
  induction tones with
  | nil =>
    intro s _ _ t ht
    cases ht
  | cons a rest ih =>
    intro s hnd hc t ht rgb hparse
    rw [List.map_cons] at hnd
    rw [List.map_cons]
    show (applySteps (applyStep s (colorStep m (pathF a) (hexF a) 1))
      (rest.map (fun x => colorStep m (pathF x) (hexF x) 1))).valueAt "Base" (pathF t) m = _
    rcases List.mem_cons.1 ht with rfl | hmem
    · have hfr : ∀ st ∈ rest.map (fun x => colorStep m (pathF x) (hexF x) 1),
          stepTouches "Base" (pathF t) st = false := by
        intro st hst
        rw [List.mem_map] at hst
        obtain ⟨x, hx, rfl⟩ := hst
        have hne : pathF x ≠ pathF t := by
          intro he
          exact (List.nodup_cons.1 hnd).1 (he ▸ List.mem_map_of_mem pathF hx)
        unfold stepTouches colorStep
        simp [beq_eq_false_iff_ne.2 hne]
      rw [valueAt_frame_steps _ _ _ _ _ hfr]
      exact valueAt_applyStep_writeColor s "Base" (pathF t) m (hexF t) 1 rgb hc hparse
    · have hc2 : (((applyStep s (colorStep m (pathF a) (hexF a) 1)).findColl "Base")).isSome
          = true := by
        rw [show applyStep s (colorStep m (pathF a) (hexF a) 1) =
            applySteps s [colorStep m (pathF a) (hexF a) 1] from rfl,
          findColl_isSome_applySteps]
        exact hc
      exact ih _ (List.nodup_cons.1 hnd).2 hc2 t hmem rgb hparse

theorem valueAt_applySteps_colorHit (s : Store) (l1 l2 : List Step) (c p : String)
    (m : Nat) (hex : String) (a : ℚ) (rgb : Rgb)
    (hfr : ∀ st ∈ l2, stepTouches c p st = false)
    (hc : (s.findColl c).isSome = true) (hh : parseHex hex = some rgb) :
    (applySteps s (l1 ++ ⟨c, p, .writeColor m hex a⟩ :: l2)).valueAt c p m =
      some (.colorV rgb a) := by
  rw [show l1 ++ (⟨c, p, Act.writeColor m hex a⟩ : Step) :: l2 =
      (l1 ++ [(⟨c, p, Act.writeColor m hex a⟩ : Step)]) ++ l2 by simp]
  rw [applySteps_append, applySteps_append]
  rw [valueAt_frame_steps _ l2 c p m hfr]
  have hc1 : ((applySteps s l1).findColl c).isSome = true := by
    rw [findColl_isSome_applySteps]
    exact hc
  exact valueAt_applyStep_writeColor (applySteps s l1) c p m hex a rgb hc1 hh

theorem valueAt_applySteps_litHit (s : Store) (l1 l2 : List Step) (c p : String)
    (ty : VarType) (m : Nat) (val : VarValue) (sc : Option (List String))
    (hfr : ∀ st ∈ l2, stepTouches c p st = false)
    (hc : (s.findColl c).isSome = true) :
    (applySteps s (l1 ++ ⟨c, p, .writeLit ty m val sc⟩ :: l2)).valueAt c p m = some val := by
  rw [show l1 ++ (⟨c, p, Act.writeLit ty m val sc⟩ : Step) :: l2 =
      (l1 ++ [(⟨c, p, Act.writeLit ty m val sc⟩ : Step)]) ++ l2 by simp]
  rw [applySteps_append, applySteps_append]
  rw [valueAt_frame_steps _ l2 c p m hfr]
  have hc1 : ((applySteps s l1).findColl c).isSome = true := by
    rw [findColl_isSome_applySteps]
    exact hc
  exact valueAt_applyStep_writeLit (applySteps s l1) c p ty m val sc hc1

end Caldera

namespace Caldera

/-! ### Which paths each Base section may touch -/

theorem toneVarSteps_paths (m : Nat) (g : String) (tones : List Nat)
    (cs : List (Nat × String)) :
    ∀ st ∈ toneVarSteps m g tones cs, st.coll = "Base" ∧
      st.path ∈ tones.map (fun t => "Colors/" ++ g ++ "/" ++ toString t) := by
  intro st hst
  unfold toneVarSteps at hst
  rw [List.mem_filterMap] at hst
  obtain ⟨t, ht, hmap⟩ := hst
  cases hl : lookupTone cs t with
  | none =>
    rw [hl] at hmap
    cases hmap
  | some h =>
    rw [hl] at hmap
    simp only [Option.map_some', Option.some.injEq] at hmap
    subst hmap
    exact ⟨rfl, List.mem_map_of_mem _ ht⟩

theorem alphaVarSteps_paths (m : Nat) (g hex : String) :
    ∀ st ∈ alphaVarSteps m g hex, st.coll = "Base" ∧
      st.path ∈ alphaRange.map (fun t => "Colors/" ++ g ++ "/Alpha/" ++ toString t) := by
  intro st hst
  unfold alphaVarSteps at hst
  rw [List.mem_map] at hst
  obtain ⟨t, ht, rfl⟩ := hst
  exact ⟨rfl, List.mem_map_of_mem (fun t => "Colors/" ++ g ++ "/Alpha/" ++ toString t) ht⟩

theorem statusSectionOk_paths (ext : Ext) (m : Nat) (name : String) (hue ch : Nat)
    (ov : Option String) :
    ∀ st ∈ statusSectionOk ext m name hue ch ov,
      st.coll = "Base" ∧ st.path ∈ statusPaths name := by
  intro st hst
  have hmain : ∀ (cs : List (Nat × String)) (bhex : String),
      st ∈ toneVarSteps m name statusTones cs ++ [colorStep m ("Colors/" ++ name ++ "/Base") bhex 1] →
      st.coll = "Base" ∧ st.path ∈ statusPaths name := by
    intro cs bhex hm
    rcases List.mem_append.1 hm with h | h
    · have := toneVarSteps_paths m name statusTones cs st h
      exact ⟨this.1, List.mem_append.2 (Or.inl this.2)⟩
    · obtain rfl := List.mem_singleton.1 h
      exact ⟨rfl, List.mem_append.2 (Or.inr (List.mem_singleton.2 rfl))⟩
  unfold statusSectionOk statusSection at hst
  cases ov with
  | none =>
    dsimp only [Option.getD] at hst
    exact hmain _ _ hst
  | some o =>
    dsimp only at hst
    cases hp : parseHex o with
    | none =>
      rw [hp] at hst
      cases hst
    | some seed =>
      rw [hp] at hst
      dsimp only [Option.map, Option.getD] at hst
      exact hmain _ _ hst

theorem whiteBlackSteps_paths (m : Nat) :
    ∀ st ∈ whiteBlackSteps m, st.coll = "Base" ∧ st.path ∈ tailPaths := by
  intro st hst
  unfold whiteBlackSteps at hst
  unfold tailPaths
  simp only [List.append_assoc] at hst ⊢
  rcases List.mem_append.1 hst with h | hst
  · obtain rfl := List.mem_singleton.1 h
    exact ⟨rfl, List.mem_append.2 (Or.inl (List.mem_singleton.2 rfl))⟩
  rcases List.mem_append.1 hst with h | hst
  · rw [List.mem_map] at h
    obtain ⟨t, ht, rfl⟩ := h
    exact ⟨rfl, List.mem_append.2 (Or.inr (List.mem_append.2 (Or.inl
      (List.mem_map_of_mem (fun a => "Colors/White/" ++ toString a) ht))))⟩
  rcases List.mem_append.1 hst with h | hst
  · obtain rfl := List.mem_singleton.1 h
    exact ⟨rfl, List.mem_append.2 (Or.inr (List.mem_append.2 (Or.inr (List.mem_append.2
      (Or.inl (List.mem_singleton.2 rfl))))))⟩
  · rw [List.mem_map] at hst
    obtain ⟨t, ht, rfl⟩ := hst
    exact ⟨rfl, List.mem_append.2 (Or.inr (List.mem_append.2 (Or.inr (List.mem_append.2
      (Or.inr (List.mem_append.2 (Or.inl
        (List.mem_map_of_mem (fun a => "Colors/Black/" ++ toString a) ht))))))))⟩

theorem cornerSteps_paths (m : Nat) :
    ∀ st ∈ cornerSteps m, st.coll = "Base" ∧ st.path ∈ tailPaths := by
  intro st hst
  unfold cornerSteps at hst
  rw [List.mem_map] at hst
  obtain ⟨p, hp, rfl⟩ := hst
  refine ⟨rfl, ?_⟩
  unfold tailPaths
  simp only [List.append_assoc]
  exact List.mem_append.2 (Or.inr (List.mem_append.2 (Or.inr (List.mem_append.2 (Or.inr
    (List.mem_append.2 (Or.inr (List.mem_append.2 (Or.inl
      (List.mem_map_of_mem _ hp))))))))))

theorem spacingSteps_paths (m : Nat) :
    ∀ st ∈ spacingSteps m, st.coll = "Base" ∧ st.path ∈ tailPaths := by
  intro st hst
  unfold spacingSteps at hst
  rw [List.mem_map] at hst
  obtain ⟨p, hp, rfl⟩ := hst
  refine ⟨rfl, ?_⟩
  unfold tailPaths
  simp only [List.append_assoc]
  exact List.mem_append.2 (Or.inr (List.mem_append.2 (Or.inr (List.mem_append.2 (Or.inr
    (List.mem_append.2 (Or.inr (List.mem_append.2 (Or.inr (List.mem_append.2 (Or.inl
      (List.mem_map_of_mem _ hp))))))))))))

theorem typographySteps_paths (ext : Ext) (msg : GenMsg) (m : Nat) :
    ∀ st ∈ typographySteps ext msg m, st.coll = "Base" ∧ st.path ∈ tailPaths := by
  intro st hst
  unfold typographySteps at hst
  rw [List.mem_flatten] at hst
  obtain ⟨blk, hblk, hst⟩ := hst
  rw [List.mem_map] at hblk
  obtain ⟨role, hrole, rfl⟩ := hblk
  have hTY : ∀ q ∈ ["Typography/" ++ role ++ "/Font", "Typography/" ++ role ++ "/Style"],
      q ∈ tailPaths := by
    intro q hq
    unfold tailPaths
    simp only [List.append_assoc]
    exact List.mem_append.2 (Or.inr (List.mem_append.2 (Or.inr (List.mem_append.2 (Or.inr
      (List.mem_append.2 (Or.inr (List.mem_append.2 (Or.inr (List.mem_append.2 (Or.inr
        (List.mem_flatMap.2 ⟨role, hrole, hq⟩))))))))))))
  cases hres : resolveFont ext.fontLoads (fontOverrideFor msg role) (typDefault role) with
  | none =>
    rw [hres] at hst
    cases hst
  | some f =>
    rw [hres] at hst
    simp only [List.mem_cons, List.not_mem_nil, or_false] at hst
    rcases hst with rfl | rfl
    · exact ⟨rfl, hTY _ (by simp)⟩
    · exact ⟨rfl, hTY _ (by simp)⟩

theorem baseTailSteps_paths (ext : Ext) (msg : GenMsg) (m : Nat) :
    ∀ st ∈ baseTailSteps ext msg m, st.coll = "Base" ∧ st.path ∈ tailPaths := by
  intro st hst
  unfold baseTailSteps at hst
  simp only [List.append_assoc] at hst
  rcases List.mem_append.1 hst with h | hst
  · exact whiteBlackSteps_paths m st h
  rcases List.mem_append.1 hst with h | hst
  · exact cornerSteps_paths m st h
  rcases List.mem_append.1 hst with h | h
  · exact spacingSteps_paths m st h
  · exact typographySteps_paths ext msg m st h

end Caldera

namespace Caldera

theorem valueAt_of_varState_eq {s t : Store} {cn pn : String}
    (h : s.varState cn pn = t.varState cn pn) (m : Nat) :
    s.valueAt cn pn m = t.valueAt cn pn m := by
  unfold Store.valueAt
  rw [h]

/-! ### Status section values in a surrounding step list -/

theorem valueAt_statusBase_none (s : Store) (ext : Ext) (m : Nat) (name : String)
    (hue ch : Nat) (l1 l2 : List Step)
    (hc : (s.findColl "Base").isSome = true)
    (hfr : ∀ st ∈ l2, stepTouches "Base" ("Colors/" ++ name ++ "/Base") st = false) :
    (applySteps s (l1 ++ statusSectionOk ext m name hue ch none ++ l2)).valueAt
      "Base" ("Colors/" ++ name ++ "/Base") m =
      some (.colorV (ext.toneOfHueChroma hue ch 50) 1) := by
  rw [statusSectionOk_none]
  rw [show l1 ++ (statusTones.map (fun t => colorStep m ("Colors/" ++ name ++ "/" ++ toString t)
        (rgbToHex (ext.toneOfHueChroma hue ch t)) 1) ++
      [colorStep m ("Colors/" ++ name ++ "/Base")
        (rgbToHex (ext.toneOfHueChroma hue ch 50)) 1]) ++ l2 =
      (l1 ++ statusTones.map (fun t => colorStep m ("Colors/" ++ name ++ "/" ++ toString t)
        (rgbToHex (ext.toneOfHueChroma hue ch t)) 1)) ++
      (⟨"Base", "Colors/" ++ name ++ "/Base",
        .writeColor m (rgbToHex (ext.toneOfHueChroma hue ch 50)) 1⟩ : Step) :: l2 by
    simp [colorStep]]
  exact valueAt_applySteps_colorHit s _ l2 "Base" _ m _ 1 _ hfr hc
    (parseHex_rgbToHex (ext.toneOfHueChroma hue ch 50))

theorem valueAt_statusBase_some (s : Store) (ext : Ext) (m : Nat) (name : String)
    (hue ch : Nat) (o : String) (seed : Rgb) (hp : parseHex o = some seed)
    (l1 l2 : List Step)
    (hc : (s.findColl "Base").isSome = true)
    (hfr : ∀ st ∈ l2, stepTouches "Base" ("Colors/" ++ name ++ "/Base") st = false) :
    (applySteps s (l1 ++ statusSectionOk ext m name hue ch (some o) ++ l2)).valueAt
      "Base" ("Colors/" ++ name ++ "/Base") m = some (.colorV seed 1) := by
  rw [statusSectionOk_some ext m name hue ch o seed hp]
  rw [show l1 ++ (statusTones.map (fun t => colorStep m ("Colors/" ++ name ++ "/" ++ toString t)
        (rgbToHex (ext.toneOfSeed seed t)) 1) ++
      [colorStep m ("Colors/" ++ name ++ "/Base") o 1]) ++ l2 =
      (l1 ++ statusTones.map (fun t => colorStep m ("Colors/" ++ name ++ "/" ++ toString t)
        (rgbToHex (ext.toneOfSeed seed t)) 1)) ++
      (⟨"Base", "Colors/" ++ name ++ "/Base", .writeColor m o 1⟩ : Step) :: l2 by
    simp [colorStep]]
  exact valueAt_applySteps_colorHit s _ l2 "Base" _ m o 1 seed hfr hc hp

theorem valueAt_statusTone_some (s : Store) (ext : Ext) (m : Nat) (name : String)
    (hue ch : Nat) (o : String) (seed : Rgb) (hp : parseHex o = some seed)
    (l1 l2 : List Step) (t : Nat) (ht : t ∈ statusTones)
    (hc : (s.findColl "Base").isSome = true)
    (hnd : (statusTones.map (fun t => "Colors/" ++ name ++ "/" ++ toString t)).Nodup)
    (hTB : ("Colors/" ++ name ++ "/" ++ toString t) ≠ ("Colors/" ++ name ++ "/Base"))
    (hfr : ∀ st ∈ l2, stepTouches "Base" ("Colors/" ++ name ++ "/" ++ toString t) st = false) :
    (applySteps s (l1 ++ statusSectionOk ext m name hue ch (some o) ++ l2)).valueAt
      "Base" ("Colors/" ++ name ++ "/" ++ toString t) m =
      some (.colorV (ext.toneOfSeed seed t) 1) := by
  rw [statusSectionOk_some ext m name hue ch o seed hp]
  rw [show l1 ++ (statusTones.map (fun x => colorStep m ("Colors/" ++ name ++ "/" ++ toString x)
        (rgbToHex (ext.toneOfSeed seed x)) 1) ++
      [colorStep m ("Colors/" ++ name ++ "/Base") o 1]) ++ l2 =
      l1 ++ (statusTones.map (fun x => colorStep m ("Colors/" ++ name ++ "/" ++ toString x)
        (rgbToHex (ext.toneOfSeed seed x)) 1) ++
      ((⟨"Base", "Colors/" ++ name ++ "/Base", .writeColor m o 1⟩ : Step) :: l2)) by
    simp [colorStep]]
  rw [applySteps_append, applySteps_append]
  have hfr2 : ∀ st ∈ (⟨"Base", "Colors/" ++ name ++ "/Base",
      Act.writeColor m o 1⟩ : Step) :: l2,
      stepTouches "Base" ("Colors/" ++ name ++ "/" ++ toString t) st = false := by
    intro st hst
    rcases List.mem_cons.1 hst with rfl | h2
    · unfold stepTouches
      dsimp only
      rw [beq_eq_false_iff_ne.2 (fun he => hTB he.symm)]
      simp
    · exact hfr st h2
  rw [valueAt_frame_steps _ _ _ _ _ hfr2]
  have hc1 : ((applySteps s l1).findColl "Base").isSome = true := by
    rw [findColl_isSome_applySteps]
    exact hc
  exact valueAt_applySteps_colorStepMap m statusTones
    (fun x => "Colors/" ++ name ++ "/" ++ toString x)
    (fun x => rgbToHex (ext.toneOfSeed seed x)) (applySteps s l1) hnd hc1 t ht
    (ext.toneOfSeed seed t) (parseHex_rgbToHex (ext.toneOfSeed seed t))

end Caldera

namespace Caldera

theorem c5_helper (ext : Ext) (msg : GenMsg) (hd : HandlerData) (name : String)
    (hue ch : Nat) (ov : Option String) (l1 l2 : List Step)
    (hovOk : ovOk ov = true)
    (hsplit : baseStepsOk ext msg hd 0 = l1 ++ statusSectionOk ext 0 name hue ch ov ++ l2)
    (hfrB : ∀ st ∈ l2, stepTouches "Base" ("Colors/" ++ name ++ "/Base") st = false)
    (hfrT : ∀ t ∈ statusTones, ∀ st ∈ l2,
      stepTouches "Base" ("Colors/" ++ name ++ "/" ++ toString t) st = false)
    (hnd : (statusTones.map (fun t => "Colors/" ++ name ++ "/" ++ toString t)).Nodup)
    (hTB : ∀ t ∈ statusTones,
      ("Colors/" ++ name ++ "/" ++ toString t) ≠ ("Colors/" ++ name ++ "/Base")) :
    ((ov = none →
       (runStoreOk ext msg hd).valueAt "Base" ("Colors/" ++ name ++ "/Base") 0 =
         some (.colorV (ext.toneOfHueChroma hue ch 50) 1)) ∧
     (∀ o pal, ov = some o → generateTonalPalette ext o statusTones = some pal →
       (∃ seed, parseHex o = some seed ∧
         (runStoreOk ext msg hd).valueAt "Base" ("Colors/" ++ name ++ "/Base") 0 =
           some (.colorV seed 1)) ∧
       ∀ p ∈ pal,
         (runStoreOk ext msg hd).valueAt "Base" ("Colors/" ++ name ++ "/" ++ toString p.1) 0 =
           (parseHex p.2).map (fun rgb => VarValue.colorV rgb 1))) := by
  have hBase : ∀ pn : String, (runStoreOk ext msg hd).valueAt "Base" pn 0 =
      (runBase ext msg hd).valueAt "Base" pn 0 := by
    intro pn
    exact valueAt_of_varState_eq (by
      rw [varState_runStoreOk_noBridge ext msg hd "Base" pn (by decide),
        varState_runTheme_noTheme ext msg hd "Base" pn (by decide)]) 0
  have hcB : (baseStart.findColl "Base").isSome = true := rfl
  constructor
  · intro hovn
    subst hovn
    rw [hBase]
    unfold runBase
    rw [hsplit]
    exact valueAt_statusBase_none baseStart ext 0 name hue ch l1 l2 hcB hfrB
  · intro o pal hovs hpal
    subst hovs
    have hpOk : (parseHex o).isSome = true := by
      simpa [ovOk, hexOk] using hovOk
    obtain ⟨seed, hp⟩ := Option.isSome_iff_exists.1 hpOk
    constructor
    · refine ⟨seed, hp, ?_⟩
      rw [hBase]
      unfold runBase
      rw [hsplit]
      exact valueAt_statusBase_some baseStart ext 0 name hue ch o seed hp l1 l2 hcB hfrB
    · intro p hmem
      unfold generateTonalPalette at hpal
      rw [hp] at hpal
      simp only [Option.map_some', Option.some.injEq] at hpal
      subst hpal
      rw [List.mem_map] at hmem
      obtain ⟨t, ht, rfl⟩ := hmem
      dsimp only
      rw [hBase]
      unfold runBase
      rw [hsplit]
      rw [valueAt_statusTone_some baseStart ext 0 name hue ch o seed hp l1 l2 t ht hcB hnd
        (hTB t ht) (hfrT t ht)]
      rw [parseHex_rgbToHex]
      rfl

end Caldera

namespace Caldera

/-- C5: for each status (Success 150/66, Warning 40/70, Info 260/84,
Failure 25/84), a run with no override writes the tone-50 sample of the
fixed (hue, chroma) default palette into `Colors/<name>/Base`; a run with
an override hex writes the override itself into `Colors/<name>/Base` and
the `Colors/<name>/<tone>` entries follow
`generateTonalPalette(override, statusTones)`. -/
theorem c5_status_palette_fallback (ext : Ext) (msg : GenMsg) (hv : ValidMsg msg)
    (name : String) (hue chroma : Nat)
    (hanchor : (name, hue, chroma) ∈
      [("Success", 150, 66), ("Warning", 40, 70), ("Info", 260, 84), ("Failure", 25, 84)]) :
    ∃ hd : HandlerData,
      runGenerate ext msg emptyStore = (runStoreOk ext msg hd, none) ∧
      (statusOv msg name = none →
        (runStoreOk ext msg hd).valueAt "Base" ("Colors/" ++ name ++ "/Base") 0 =
          some (.colorV (ext.toneOfHueChroma hue chroma 50) 1)) ∧
      (∀ o pal, statusOv msg name = some o →
        generateTonalPalette ext o statusTones = some pal →
        (∃ seed, parseHex o = some seed ∧
          (runStoreOk ext msg hd).valueAt "Base" ("Colors/" ++ name ++ "/Base") 0 =
            some (.colorV seed 1)) ∧
        ∀ p ∈ pal,
          (runStoreOk ext msg hd).valueAt "Base" ("Colors/" ++ name ++ "/" ++ toString p.1) 0 =
            (parseHex p.2).map (fun rgb => VarValue.colorV rgb 1)) := by
  obtain ⟨hd, hdOk, hrun⟩ := runGenerate_empty_valid ext msg hv
  obtain ⟨h1, h2, h3, h4, h5, h6⟩ := hv
  refine ⟨hd, hrun, ?_⟩
  simp only [List.mem_cons, List.not_mem_nil, or_false, Prod.mk.injEq] at hanchor
  rcases hanchor with ⟨rfl, rfl, rfl⟩ | ⟨rfl, rfl, rfl⟩ | ⟨rfl, rfl, rfl⟩ | ⟨rfl, rfl, rfl⟩
  · have hW : ∀ t ∈ statusTones,
        ("Colors/" ++ "Success" ++ "/" ++ toString t) ∉ statusPaths "Warning" := by decide
    have hI : ∀ t ∈ statusTones,
        ("Colors/" ++ "Success" ++ "/" ++ toString t) ∉ statusPaths "Info" := by decide
    have hF : ∀ t ∈ statusTones,
        ("Colors/" ++ "Success" ++ "/" ++ toString t) ∉ statusPaths "Failure" := by decide
    have hT : ∀ t ∈ statusTones,
        ("Colors/" ++ "Success" ++ "/" ++ toString t) ∉ tailPaths := by decide
    rw [show statusOv msg "Success" = msg.successHex by simp [statusOv]]
    exact c5_helper ext msg hd "Success" 150 66 msg.successHex
      (basePreSteps msg hd 0)
      (statusSectionOk ext 0 "Warning" 40 70 msg.warningHex ++
        (statusSectionOk ext 0 "Info" 260 84 msg.infoHex ++
          (statusSectionOk ext 0 "Failure" 25 84 msg.failureHex ++ baseTailSteps ext msg 0)))
      h3 (by simp only [baseStepsOk, List.append_assoc])
      (frames_append
        (frame_of_paths (statusSectionOk_paths ext 0 "Warning" 40 70 msg.warningHex)
          "Base" _ (Or.inr (by decide)))
        (frames_append
          (frame_of_paths (statusSectionOk_paths ext 0 "Info" 260 84 msg.infoHex)
            "Base" _ (Or.inr (by decide)))
          (frames_append
            (frame_of_paths (statusSectionOk_paths ext 0 "Failure" 25 84 msg.failureHex)
              "Base" _ (Or.inr (by decide)))
            (frame_of_paths (baseTailSteps_paths ext msg 0) "Base" _ (Or.inr (by decide))))))
      (fun t ht => frames_append
        (frame_of_paths (statusSectionOk_paths ext 0 "Warning" 40 70 msg.warningHex)
          "Base" _ (Or.inr (hW t ht)))
        (frames_append
          (frame_of_paths (statusSectionOk_paths ext 0 "Info" 260 84 msg.infoHex)
            "Base" _ (Or.inr (hI t ht)))
          (frames_append
            (frame_of_paths (statusSectionOk_paths ext 0 "Failure" 25 84 msg.failureHex)
              "Base" _ (Or.inr (hF t ht)))
            (frame_of_paths (baseTailSteps_paths ext msg 0) "Base" _ (Or.inr (hT t ht))))))
      (by decide) (by decide)
  · have hI : ∀ t ∈ statusTones,
        ("Colors/" ++ "Warning" ++ "/" ++ toString t) ∉ statusPaths "Info" := by decide
    have hF : ∀ t ∈ statusTones,
        ("Colors/" ++ "Warning" ++ "/" ++ toString t) ∉ statusPaths "Failure" := by decide
    have hT : ∀ t ∈ statusTones,
        ("Colors/" ++ "Warning" ++ "/" ++ toString t) ∉ tailPaths := by decide
    rw [show statusOv msg "Warning" = msg.warningHex by simp [statusOv]]
    exact c5_helper ext msg hd "Warning" 40 70 msg.warningHex
      (basePreSteps msg hd 0 ++ statusSectionOk ext 0 "Success" 150 66 msg.successHex)
      (statusSectionOk ext 0 "Info" 260 84 msg.infoHex ++
        (statusSectionOk ext 0 "Failure" 25 84 msg.failureHex ++ baseTailSteps ext msg 0))
      h4 (by simp only [baseStepsOk, List.append_assoc])
      (frames_append
        (frame_of_paths (statusSectionOk_paths ext 0 "Info" 260 84 msg.infoHex)
          "Base" _ (Or.inr (by decide)))
        (frames_append
          (frame_of_paths (statusSectionOk_paths ext 0 "Failure" 25 84 msg.failureHex)
            "Base" _ (Or.inr (by decide)))
          (frame_of_paths (baseTailSteps_paths ext msg 0) "Base" _ (Or.inr (by decide)))))
      (fun t ht => frames_append
        (frame_of_paths (statusSectionOk_paths ext 0 "Info" 260 84 msg.infoHex)
          "Base" _ (Or.inr (hI t ht)))
        (frames_append
          (frame_of_paths (statusSectionOk_paths ext 0 "Failure" 25 84 msg.failureHex)
            "Base" _ (Or.inr (hF t ht)))
          (frame_of_paths (baseTailSteps_paths ext msg 0) "Base" _ (Or.inr (hT t ht)))))
      (by decide) (by decide)
  · have hF : ∀ t ∈ statusTones,
        ("Colors/" ++ "Info" ++ "/" ++ toString t) ∉ statusPaths "Failure" := by decide
    have hT : ∀ t ∈ statusTones,
        ("Colors/" ++ "Info" ++ "/" ++ toString t) ∉ tailPaths := by decide
    rw [show statusOv msg "Info" = msg.infoHex by simp [statusOv]]
    exact c5_helper ext msg hd "Info" 260 84 msg.infoHex
      (basePreSteps msg hd 0 ++ statusSectionOk ext 0 "Success" 150 66 msg.successHex ++
        statusSectionOk ext 0 "Warning" 40 70 msg.warningHex)
      (statusSectionOk ext 0 "Failure" 25 84 msg.failureHex ++ baseTailSteps ext msg 0)
      h5 (by simp only [baseStepsOk, List.append_assoc])
      (frames_append
        (frame_of_paths (statusSectionOk_paths ext 0 "Failure" 25 84 msg.failureHex)
          "Base" _ (Or.inr (by decide)))
        (frame_of_paths (baseTailSteps_paths ext msg 0) "Base" _ (Or.inr (by decide))))
      (fun t ht => frames_append
        (frame_of_paths (statusSectionOk_paths ext 0 "Failure" 25 84 msg.failureHex)
          "Base" _ (Or.inr (hF t ht)))
        (frame_of_paths (baseTailSteps_paths ext msg 0) "Base" _ (Or.inr (hT t ht))))
      (by decide) (by decide)
  · have hT : ∀ t ∈ statusTones,
        ("Colors/" ++ "Failure" ++ "/" ++ toString t) ∉ tailPaths := by decide
    rw [show statusOv msg "Failure" = msg.failureHex by simp [statusOv]]
    exact c5_helper ext msg hd "Failure" 25 84 msg.failureHex
      (basePreSteps msg hd 0 ++ statusSectionOk ext 0 "Success" 150 66 msg.successHex ++
        statusSectionOk ext 0 "Warning" 40 70 msg.warningHex ++
        statusSectionOk ext 0 "Info" 260 84 msg.infoHex)
      (baseTailSteps ext msg 0)
      h6 (by simp only [baseStepsOk, List.append_assoc])
      (frame_of_paths (baseTailSteps_paths ext msg 0) "Base" _ (Or.inr (by decide)))
      (fun t ht =>
        frame_of_paths (baseTailSteps_paths ext msg 0) "Base" _ (Or.inr (hT t ht)))
      (by decide) (by decide)

end Caldera

namespace Caldera

theorem c5_witness :
    ∃ hd : HandlerData,
      runGenerate extSample (mkMsg "#3366CC") emptyStore =
        (runStoreOk extSample (mkMsg "#3366CC") hd, none) ∧
      (statusOv (mkMsg "#3366CC") "Warning" = none →
        (runStoreOk extSample (mkMsg "#3366CC") hd).valueAt "Base"
            ("Colors/" ++ "Warning" ++ "/Base") 0 =
          some (.colorV (extSample.toneOfHueChroma 40 70 50) 1)) ∧
      (∀ o pal, statusOv (mkMsg "#3366CC") "Warning" = some o →
        generateTonalPalette extSample o statusTones = some pal →
        (∃ seed, parseHex o = some seed ∧
          (runStoreOk extSample (mkMsg "#3366CC") hd).valueAt "Base"
              ("Colors/" ++ "Warning" ++ "/Base") 0 =
            some (.colorV seed 1)) ∧
        ∀ p ∈ pal,
          (runStoreOk extSample (mkMsg "#3366CC") hd).valueAt "Base"
              ("Colors/" ++ "Warning" ++ "/" ++ toString p.1) 0 =
            (parseHex p.2).map (fun rgb => VarValue.colorV rgb 1)) :=
  c5_status_palette_fallback extSample (mkMsg "#3366CC") (by unfold ValidMsg; decide)
    "Warning" 40 70 (by decide)

end Caldera

namespace Caldera

/-! ### Theme entry machinery -/

theorem themePaths_const (lvl : ℤ) :
    (themeAliasTable lvl).map (fun e => e.path) = themePathList := rfl

theorem themePathList_nodup : themePathList.Nodup := by decide

theorem varState_isSome_applyStep_setAlias (s : Store) (c p : String) (m : Nat)
    (tc tp : String) (hs : (s.varState c p).isSome = true) :
    ((applyStep s ⟨c, p, .setAlias m tc tp⟩).varState c p).isSome = true := by
  unfold applyStep
  dsimp only
  cases ht : (s.findColl tc).bind (fun cc => cc.findVar tp) with
  | some tv =>
    dsimp only
    rw [varState_setVarValue_self]
    obtain ⟨v, hv⟩ := Option.isSome_iff_exists.1 hs
    rw [hv]
    rfl
  | none => exact hs

theorem findColl_mk_append (s : Store) (c : Collection) (i m : Nat)
    (cn : String) (h : cn ≠ c.name) :
    (⟨s.collections ++ [c], i, m⟩ : Store).findColl cn = s.findColl cn := by
  unfold Store.findColl
  try dsimp only
  rw [find?_coll_append_ne s.collections c cn h]

theorem themeEntrySteps_block (lId dId : Nat) (e : ThemeEntry) :
    themeEntrySteps lId dId e =
      [⟨"Theme", e.path, .ensure e.ty⟩,
       ⟨"Theme", e.path, .setAlias lId "Base" e.light⟩,
       ⟨"Theme", e.path, .setAlias dId "Base" e.dark⟩] := rfl

end Caldera

namespace Caldera

/-- The value a Theme table entry leaves at its path: each mode aliases
the Base variable of the configured name when it exists, and otherwise
keeps the prior value (the variable is still ensured). -/
theorem themeSteps_value (s : Store) (lId dId : Nat) (lvl : ℤ) (e : ThemeEntry)
    (he : e ∈ themeAliasTable lvl) (hmode : dId ≠ lId)
    (hTheme : (s.findColl "Theme").isSome = true) :
    ((applySteps s (themeSteps lId dId lvl)).valueAt "Theme" e.path lId =
      match (s.findColl "Base").bind (fun c => c.findVar e.light) with
      | some tv => some (.aliasV tv.id)
      | none => s.valueAt "Theme" e.path lId) ∧
    ((applySteps s (themeSteps lId dId lvl)).valueAt "Theme" e.path dId =
      match (s.findColl "Base").bind (fun c => c.findVar e.dark) with
      | some tv => some (.aliasV tv.id)
      | none => s.valueAt "Theme" e.path dId) := by
  obtain ⟨l1, l2, hsplit⟩ := List.append_of_mem he
  have hnodup := themePathList_nodup
  rw [← themePaths_const lvl, hsplit, List.map_append, List.map_cons] at hnodup
  have hd1 := List.nodup_append.1 hnodup
  have hl2 : ∀ e2 ∈ l2, e2.path ≠ e.path := by
    intro e2 h2 heq
    exact (List.nodup_cons.1 hd1.2.1).1 (heq ▸ List.mem_map_of_mem (fun e => e.path) h2)
  have hl1 : ∀ e2 ∈ l1, e2.path ≠ e.path := by
    intro e2 h2 heq
    have hnot := hd1.2.2 (List.mem_map_of_mem (fun e => e.path) h2)
    exact hnot (heq ▸ List.mem_cons_self _ _)
  have hfrF : ∀ (L : List ThemeEntry), (∀ e2 ∈ L, e2.path ≠ e.path) →
      ∀ st ∈ L.flatMap (themeEntrySteps lId dId), stepTouches "Theme" e.path st = false := by
    intro L hL st hst
    rw [List.mem_flatMap] at hst
    obtain ⟨e2, he2, hst⟩ := hst
    rw [themeEntrySteps] at hst
    obtain ⟨hc, hp⟩ := aliasSteps_mem e2.ty lId dId e2.path e2.light e2.dark st hst
    unfold stepTouches
    rw [hp, beq_eq_false_iff_ne.2 (hL e2 he2)]
    simp
  unfold themeSteps
  rw [hsplit, List.flatMap_append, List.flatMap_cons]
  rw [applySteps_append, applySteps_append]
  set s1 := applySteps s (l1.flatMap (themeEntrySteps lId dId)) with hs1
  rw [themeEntrySteps_block]
  have hblock : applySteps s1 [(⟨"Theme", e.path, .ensure e.ty⟩ : Step),
      ⟨"Theme", e.path, .setAlias lId "Base" e.light⟩,
      ⟨"Theme", e.path, .setAlias dId "Base" e.dark⟩] =
      applyStep (applyStep (applyStep s1 ⟨"Theme", e.path, .ensure e.ty⟩)
        ⟨"Theme", e.path, .setAlias lId "Base" e.light⟩)
        ⟨"Theme", e.path, .setAlias dId "Base" e.dark⟩ := rfl
  rw [hblock]
  set s2 := applyStep s1 ⟨"Theme", e.path, .ensure e.ty⟩ with hs2
  set s3 := applyStep s2 ⟨"Theme", e.path, .setAlias lId "Base" e.light⟩ with hs3
  set s4 := applyStep s3 ⟨"Theme", e.path, .setAlias dId "Base" e.dark⟩ with hs4
  have hfr1 := hfrF l1 hl1
  have hfr2 := hfrF l2 hl2
  have hvs1 : s1.varState "Theme" e.path = s.varState "Theme" e.path :=
    varState_applySteps_frame s _ _ _ hfr1
  have hva1 : ∀ m, s1.valueAt "Theme" e.path m = s.valueAt "Theme" e.path m :=
    fun m => valueAt_of_varState_eq hvs1 m
  have hfB1 : s1.findColl "Base" = s.findColl "Base" := by
    rw [hs1]
    apply findColl_applySteps_frame
    intro st hst
    rw [List.mem_flatMap] at hst
    obtain ⟨e2, he2, hst⟩ := hst
    rw [themeEntrySteps] at hst
    have hcoll := (aliasSteps_mem e2.ty lId dId e2.path e2.light e2.dark st hst).1
    rw [hcoll]
    decide
  have hfT1 : (s1.findColl "Theme").isSome = true := by
    rw [hs1, findColl_isSome_applySteps]
    exact hTheme
  have hvs2 : (s2.varState "Theme" e.path).isSome = true := by
    rw [hs2]
    exact varState_isSome_upsert s1 "Theme" e.path e.ty hfT1
  have hfB2 : s2.findColl "Base" = s.findColl "Base" := by
    rw [hs2, findColl_applyStep_frame s1 _ "Base" (by simp)]
    exact hfB1
  have hva2 : ∀ m, s2.valueAt "Theme" e.path m = s.valueAt "Theme" e.path m := by
    intro m
    rw [hs2, valueAt_applyStep_ensure]
    exact hva1 m
  have hfB3 : s3.findColl "Base" = s.findColl "Base" := by
    rw [hs3, findColl_applyStep_frame s2 _ "Base" (by simp)]
    exact hfB2
  have hvs3 : (s3.varState "Theme" e.path).isSome = true := by
    rw [hs3]
    exact varState_isSome_applyStep_setAlias s2 "Theme" e.path lId "Base" e.light hvs2
  constructor
  · rw [valueAt_frame_steps _ _ _ _ lId hfr2]
    rw [hs4, valueAt_applyStep_setAlias_mode s3 "Theme" e.path dId "Base" e.dark
      "Theme" e.path lId (Or.inl (Ne.symm hmode))]
    rw [hs3, valueAt_applyStep_setAlias s2 "Theme" e.path lId "Base" e.light hvs2]
    rw [hfB2]
    cases hsc : (s.findColl "Base").bind (fun c => c.findVar e.light) with
    | some tv => rfl
    | none => exact hva2 lId
  · rw [valueAt_frame_steps _ _ _ _ dId hfr2]
    rw [hs4, valueAt_applyStep_setAlias s3 "Theme" e.path dId "Base" e.dark hvs3]
    rw [hfB3]
    cases hsc : (s.findColl "Base").bind (fun c => c.findVar e.dark) with
    | some tv => rfl
    | none =>
      rw [hs3, valueAt_applyStep_setAlias_mode s2 "Theme" e.path lId "Base" e.light
        "Theme" e.path dId (Or.inl hmode)]
      exact hva2 dId

end Caldera

namespace Caldera

/-- In a valid empty-store run, each Theme table entry aliases the Base
variable named in the table (per mode), or stays valueless if the Base
variable is absent. -/
theorem runTheme_entry_value (ext : Ext) (msg : GenMsg) (hd : HandlerData) (e : ThemeEntry)
    (he : e ∈ themeAliasTable (msg.cornerRadiusLevel.getD 3)) :
    ((runStoreOk ext msg hd).valueAt "Theme" e.path 1 =
      match (runBase ext msg hd).varState "Base" e.light with
      | some tv => some (.aliasV tv.id)
      | none => none) ∧
    ((runStoreOk ext msg hd).valueAt "Theme" e.path 2 =
      match (runBase ext msg hd).varState "Base" e.dark with
      | some tv => some (.aliasV tv.id)
      | none => none) := by
  have hnamesB : (runBase ext msg hd).collections.map (fun c => c.name) = ["Base"] := by
    unfold runBase
    rw [collNames_applySteps]
    rfl
  have hfT : (themeStart ext msg hd).findColl "Theme" =
      some ⟨"Theme", [(1, "Light"), (2, "Dark")], []⟩ :=
    findColl_append_self (runBase ext msg hd).collections
      ⟨"Theme", [(1, "Light"), (2, "Dark")], []⟩ (runBase ext msg hd).nextId 3
      (name_ne_of_names hnamesB "Theme" (by decide))
  have hTisSome : ((themeStart ext msg hd).findColl "Theme").isSome = true := by
    rw [hfT]
    rfl
  have hfB : (themeStart ext msg hd).findColl "Base" = (runBase ext msg hd).findColl "Base" := by
    unfold themeStart
    exact findColl_mk_append (runBase ext msg hd) _ _ _ "Base" (by decide)
  have hvempty : ∀ m : Nat, (themeStart ext msg hd).valueAt "Theme" e.path m = none := by
    intro m
    unfold Store.valueAt Store.varState
    rw [hfT]
    rfl
  have hmain := themeSteps_value (themeStart ext msg hd) 1 2 (msg.cornerRadiusLevel.getD 3)
    e he (by decide) hTisSome
  have hbr : ∀ m : Nat, (runStoreOk ext msg hd).valueAt "Theme" e.path m =
      (runTheme ext msg hd).valueAt "Theme" e.path m := fun m =>
    valueAt_of_varState_eq (varState_runStoreOk_noBridge ext msg hd "Theme" e.path
      (by decide)) m
  have hvsL : (runBase ext msg hd).varState "Base" e.light =
      ((runBase ext msg hd).findColl "Base").bind (fun c => c.findVar e.light) := rfl
  have hvsD : (runBase ext msg hd).varState "Base" e.dark =
      ((runBase ext msg hd).findColl "Base").bind (fun c => c.findVar e.dark) := rfl
  constructor
  · rw [hbr 1]
    show (applySteps (themeStart ext msg hd)
      (themeSteps 1 2 (msg.cornerRadiusLevel.getD 3))).valueAt "Theme" e.path 1 = _
    rw [hmain.1, hfB, hvsL]
    cases hsc : ((runBase ext msg hd).findColl "Base").bind (fun c => c.findVar e.light) with
    | some tv => rfl
    | none => exact hvempty 1
  · rw [hbr 2]
    show (applySteps (themeStart ext msg hd)
      (themeSteps 1 2 (msg.cornerRadiusLevel.getD 3))).valueAt "Theme" e.path 2 = _
    rw [hmain.2, hfB, hvsD]
    cases hsc : ((runBase ext msg hd).findColl "Base").bind (fun c => c.findVar e.dark) with
    | some tv => rfl
    | none => exact hvempty 2

end Caldera

namespace Caldera

/-! ### Literal write maps (corners, spacing) -/

theorem valueAt_applySteps_litStepMap {α : Type} (c : String) (ty : VarType) (m : Nat)
    (pathF : α → String) (valF : α → VarValue) (scF : α → Option (List String)) :
    ∀ (items : List α) (s : Store), (items.map pathF).Nodup →
    ((s.findColl c).isSome = true) →
    ∀ x ∈ items,
    (applySteps s (items.map (fun i => ⟨c, pathF i, .writeLit ty m (valF i) (scF i)⟩))).valueAt
      c (pathF x) m = some (valF x) := by
  intro items
  induction items with
  | nil =>
    intro s _ _ x hx
    cases hx
  | cons a rest ih =>
    intro s hnd hc x hx
    rw [List.map_cons] at hnd
    rw [List.map_cons]
    show (applySteps (applyStep s _) _).valueAt c (pathF x) m = _
    rcases List.mem_cons.1 hx with rfl | hmem
    · have hfr : ∀ st ∈ rest.map
          (fun i => (⟨c, pathF i, Act.writeLit ty m (valF i) (scF i)⟩ : Step)),
          stepTouches c (pathF x) st = false := by
        intro st hst
        rw [List.mem_map] at hst
        obtain ⟨i, hi, rfl⟩ := hst
        have hne : pathF i ≠ pathF x := fun he =>
          (List.nodup_cons.1 hnd).1 (he ▸ List.mem_map_of_mem pathF hi)
        unfold stepTouches
        dsimp only
        rw [beq_eq_false_iff_ne.2 hne]
        simp
      rw [valueAt_frame_steps _ _ _ _ _ hfr]
      exact valueAt_applyStep_writeLit s c (pathF x) ty m (valF x) (scF x) hc
    · have hc2 : (((applyStep s
          (⟨c, pathF a, Act.writeLit ty m (valF a) (scF a)⟩ : Step)).findColl c)).isSome
          = true := by
        rw [show applyStep s (⟨c, pathF a, Act.writeLit ty m (valF a) (scF a)⟩ : Step) =
            applySteps s [⟨c, pathF a, Act.writeLit ty m (valF a) (scF a)⟩] from rfl,
          findColl_isSome_applySteps]
        exact hc
      exact ih _ (List.nodup_cons.1 hnd).2 hc2 x hmem

theorem valueAt_applySteps_litStepMap_at {α : Type} (s : Store) (c : String) (ty : VarType)
    (m : Nat) (items : List α) (pathF : α → String) (valF : α → VarValue)
    (scF : α → Option (List String)) (L1 L2 : List Step)
    (hnd : (items.map pathF).Nodup) (hc : (s.findColl c).isSome = true)
    (x : α) (hx : x ∈ items)
    (hfr : ∀ st ∈ L2, stepTouches c (pathF x) st = false) :
    (applySteps s (L1 ++ items.map (fun i => ⟨c, pathF i, .writeLit ty m (valF i) (scF i)⟩)
        ++ L2)).valueAt c (pathF x) m = some (valF x) := by
  rw [applySteps_append, applySteps_append, valueAt_frame_steps _ L2 _ _ _ hfr]
  have hc1 : ((applySteps s L1).findColl c).isSome = true := by
    rw [findColl_isSome_applySteps]
    exact hc
  exact valueAt_applySteps_litStepMap c ty m pathF valF scF items (applySteps s L1) hnd hc1 x hx

theorem cornerSteps_paths2 (m : Nat) :
    ∀ st ∈ cornerSteps m, st.coll = "Base" ∧
      st.path ∈ cornersTable.map (fun p => "Corners/" ++ p.1) := by
  intro st hst
  unfold cornerSteps at hst
  rw [List.mem_map] at hst
  obtain ⟨p, hp, rfl⟩ := hst
  exact ⟨rfl, List.mem_map_of_mem (fun p => "Corners/" ++ p.1) hp⟩

theorem spacingSteps_paths2 (m : Nat) :
    ∀ st ∈ spacingSteps m, st.coll = "Base" ∧
      st.path ∈ spacingTable.map (fun p => "Spacing/" ++ p.1) := by
  intro st hst
  unfold spacingSteps at hst
  rw [List.mem_map] at hst
  obtain ⟨p, hp, rfl⟩ := hst
  exact ⟨rfl, List.mem_map_of_mem (fun p => "Spacing/" ++ p.1) hp⟩

theorem typographySteps_paths2 (ext : Ext) (msg : GenMsg) (m : Nat) :
    ∀ st ∈ typographySteps ext msg m, st.coll = "Base" ∧
      st.path ∈ typographyRoles.flatMap
        (fun r => ["Typography/" ++ r ++ "/Font", "Typography/" ++ r ++ "/Style"]) := by
  intro st hst
  unfold typographySteps at hst
  rw [List.mem_flatten] at hst
  obtain ⟨blk, hblk, hst⟩ := hst
  rw [List.mem_map] at hblk
  obtain ⟨role, hrole, rfl⟩ := hblk
  cases hres : resolveFont ext.fontLoads (fontOverrideFor msg role) (typDefault role) with
  | none =>
    rw [hres] at hst
    cases hst
  | some f =>
    rw [hres] at hst
    simp only [List.mem_cons, List.not_mem_nil, or_false] at hst
    rcases hst with rfl | rfl
    · exact ⟨rfl, List.mem_flatMap.2 ⟨role, hrole, by simp⟩⟩
    · exact ⟨rfl, List.mem_flatMap.2 ⟨role, hrole, by simp⟩⟩

/-- In a valid empty-store run, each `Corners/<n>` Base token holds the
numeric value of the corners table. -/
theorem runBase_corner_value (ext : Ext) (msg : GenMsg) (hd : HandlerData)
    (p : String × ℚ) (hp : p ∈ cornersTable) :
    (runBase ext msg hd).valueAt "Base" ("Corners/" ++ p.1) 0 = some (.floatV p.2) := by
  unfold runBase
  rw [show baseStepsOk ext msg hd 0 =
      (basePreSteps msg hd 0 ++ (statusSectionOk ext 0 "Success" 150 66 msg.successHex ++
       (statusSectionOk ext 0 "Warning" 40 70 msg.warningHex ++
       (statusSectionOk ext 0 "Info" 260 84 msg.infoHex ++
       (statusSectionOk ext 0 "Failure" 25 84 msg.failureHex ++ whiteBlackSteps 0))))) ++
      cornerSteps 0 ++ (spacingSteps 0 ++ typographySteps ext msg 0) from by
    simp only [baseStepsOk, baseTailSteps, List.append_assoc]]
  have hfr : ∀ st ∈ spacingSteps 0 ++ typographySteps ext msg 0,
      stepTouches "Base" ("Corners/" ++ p.1) st = false := by
    refine frames_append
      (frame_of_paths (spacingSteps_paths2 0) "Base" _ (Or.inr ?_))
      (frame_of_paths (typographySteps_paths2 ext msg 0) "Base" _ (Or.inr ?_))
    · have hall : ∀ q ∈ cornersTable,
          ("Corners/" ++ q.1) ∉ spacingTable.map (fun p => "Spacing/" ++ p.1) := by decide
      exact hall p hp
    · have hall : ∀ q ∈ cornersTable,
          ("Corners/" ++ q.1) ∉ typographyRoles.flatMap
            (fun r => ["Typography/" ++ r ++ "/Font", "Typography/" ++ r ++ "/Style"]) := by
        decide
      exact hall p hp
  rw [show cornerSteps 0 = cornersTable.map (fun q => (⟨"Base", "Corners/" ++ q.1,
      .writeLit .float 0 (.floatV q.2) (some ["CORNER_RADIUS"])⟩ : Step)) from rfl]
  exact valueAt_applySteps_litStepMap_at baseStart "Base" .float 0 cornersTable
    (fun q => "Corners/" ++ q.1) (fun q => .floatV q.2) (fun q => some ["CORNER_RADIUS"])
    _ _ (by decide) rfl p hp hfr

/-- In a valid empty-store run, each `Spacing/<n>` Base token holds the
numeric value of the spacing table. -/
theorem runBase_spacing_value (ext : Ext) (msg : GenMsg) (hd : HandlerData)
    (p : String × ℚ) (hp : p ∈ spacingTable) :
    (runBase ext msg hd).valueAt "Base" ("Spacing/" ++ p.1) 0 = some (.floatV p.2) := by
  unfold runBase
  rw [show baseStepsOk ext msg hd 0 =
      (basePreSteps msg hd 0 ++ (statusSectionOk ext 0 "Success" 150 66 msg.successHex ++
       (statusSectionOk ext 0 "Warning" 40 70 msg.warningHex ++
       (statusSectionOk ext 0 "Info" 260 84 msg.infoHex ++
       (statusSectionOk ext 0 "Failure" 25 84 msg.failureHex ++
        (whiteBlackSteps 0 ++ cornerSteps 0)))))) ++
      spacingSteps 0 ++ typographySteps ext msg 0 from by
    simp only [baseStepsOk, baseTailSteps, List.append_assoc]]
  have hfr : ∀ st ∈ typographySteps ext msg 0,
      stepTouches "Base" ("Spacing/" ++ p.1) st = false := by
    refine frame_of_paths (typographySteps_paths2 ext msg 0) "Base" _ (Or.inr ?_)
    have hall : ∀ q ∈ spacingTable,
        ("Spacing/" ++ q.1) ∉ typographyRoles.flatMap
          (fun r => ["Typography/" ++ r ++ "/Font", "Typography/" ++ r ++ "/Style"]) := by
      decide
    exact hall p hp
  rw [show spacingSteps 0 = spacingTable.map (fun q => (⟨"Base", "Spacing/" ++ q.1,
      .writeLit .float 0 (.floatV q.2)
        (some (if strStartsWith q.1 "-" then ["ALL_SCOPES"] else ["WIDTH_HEIGHT", "GAP"]))⟩ :
      Step)) from rfl]
  exact valueAt_applySteps_litStepMap_at baseStart "Base" .float 0 spacingTable
    (fun q => "Spacing/" ++ q.1) (fun q => .floatV q.2)
    (fun q => some (if strStartsWith q.1 "-" then ["ALL_SCOPES"] else ["WIDTH_HEIGHT", "GAP"]))
    _ _ (by decide) rfl p hp hfr

end Caldera

namespace Caldera

theorem varState_some_of_valueAt {s : Store} {c p : String} {m : Nat} {v : VarValue}
    (h : s.valueAt c p m = some v) :
    ∃ tv, s.varState c p = some tv ∧ lookupMode tv.values m = some v := by
  unfold Store.valueAt at h
  cases hv : s.varState c p with
  | none =>
    rw [hv] at h
    cases h
  | some tv =>
    rw [hv] at h
    exact ⟨tv, rfl, h⟩

theorem c6_helper (ext : Ext) (msg : GenMsg) (hd : HandlerData) (e : ThemeEntry)
    (he : e ∈ themeAliasTable (msg.cornerRadiusLevel.getD 3))
    (q : String × ℚ) (hq : q ∈ cornersTable)
    (hlight : e.light = "Corners/" ++ q.1) (hdark : e.dark = "Corners/" ++ q.1) :
    ∃ tv, (runStoreOk ext msg hd).varState "Base" ("Corners/" ++ q.1) = some tv ∧
      (runStoreOk ext msg hd).valueAt "Base" ("Corners/" ++ q.1) 0 = some (.floatV q.2) ∧
      (runStoreOk ext msg hd).valueAt "Theme" e.path 1 = some (.aliasV tv.id) ∧
      (runStoreOk ext msg hd).valueAt "Theme" e.path 2 = some (.aliasV tv.id) := by
  have hcv := runBase_corner_value ext msg hd q hq
  obtain ⟨tv, htv, hlook⟩ := varState_some_of_valueAt hcv
  have hvarB : (runStoreOk ext msg hd).varState "Base" ("Corners/" ++ q.1) =
      (runBase ext msg hd).varState "Base" ("Corners/" ++ q.1) := by
    rw [varState_runStoreOk_noBridge ext msg hd "Base" _ (by decide),
      varState_runTheme_noTheme ext msg hd "Base" _ (by decide)]
  have hmain := runTheme_entry_value ext msg hd e he
  refine ⟨tv, ?_, ?_, ?_, ?_⟩
  · rw [hvarB]
    exact htv
  · rw [valueAt_of_varState_eq hvarB 0]
    exact hcv
  · rw [hmain.1, hlight, htv]
  · rw [hmain.2, hdark, htv]

/-- C6: corner-density level 0 aliases every Theme corner token among
None/XS/SM/Base/LG/XL to the Base `Corners/None` variable (value 0);
level 4 aliases them to the maximal table 2/8/16/24/48/96; a level
outside 0–4 uses the default level-3 mapping; `Corners/Circle` always
aliases Base `Corners/Circle`. -/
theorem c6_corner_density_levels (ext : Ext) (msg : GenMsg) (hv : ValidMsg msg) :
    ∃ hd : HandlerData,
      runGenerate ext msg emptyStore = (runStoreOk ext msg hd, none) ∧
      (∀ lvl : ℤ, lvl < 0 ∨ 4 < lvl → cornerMappingFor lvl = cornerMappingFor 3) ∧
      (msg.cornerRadiusLevel.getD 3 = 0 →
        ∀ p ∈ ["Corners/None", "Corners/XS", "Corners/SM", "Corners/Base",
               "Corners/LG", "Corners/XL"],
          ∃ tv, (runStoreOk ext msg hd).varState "Base" "Corners/None" = some tv ∧
            (runStoreOk ext msg hd).valueAt "Base" "Corners/None" 0 = some (.floatV 0) ∧
            (runStoreOk ext msg hd).valueAt "Theme" p 1 = some (.aliasV tv.id) ∧
            (runStoreOk ext msg hd).valueAt "Theme" p 2 = some (.aliasV tv.id)) ∧
      (msg.cornerRadiusLevel.getD 3 = 4 →
        ∀ pr ∈ [("Corners/None", "Corners/2", (2 : ℚ)), ("Corners/XS", "Corners/8", 8),
                ("Corners/SM", "Corners/16", 16), ("Corners/Base", "Corners/24", 24),
                ("Corners/LG", "Corners/48", 48), ("Corners/XL", "Corners/96", 96)],
          ∃ tv, (runStoreOk ext msg hd).varState "Base" pr.2.1 = some tv ∧
            (runStoreOk ext msg hd).valueAt "Base" pr.2.1 0 = some (.floatV pr.2.2) ∧
            (runStoreOk ext msg hd).valueAt "Theme" pr.1 1 = some (.aliasV tv.id) ∧
            (runStoreOk ext msg hd).valueAt "Theme" pr.1 2 = some (.aliasV tv.id)) ∧
      (∃ tv, (runStoreOk ext msg hd).varState "Base" "Corners/Circle" = some tv ∧
        (runStoreOk ext msg hd).valueAt "Theme" "Corners/Circle" 1 = some (.aliasV tv.id) ∧
        (runStoreOk ext msg hd).valueAt "Theme" "Corners/Circle" 2 = some (.aliasV tv.id)) := by
  obtain ⟨hd, hdOk, hrun⟩ := runGenerate_empty_valid ext msg hv
  refine ⟨hd, hrun, ?_, ?_, ?_, ?_⟩
  · intro lvl hlvl
    unfold cornerMappingFor
    cases hlvl with
    | inl h =>
      rw [if_neg (by omega)]
      rfl
    | inr h =>
      rw [if_pos (by omega)]
      rw [List.get?_eq_none.2 (by
        show (5 : Nat) ≤ lvl.toNat
        omega)]
      rfl
  · intro hlvl p hp
    simp only [List.mem_cons, List.not_mem_nil, or_false] at hp
    rcases hp with rfl | rfl | rfl | rfl | rfl | rfl
    · exact c6_helper ext msg hd ⟨.float, "Corners/None", "Corners/None", "Corners/None"⟩
        (by rw [hlvl]; decide) ("None", 0) (by decide) rfl rfl
    · exact c6_helper ext msg hd ⟨.float, "Corners/XS", "Corners/None", "Corners/None"⟩
        (by rw [hlvl]; decide) ("None", 0) (by decide) rfl rfl
    · exact c6_helper ext msg hd ⟨.float, "Corners/SM", "Corners/None", "Corners/None"⟩
        (by rw [hlvl]; decide) ("None", 0) (by decide) rfl rfl
    · exact c6_helper ext msg hd ⟨.float, "Corners/Base", "Corners/None", "Corners/None"⟩
        (by rw [hlvl]; decide) ("None", 0) (by decide) rfl rfl
    · exact c6_helper ext msg hd ⟨.float, "Corners/LG", "Corners/None", "Corners/None"⟩
        (by rw [hlvl]; decide) ("None", 0) (by decide) rfl rfl
    · exact c6_helper ext msg hd ⟨.float, "Corners/XL", "Corners/None", "Corners/None"⟩
        (by rw [hlvl]; decide) ("None", 0) (by decide) rfl rfl
  · intro hlvl pr hpr
    simp only [List.mem_cons, List.not_mem_nil, or_false] at hpr
    rcases hpr with rfl | rfl | rfl | rfl | rfl | rfl
    · exact c6_helper ext msg hd ⟨.float, "Corners/None", "Corners/2", "Corners/2"⟩
        (by rw [hlvl]; decide) ("2", 2) (by decide) rfl rfl
    · exact c6_helper ext msg hd ⟨.float, "Corners/XS", "Corners/8", "Corners/8"⟩
        (by rw [hlvl]; decide) ("8", 8) (by decide) rfl rfl
    · exact c6_helper ext msg hd ⟨.float, "Corners/SM", "Corners/16", "Corners/16"⟩
        (by rw [hlvl]; decide) ("16", 16) (by decide) rfl rfl
    · exact c6_helper ext msg hd ⟨.float, "Corners/Base", "Corners/24", "Corners/24"⟩
        (by rw [hlvl]; decide) ("24", 24) (by decide) rfl rfl
    · exact c6_helper ext msg hd ⟨.float, "Corners/LG", "Corners/48", "Corners/48"⟩
        (by rw [hlvl]; decide) ("48", 48) (by decide) rfl rfl
    · exact c6_helper ext msg hd ⟨.float, "Corners/XL", "Corners/96", "Corners/96"⟩
        (by rw [hlvl]; decide) ("96", 96) (by decide) rfl rfl
  · obtain ⟨tv, h1, h2, h3, h4⟩ := c6_helper ext msg hd
      ⟨.float, "Corners/Circle", "Corners/Circle", "Corners/Circle"⟩
      (List.mem_append.2 (Or.inl (List.mem_append.2 (Or.inr (by
        simp [themeTableCorners])))))
      ("Circle", 9999) (by decide) rfl rfl
    exact ⟨tv, h1, h3, h4⟩

end Caldera

namespace Caldera

theorem c6_witness :
    ∃ hd : HandlerData,
      runGenerate extSample (mkMsg "#3366CC") emptyStore =
        (runStoreOk extSample (mkMsg "#3366CC") hd, none) ∧
      (∀ lvl : ℤ, lvl < 0 ∨ 4 < lvl → cornerMappingFor lvl = cornerMappingFor 3) ∧
      ((mkMsg "#3366CC").cornerRadiusLevel.getD 3 = 0 →
        ∀ p ∈ ["Corners/None", "Corners/XS", "Corners/SM", "Corners/Base",
               "Corners/LG", "Corners/XL"],
          ∃ tv, (runStoreOk extSample (mkMsg "#3366CC") hd).varState "Base"
              "Corners/None" = some tv ∧
            (runStoreOk extSample (mkMsg "#3366CC") hd).valueAt "Base"
              "Corners/None" 0 = some (.floatV 0) ∧
            (runStoreOk extSample (mkMsg "#3366CC") hd).valueAt "Theme" p 1 =
              some (.aliasV tv.id) ∧
            (runStoreOk extSample (mkMsg "#3366CC") hd).valueAt "Theme" p 2 =
              some (.aliasV tv.id)) ∧
      ((mkMsg "#3366CC").cornerRadiusLevel.getD 3 = 4 →
        ∀ pr ∈ [("Corners/None", "Corners/2", (2 : ℚ)), ("Corners/XS", "Corners/8", 8),
                ("Corners/SM", "Corners/16", 16), ("Corners/Base", "Corners/24", 24),
                ("Corners/LG", "Corners/48", 48), ("Corners/XL", "Corners/96", 96)],
          ∃ tv, (runStoreOk extSample (mkMsg "#3366CC") hd).varState "Base" pr.2.1 =
              some tv ∧
            (runStoreOk extSample (mkMsg "#3366CC") hd).valueAt "Base" pr.2.1 0 =
              some (.floatV pr.2.2) ∧
            (runStoreOk extSample (mkMsg "#3366CC") hd).valueAt "Theme" pr.1 1 =
              some (.aliasV tv.id) ∧
            (runStoreOk extSample (mkMsg "#3366CC") hd).valueAt "Theme" pr.1 2 =
              some (.aliasV tv.id)) ∧
      (∃ tv, (runStoreOk extSample (mkMsg "#3366CC") hd).varState "Base"
          "Corners/Circle" = some tv ∧
        (runStoreOk extSample (mkMsg "#3366CC") hd).valueAt "Theme" "Corners/Circle" 1 =
          some (.aliasV tv.id) ∧
        (runStoreOk extSample (mkMsg "#3366CC") hd).valueAt "Theme" "Corners/Circle" 2 =
          some (.aliasV tv.id)) :=
  c6_corner_density_levels extSample (mkMsg "#3366CC") (by unfold ValidMsg; decide)

end Caldera

namespace Caldera

/-! ### Theme presence and absence -/

theorem varState_name {s : Store} {c p : String} {tv : Variable}
    (h : s.varState c p = some tv) : tv.name = p := by
  unfold Store.varState at h
  cases hc : s.findColl c with
  | none =>
    rw [hc] at h
    cases h
  | some c0 =>
    rw [hc] at h
    have h2 : c0.vars.find? (fun v => v.name == p) = some tv := h
    have h3 := List.find?_some h2
    simp only [] at h3
    exact beq_iff_eq.1 h3

theorem varState_isSome_applySteps_of (s : Store) (l : List Step) (c p : String)
    (hs : (s.varState c p).isSome = true) :
    ((applySteps s l).varState c p).isSome = true := by
  obtain ⟨v, hv⟩ := Option.isSome_iff_exists.1 hs
  obtain ⟨w, hw, _⟩ := varState_keep (storePres_applySteps s l) hv
  rw [hw]
  rfl

theorem themeStart_findColl_Theme (ext : Ext) (msg : GenMsg) (hd : HandlerData) :
    (themeStart ext msg hd).findColl "Theme" =
      some ⟨"Theme", [(1, "Light"), (2, "Dark")], []⟩ := by
  have hnamesB : (runBase ext msg hd).collections.map (fun c => c.name) = ["Base"] := by
    unfold runBase
    rw [collNames_applySteps]
    rfl
  exact findColl_append_self (runBase ext msg hd).collections
    ⟨"Theme", [(1, "Light"), (2, "Dark")], []⟩ (runBase ext msg hd).nextId 3
    (name_ne_of_names hnamesB "Theme" (by decide))

theorem themeSteps_paths (lId dId : Nat) (lvl : ℤ) :
    ∀ st ∈ themeSteps lId dId lvl, st.coll = "Theme" ∧ st.path ∈ themePathList := by
  intro st hst
  unfold themeSteps at hst
  rw [List.mem_flatMap] at hst
  obtain ⟨e, he, hst⟩ := hst
  rw [themeEntrySteps] at hst
  obtain ⟨hc, hp⟩ := aliasSteps_mem e.ty lId dId e.path e.light e.dark st hst
  refine ⟨hc, ?_⟩
  rw [hp, ← themePaths_const lvl]
  exact List.mem_map_of_mem (fun e => e.path) he

/-- A path never named in the Theme schema has no Theme variable after a
valid run. -/
theorem runTheme_absent (ext : Ext) (msg : GenMsg) (hd : HandlerData) (p : String)
    (hp : p ∉ themePathList) :
    (runStoreOk ext msg hd).varState "Theme" p = none := by
  rw [varState_runStoreOk_noBridge ext msg hd "Theme" p (by decide)]
  unfold runTheme
  rw [varState_applySteps_frame _ _ _ _
    (frame_of_paths (themeSteps_paths 1 2 (msg.cornerRadiusLevel.getD 3)) "Theme" p
      (Or.inr hp))]
  unfold Store.varState
  rw [themeStart_findColl_Theme ext msg hd]
  rfl

/-- Every Theme schema entry ends up as a variable of that name. -/
theorem runTheme_entry_exists (ext : Ext) (msg : GenMsg) (hd : HandlerData) (e : ThemeEntry)
    (he : e ∈ themeAliasTable (msg.cornerRadiusLevel.getD 3)) :
    ∃ tv, (runStoreOk ext msg hd).varState "Theme" e.path = some tv ∧ tv.name = e.path := by
  rw [varState_runStoreOk_noBridge ext msg hd "Theme" e.path (by decide)]
  obtain ⟨l1, l2, hsplit⟩ := List.append_of_mem he
  have hisSome : ((runTheme ext msg hd).varState "Theme" e.path).isSome = true := by
    unfold runTheme themeSteps
    rw [hsplit, List.flatMap_append, List.flatMap_cons, themeEntrySteps_block]
    rw [show l1.flatMap (themeEntrySteps 1 2) ++
        ([(⟨"Theme", e.path, .ensure e.ty⟩ : Step),
          ⟨"Theme", e.path, .setAlias 1 "Base" e.light⟩,
          ⟨"Theme", e.path, .setAlias 2 "Base" e.dark⟩] ++
         l2.flatMap (themeEntrySteps 1 2)) =
        (l1.flatMap (themeEntrySteps 1 2) ++ [(⟨"Theme", e.path, .ensure e.ty⟩ : Step)]) ++
        ((⟨"Theme", e.path, .setAlias 1 "Base" e.light⟩ : Step) ::
          (⟨"Theme", e.path, .setAlias 2 "Base" e.dark⟩ : Step) ::
          l2.flatMap (themeEntrySteps 1 2)) from by simp]
    rw [applySteps_append]
    apply varState_isSome_applySteps_of
    rw [applySteps_append]
    have hT1 : ((applySteps (themeStart ext msg hd)
        (l1.flatMap (themeEntrySteps 1 2))).findColl "Theme").isSome = true := by
      rw [findColl_isSome_applySteps, themeStart_findColl_Theme]
      rfl
    exact varState_isSome_upsert _ "Theme" e.path e.ty hT1
  obtain ⟨tv, htv⟩ := Option.isSome_iff_exists.1 hisSome
  exact ⟨tv, htv, varState_name htv⟩

end Caldera

namespace Caldera

theorem theme_path_exists (ext : Ext) (msg : GenMsg) (hd : HandlerData) (p : String)
    (hp : p ∈ themeTableMain.map (fun e => e.path)) :
    ∃ tv, (runStoreOk ext msg hd).varState "Theme" p = some tv ∧ tv.name = p := by
  obtain ⟨e, he, hpath⟩ := List.mem_map.1 hp
  have hx := runTheme_entry_exists ext msg hd e (by
    unfold themeAliasTable
    exact List.mem_append.2 (Or.inl (List.mem_append.2 (Or.inl he))))
  rw [hpath] at hx
  exact hx

/-- C2 (corrected): the Theme collection holds the four
`Status/{Warning,Info,Failure,Success}/{Main,Foreground,Light,Dark}`
groups, but there is no legacy `Status/Error/*` group: any path starting
with `Status/Error` has no Theme variable at all. -/
theorem c2_theme_status_groups (ext : Ext) (msg : GenMsg) (hv : ValidMsg msg) :
    ∃ hd : HandlerData,
      runGenerate ext msg emptyStore = (runStoreOk ext msg hd, none) ∧
      (∀ name ∈ ["Warning", "Info", "Failure", "Success"],
        ∀ leaf ∈ ["Main", "Foreground", "Light", "Dark"],
          ("Status/" ++ name ++ "/" ++ leaf) ∈ themeTableMain.map (fun e => e.path) ∧
          ∃ tv, (runStoreOk ext msg hd).varState "Theme"
              ("Status/" ++ name ++ "/" ++ leaf) = some tv ∧
            tv.name = "Status/" ++ name ++ "/" ++ leaf) ∧
      (∀ p : String, strStartsWith p "Status/Error" = true →
        (runStoreOk ext msg hd).varState "Theme" p = none) := by
  obtain ⟨hd, hdOk, hrun⟩ := runGenerate_empty_valid ext msg hv
  refine ⟨hd, hrun, ?_, ?_⟩
  · intro name hname leaf hleaf
    simp only [List.mem_cons, List.not_mem_nil, or_false] at hname hleaf
    rcases hname with rfl | rfl | rfl | rfl <;> rcases hleaf with rfl | rfl | rfl | rfl <;>
      exact ⟨by decide, theme_path_exists ext msg hd _ (by decide)⟩
  · intro p hsw
    apply runTheme_absent
    intro hmem
    have hall : ∀ q ∈ themePathList, strStartsWith q "Status/Error" = false := by decide
    rw [hall p hmem] at hsw
    cases hsw

/-- The original C2 is false on this code: after a concrete valid run
there is no `Status/Error/Main` Theme variable. -/
theorem c2_counterexample :
    (runGenerate extSample (mkMsg "#3366CC") emptyStore).1.varState "Theme"
      "Status/Error/Main" = none := by
  obtain ⟨hd, hdOk, hrun⟩ := runGenerate_empty_valid extSample (mkMsg "#3366CC")
    (by unfold ValidMsg; decide)
  rw [hrun]
  exact runTheme_absent extSample (mkMsg "#3366CC") hd "Status/Error/Main" (by decide)

theorem c2_witness :
    ∃ hd : HandlerData,
      runGenerate extSample (mkMsg "#3366CC") emptyStore =
        (runStoreOk extSample (mkMsg "#3366CC") hd, none) ∧
      (∀ name ∈ ["Warning", "Info", "Failure", "Success"],
        ∀ leaf ∈ ["Main", "Foreground", "Light", "Dark"],
          ("Status/" ++ name ++ "/" ++ leaf) ∈ themeTableMain.map (fun e => e.path) ∧
          ∃ tv, (runStoreOk extSample (mkMsg "#3366CC") hd).varState "Theme"
              ("Status/" ++ name ++ "/" ++ leaf) = some tv ∧
            tv.name = "Status/" ++ name ++ "/" ++ leaf) ∧
      (∀ p : String, strStartsWith p "Status/Error" = true →
        (runStoreOk extSample (mkMsg "#3366CC") hd).varState "Theme" p = none) :=
  c2_theme_status_groups extSample (mkMsg "#3366CC") (by unfold ValidMsg; decide)

end Caldera

namespace Caldera

/-! ### Bridge collection values -/

theorem bridgeSteps_true (bm : Nat) (mps : String) (hip hbe : Bool) :
    bridgeSteps bm true mps hip hbe =
      (⟨"Bridge", "Modal/Background", .ensure .color⟩ : Step) ::
      (⟨"Bridge", "Modal/Background", .setAlias bm "Theme" "Background/Main"⟩ : Step) ::
      (⟨"Bridge", "Modal/Padding",
        .setAliasOr .float bm "Base" ("Spacing/" ++ mps)
          (.floatV (paddingFallback mps))⟩ : Step) ::
      (⟨"Bridge", "Header/Icons Pairing", .writeLit .bool bm (.boolV hip) none⟩ : Step) ::
      (⟨"Bridge", "Header/Background", .ensure .color⟩ : Step) ::
      (if hbe then [(⟨"Bridge", "Header/Background",
          .setAlias bm "Theme" "Misc/Divider"⟩ : Step)]
       else [(⟨"Bridge", "Header/Background",
          .writeLit .color bm (.colorV ⟨0, 0, 0⟩ 0) none⟩ : Step)]) := rfl

theorem bridgeSteps_false (bm : Nat) (mps : String) (hip hbe : Bool) :
    bridgeSteps bm false mps hip hbe =
      (⟨"Bridge", "Modal/Background", .ensure .color⟩ : Step) ::
      (⟨"Bridge", "Modal/Background", .writeLit .color bm (.colorV ⟨0, 0, 0⟩ 0) none⟩ : Step) ::
      (⟨"Bridge", "Modal/Padding", .writeLit .float bm (.floatV 0) none⟩ : Step) ::
      (⟨"Bridge", "Header/Icons Pairing", .writeLit .bool bm (.boolV hip) none⟩ : Step) ::
      (⟨"Bridge", "Header/Background", .ensure .color⟩ : Step) ::
      (if hbe then [(⟨"Bridge", "Header/Background",
          .setAlias bm "Theme" "Misc/Divider"⟩ : Step)]
       else [(⟨"Bridge", "Header/Background",
          .writeLit .color bm (.colorV ⟨0, 0, 0⟩ 0) none⟩ : Step)]) := rfl

theorem runTheme_collNames (ext : Ext) (msg : GenMsg) (hd : HandlerData) :
    (runTheme ext msg hd).collections.map (fun c => c.name) = ["Base", "Theme"] := by
  have hnamesB : (runBase ext msg hd).collections.map (fun c => c.name) = ["Base"] := by
    unfold runBase
    rw [collNames_applySteps]
    rfl
  unfold runTheme
  rw [collNames_applySteps]
  unfold themeStart
  show ((runBase ext msg hd).collections ++
    [(⟨"Theme", [(1, "Light"), (2, "Dark")], []⟩ : Collection)]).map (fun c => c.name) = _
  rw [List.map_append, hnamesB]
  rfl

theorem bridgeStart_findColl_Bridge (ext : Ext) (msg : GenMsg) (hd : HandlerData) :
    (bridgeStart ext msg hd).findColl "Bridge" =
      some ⟨"Bridge", [(3, "Default")], []⟩ :=
  findColl_append_self (runTheme ext msg hd).collections ⟨"Bridge", [(3, "Default")], []⟩
    (runTheme ext msg hd).nextId 4
    (name_ne_of_names (runTheme_collNames ext msg hd) "Bridge" (by decide))

theorem findColl_base_chain (ext : Ext) (msg : GenMsg) (hd : HandlerData) :
    (bridgeStart ext msg hd).findColl "Base" = (runBase ext msg hd).findColl "Base" := by
  unfold bridgeStart
  rw [findColl_mk_append (runTheme ext msg hd) _ _ _ "Base" (by decide)]
  unfold runTheme
  rw [findColl_applySteps_frame _ _ "Base" (fun st hst => by
    have hcl := themeSteps_colls 1 2 (msg.cornerRadiusLevel.getD 3) st hst
    rw [hcl]
    decide)]
  unfold themeStart
  exact findColl_mk_append (runBase ext msg hd) _ _ _ "Base" (by decide)

end Caldera

namespace Caldera

theorem bridge_padding_value_true (s : Store) (bm : Nat) (mps : String) (hip hbe : Bool)
    (hc : (s.findColl "Bridge").isSome = true) :
    (applySteps s (bridgeSteps bm true mps hip hbe)).valueAt "Bridge" "Modal/Padding" bm =
      match (s.findColl "Base").bind (fun c => c.findVar ("Spacing/" ++ mps)) with
      | some tv => some (.aliasV tv.id)
      | none => some (.floatV (paddingFallback mps)) := by
  rw [bridgeSteps_true]
  rw [show applySteps s
      ((⟨"Bridge", "Modal/Background", .ensure .color⟩ : Step) ::
       (⟨"Bridge", "Modal/Background", .setAlias bm "Theme" "Background/Main"⟩ : Step) ::
       (⟨"Bridge", "Modal/Padding",
         .setAliasOr .float bm "Base" ("Spacing/" ++ mps)
           (.floatV (paddingFallback mps))⟩ : Step) ::
       (⟨"Bridge", "Header/Icons Pairing", .writeLit .bool bm (.boolV hip) none⟩ : Step) ::
       (⟨"Bridge", "Header/Background", .ensure .color⟩ : Step) ::
       (if hbe then [(⟨"Bridge", "Header/Background",
           .setAlias bm "Theme" "Misc/Divider"⟩ : Step)]
        else [(⟨"Bridge", "Header/Background",
           .writeLit .color bm (.colorV ⟨0, 0, 0⟩ 0) none⟩ : Step)])) =
      applySteps (applyStep (applyStep (applyStep s
        ⟨"Bridge", "Modal/Background", .ensure .color⟩)
        ⟨"Bridge", "Modal/Background", .setAlias bm "Theme" "Background/Main"⟩)
        ⟨"Bridge", "Modal/Padding",
          .setAliasOr .float bm "Base" ("Spacing/" ++ mps)
            (.floatV (paddingFallback mps))⟩)
      ((⟨"Bridge", "Header/Icons Pairing", .writeLit .bool bm (.boolV hip) none⟩ : Step) ::
       (⟨"Bridge", "Header/Background", .ensure .color⟩ : Step) ::
       (if hbe then [(⟨"Bridge", "Header/Background",
           .setAlias bm "Theme" "Misc/Divider"⟩ : Step)]
        else [(⟨"Bridge", "Header/Background",
           .writeLit .color bm (.colorV ⟨0, 0, 0⟩ 0) none⟩ : Step)])) from rfl]
  have hfr : ∀ st ∈
      ((⟨"Bridge", "Header/Icons Pairing", .writeLit .bool bm (.boolV hip) none⟩ : Step) ::
       (⟨"Bridge", "Header/Background", .ensure .color⟩ : Step) ::
       (if hbe then [(⟨"Bridge", "Header/Background",
           .setAlias bm "Theme" "Misc/Divider"⟩ : Step)]
        else [(⟨"Bridge", "Header/Background",
           .writeLit .color bm (.colorV ⟨0, 0, 0⟩ 0) none⟩ : Step)])),
      stepTouches "Bridge" "Modal/Padding" st = false := by
    intro st hst
    rcases List.mem_cons.1 hst with rfl | hst
    · rfl
    rcases List.mem_cons.1 hst with rfl | hst
    · rfl
    revert hst
    cases hbe
    · intro hst
      obtain rfl := List.mem_singleton.1 hst
      rfl
    · intro hst
      obtain rfl := List.mem_singleton.1 hst
      rfl
  rw [valueAt_frame_steps _ _ _ _ _ hfr]
  have hc2 : (((applyStep (applyStep s ⟨"Bridge", "Modal/Background", .ensure .color⟩)
      ⟨"Bridge", "Modal/Background", .setAlias bm "Theme" "Background/Main"⟩).findColl
      "Bridge")).isSome = true := by
    rw [show applyStep (applyStep s ⟨"Bridge", "Modal/Background", .ensure .color⟩)
        ⟨"Bridge", "Modal/Background", .setAlias bm "Theme" "Background/Main"⟩ =
        applySteps s [⟨"Bridge", "Modal/Background", .ensure .color⟩,
          ⟨"Bridge", "Modal/Background", .setAlias bm "Theme" "Background/Main"⟩] from rfl,
      findColl_isSome_applySteps]
    exact hc
  rw [valueAt_applyStep_setAliasOr _ "Bridge" "Modal/Padding" .float bm "Base"
    ("Spacing/" ++ mps) (.floatV (paddingFallback mps)) hc2 (by decide)]
  have hfb : ((applyStep (applyStep s ⟨"Bridge", "Modal/Background", .ensure .color⟩)
      ⟨"Bridge", "Modal/Background", .setAlias bm "Theme" "Background/Main"⟩).findColl
      "Base") = s.findColl "Base" := by
    rw [findColl_applyStep_frame _ _ "Base" (by simp),
      findColl_applyStep_frame _ _ "Base" (by simp)]
  rw [hfb]

theorem bridge_padding_value_false (s : Store) (bm : Nat) (mps : String) (hip hbe : Bool)
    (hc : (s.findColl "Bridge").isSome = true) :
    (applySteps s (bridgeSteps bm false mps hip hbe)).valueAt "Bridge" "Modal/Padding" bm =
      some (.floatV 0) := by
  rw [bridgeSteps_false]
  rw [show applySteps s
      ((⟨"Bridge", "Modal/Background", .ensure .color⟩ : Step) ::
       (⟨"Bridge", "Modal/Background", .writeLit .color bm (.colorV ⟨0, 0, 0⟩ 0) none⟩ : Step) ::
       (⟨"Bridge", "Modal/Padding", .writeLit .float bm (.floatV 0) none⟩ : Step) ::
       (⟨"Bridge", "Header/Icons Pairing", .writeLit .bool bm (.boolV hip) none⟩ : Step) ::
       (⟨"Bridge", "Header/Background", .ensure .color⟩ : Step) ::
       (if hbe then [(⟨"Bridge", "Header/Background",
           .setAlias bm "Theme" "Misc/Divider"⟩ : Step)]
        else [(⟨"Bridge", "Header/Background",
           .writeLit .color bm (.colorV ⟨0, 0, 0⟩ 0) none⟩ : Step)])) =
      applySteps (applyStep (applyStep (applyStep s
        ⟨"Bridge", "Modal/Background", .ensure .color⟩)
        ⟨"Bridge", "Modal/Background", .writeLit .color bm (.colorV ⟨0, 0, 0⟩ 0) none⟩)
        ⟨"Bridge", "Modal/Padding", .writeLit .float bm (.floatV 0) none⟩)
      ((⟨"Bridge", "Header/Icons Pairing", .writeLit .bool bm (.boolV hip) none⟩ : Step) ::
       (⟨"Bridge", "Header/Background", .ensure .color⟩ : Step) ::
       (if hbe then [(⟨"Bridge", "Header/Background",
           .setAlias bm "Theme" "Misc/Divider"⟩ : Step)]
        else [(⟨"Bridge", "Header/Background",
           .writeLit .color bm (.colorV ⟨0, 0, 0⟩ 0) none⟩ : Step)])) from rfl]
  have hfr : ∀ st ∈
      ((⟨"Bridge", "Header/Icons Pairing", .writeLit .bool bm (.boolV hip) none⟩ : Step) ::
       (⟨"Bridge", "Header/Background", .ensure .color⟩ : Step) ::
       (if hbe then [(⟨"Bridge", "Header/Background",
           .setAlias bm "Theme" "Misc/Divider"⟩ : Step)]
        else [(⟨"Bridge", "Header/Background",
           .writeLit .color bm (.colorV ⟨0, 0, 0⟩ 0) none⟩ : Step)])),
      stepTouches "Bridge" "Modal/Padding" st = false := by
    intro st hst
    rcases List.mem_cons.1 hst with rfl | hst
    · rfl
    rcases List.mem_cons.1 hst with rfl | hst
    · rfl
    revert hst
    cases hbe
    · intro hst
      obtain rfl := List.mem_singleton.1 hst
      rfl
    · intro hst
      obtain rfl := List.mem_singleton.1 hst
      rfl
  rw [valueAt_frame_steps _ _ _ _ _ hfr]
  have hc2 : (((applyStep (applyStep s ⟨"Bridge", "Modal/Background", .ensure .color⟩)
      ⟨"Bridge", "Modal/Background",
        .writeLit .color bm (.colorV ⟨0, 0, 0⟩ 0) none⟩).findColl "Bridge")).isSome = true := by
    rw [show applyStep (applyStep s ⟨"Bridge", "Modal/Background", .ensure .color⟩)
        ⟨"Bridge", "Modal/Background", .writeLit .color bm (.colorV ⟨0, 0, 0⟩ 0) none⟩ =
        applySteps s [⟨"Bridge", "Modal/Background", .ensure .color⟩,
          ⟨"Bridge", "Modal/Background",
            .writeLit .color bm (.colorV ⟨0, 0, 0⟩ 0) none⟩] from rfl,
      findColl_isSome_applySteps]
    exact hc
  exact valueAt_applyStep_writeLit _ "Bridge" "Modal/Padding" .float bm (.floatV 0) none hc2

end Caldera

namespace Caldera

/-- C7: with the modal background feature enabled, Bridge Modal/Padding
aliases the Base `Spacing/<modalPaddingSize>` variable when it exists and
falls back to the literal numeric spacing-table value when it does not
(the run still succeeds); with the feature disabled it is the literal 0. -/
theorem c7_modal_padding (ext : Ext) (msg : GenMsg) (hv : ValidMsg msg) :
    ∃ hd : HandlerData,
      runGenerate ext msg emptyStore = (runStoreOk ext msg hd, none) ∧
      (msg.modalBackgroundEnabled.getD true = true →
        (∀ tv, (runBase ext msg hd).varState "Base"
            ("Spacing/" ++ msg.modalPaddingSize.getD "2") = some tv →
          (runStoreOk ext msg hd).valueAt "Bridge" "Modal/Padding" 3 =
            some (.aliasV tv.id)) ∧
        ((runBase ext msg hd).varState "Base"
            ("Spacing/" ++ msg.modalPaddingSize.getD "2") = none →
          (runStoreOk ext msg hd).valueAt "Bridge" "Modal/Padding" 3 =
            some (.floatV (paddingFallback (msg.modalPaddingSize.getD "2"))))) ∧
      (msg.modalBackgroundEnabled.getD true = false →
        (runStoreOk ext msg hd).valueAt "Bridge" "Modal/Padding" 3 =
          some (.floatV 0)) := by
  obtain ⟨hd, hdOk, hrun⟩ := runGenerate_empty_valid ext msg hv
  have hcB : ((bridgeStart ext msg hd).findColl "Bridge").isSome = true := by
    rw [bridgeStart_findColl_Bridge]
    rfl
  have hvseq : (runBase ext msg hd).varState "Base"
      ("Spacing/" ++ msg.modalPaddingSize.getD "2") =
      ((runBase ext msg hd).findColl "Base").bind
        (fun c => c.findVar ("Spacing/" ++ msg.modalPaddingSize.getD "2")) := rfl
  refine ⟨hd, hrun, ?_, ?_⟩
  · intro hmbe
    have hval : (runStoreOk ext msg hd).valueAt "Bridge" "Modal/Padding" 3 =
        match ((runBase ext msg hd).findColl "Base").bind
            (fun c => c.findVar ("Spacing/" ++ msg.modalPaddingSize.getD "2")) with
        | some tv => some (.aliasV tv.id)
        | none => some (.floatV (paddingFallback (msg.modalPaddingSize.getD "2"))) := by
      rw [runStoreOk_eq, hmbe, bridge_padding_value_true _ 3 _ _ _ hcB,
        findColl_base_chain]
    constructor
    · intro tv htv
      rw [hvseq] at htv
      rw [hval, htv]
    · intro hnone
      rw [hvseq] at hnone
      rw [hval, hnone]
  · intro hmbe
    rw [runStoreOk_eq, hmbe, bridge_padding_value_false _ 3 _ _ _ hcB]

theorem c7_witness :
    ∃ hd : HandlerData,
      runGenerate extSample (mkMsg "#3366CC") emptyStore =
        (runStoreOk extSample (mkMsg "#3366CC") hd, none) ∧
      ((mkMsg "#3366CC").modalBackgroundEnabled.getD true = true →
        (∀ tv, (runBase extSample (mkMsg "#3366CC") hd).varState "Base"
            ("Spacing/" ++ (mkMsg "#3366CC").modalPaddingSize.getD "2") = some tv →
          (runStoreOk extSample (mkMsg "#3366CC") hd).valueAt "Bridge" "Modal/Padding" 3 =
            some (.aliasV tv.id)) ∧
        ((runBase extSample (mkMsg "#3366CC") hd).varState "Base"
            ("Spacing/" ++ (mkMsg "#3366CC").modalPaddingSize.getD "2") = none →
          (runStoreOk extSample (mkMsg "#3366CC") hd).valueAt "Bridge" "Modal/Padding" 3 =
            some (.floatV (paddingFallback ((mkMsg "#3366CC").modalPaddingSize.getD "2"))))) ∧
      ((mkMsg "#3366CC").modalBackgroundEnabled.getD true = false →
        (runStoreOk extSample (mkMsg "#3366CC") hd).valueAt "Bridge" "Modal/Padding" 3 =
          some (.floatV 0)) :=
  c7_modal_padding extSample (mkMsg "#3366CC") (by unfold ValidMsg; decide)

end Caldera

namespace Caldera

/-! ### Typography section machinery -/

theorem basePreSteps_paths (msg : GenMsg) (hd : HandlerData) (m : Nat) :
    ∀ st ∈ basePreSteps msg hd m, st.coll = "Base" ∧ st.path ∈ prePaths := by
  intro st hst
  unfold basePreSteps at hst
  unfold prePaths
  simp only [List.append_assoc] at hst ⊢
  rcases List.mem_append.1 hst with h | hst
  · obtain ⟨hc, hp⟩ := toneVarSteps_paths m "Primary" primaryTones hd.primary st h
    have hp2 : st.path ∈ primaryTones.map (fun t => "Colors/Primary/" ++ toString t) := hp
    refine ⟨hc, ?_⟩
    simp only [List.mem_append]
    tauto
  rcases List.mem_append.1 hst with h | hst
  · obtain rfl := List.mem_singleton.1 h
    have hp2 : (colorStep m "Colors/Primary/Base" msg.hex 1).path ∈
        (["Colors/Primary/Base"] : List String) := List.mem_singleton.2 rfl
    refine ⟨rfl, ?_⟩
    simp only [List.mem_append]
    tauto
  rcases List.mem_append.1 hst with h | hst
  · obtain ⟨hc, hp⟩ := alphaVarSteps_paths m "Primary" msg.hex st h
    have hp2 : st.path ∈ alphaRange.map (fun t => "Colors/Primary/Alpha/" ++ toString t) := hp
    refine ⟨hc, ?_⟩
    simp only [List.mem_append]
    tauto
  rcases List.mem_append.1 hst with h | hst
  · obtain ⟨hc, hp⟩ := toneVarSteps_paths m "Neutral" neutralTones hd.neutral st h
    have hp2 : st.path ∈ neutralTones.map (fun t => "Colors/Neutral/" ++ toString t) := hp
    refine ⟨hc, ?_⟩
    simp only [List.mem_append]
    tauto
  rcases List.mem_append.1 hst with h | h
  · obtain rfl := List.mem_singleton.1 h
    have hp2 : (colorStep m "Colors/Neutral/Base" hd.neutralBaseHex 1).path ∈
        (["Colors/Neutral/Base"] : List String) := List.mem_singleton.2 rfl
    refine ⟨rfl, ?_⟩
    simp only [List.mem_append]
    tauto
  · obtain ⟨hc, hp⟩ := alphaVarSteps_paths m "Neutral" hd.neutralBaseHex st h
    have hp2 : st.path ∈ alphaRange.map (fun t => "Colors/Neutral/Alpha/" ++ toString t) := hp
    refine ⟨hc, ?_⟩
    simp only [List.mem_append]
    tauto

theorem whiteBlackSteps_paths3 (m : Nat) :
    ∀ st ∈ whiteBlackSteps m, st.coll = "Base" ∧
      st.path ∈ (["Colors/White/100"] ++
        alphaRange.map (fun a => "Colors/White/" ++ toString a) ++
        ["Colors/Black/100"] ++
        alphaRange.map (fun a => "Colors/Black/" ++ toString a)) := by
  intro st hst
  unfold whiteBlackSteps at hst
  simp only [List.append_assoc] at hst ⊢
  rcases List.mem_append.1 hst with h | hst
  · obtain rfl := List.mem_singleton.1 h
    exact ⟨rfl, List.mem_append.2 (Or.inl (List.mem_singleton.2 rfl))⟩
  rcases List.mem_append.1 hst with h | hst
  · rw [List.mem_map] at h
    obtain ⟨t, ht, rfl⟩ := h
    exact ⟨rfl, List.mem_append.2 (Or.inr (List.mem_append.2 (Or.inl
      (List.mem_map_of_mem (fun a => "Colors/White/" ++ toString a) ht))))⟩
  rcases List.mem_append.1 hst with h | hst
  · obtain rfl := List.mem_singleton.1 h
    exact ⟨rfl, List.mem_append.2 (Or.inr (List.mem_append.2 (Or.inr (List.mem_append.2
      (Or.inl (List.mem_singleton.2 rfl))))))⟩
  · rw [List.mem_map] at hst
    obtain ⟨t, ht, rfl⟩ := hst
    exact ⟨rfl, List.mem_append.2 (Or.inr (List.mem_append.2 (Or.inr (List.mem_append.2
      (Or.inr (List.mem_map_of_mem (fun a => "Colors/Black/" ++ toString a) ht))))))⟩

theorem baseNonTyp_paths (ext : Ext) (msg : GenMsg) (hd : HandlerData) :
    ∀ st ∈ basePreSteps msg hd 0 ++
      (statusSectionOk ext 0 "Success" 150 66 msg.successHex ++
      (statusSectionOk ext 0 "Warning" 40 70 msg.warningHex ++
      (statusSectionOk ext 0 "Info" 260 84 msg.infoHex ++
      (statusSectionOk ext 0 "Failure" 25 84 msg.failureHex ++
      (whiteBlackSteps 0 ++ (cornerSteps 0 ++ spacingSteps 0)))))),
      st.coll = "Base" ∧ st.path ∈ nonTypPaths := by
  intro st hst
  unfold nonTypPaths
  simp only [List.mem_append]
  rcases List.mem_append.1 hst with h | hst
  · obtain ⟨hc, hp⟩ := basePreSteps_paths msg hd 0 st h
    exact ⟨hc, by tauto⟩
  rcases List.mem_append.1 hst with h | hst
  · obtain ⟨hc, hp⟩ := statusSectionOk_paths ext 0 "Success" 150 66 msg.successHex st h
    exact ⟨hc, by tauto⟩
  rcases List.mem_append.1 hst with h | hst
  · obtain ⟨hc, hp⟩ := statusSectionOk_paths ext 0 "Warning" 40 70 msg.warningHex st h
    exact ⟨hc, by tauto⟩
  rcases List.mem_append.1 hst with h | hst
  · obtain ⟨hc, hp⟩ := statusSectionOk_paths ext 0 "Info" 260 84 msg.infoHex st h
    exact ⟨hc, by tauto⟩
  rcases List.mem_append.1 hst with h | hst
  · obtain ⟨hc, hp⟩ := statusSectionOk_paths ext 0 "Failure" 25 84 msg.failureHex st h
    exact ⟨hc, by tauto⟩
  rcases List.mem_append.1 hst with h | hst
  · obtain ⟨hc, hp⟩ := whiteBlackSteps_paths3 0 st h
    simp only [List.mem_append] at hp
    exact ⟨hc, by tauto⟩
  rcases List.mem_append.1 hst with h | h
  · obtain ⟨hc, hp⟩ := cornerSteps_paths2 0 st h
    exact ⟨hc, by tauto⟩
  · obtain ⟨hc, hp⟩ := spacingSteps_paths2 0 st h
    exact ⟨hc, by tauto⟩

theorem typographySteps_blocks (ext : Ext) (msg : GenMsg) (m : Nat) :
    typographySteps ext msg m =
      roleBlock ext msg m "Display" ++ (roleBlock ext msg m "Header" ++
        (roleBlock ext msg m "Primary" ++ (roleBlock ext msg m "Data" ++ []))) := rfl

theorem roleBlock_paths (ext : Ext) (msg : GenMsg) (m : Nat) (r : String) :
    ∀ st ∈ roleBlock ext msg m r, st.coll = "Base" ∧
      st.path ∈ ["Typography/" ++ r ++ "/Font", "Typography/" ++ r ++ "/Style"] := by
  intro st hst
  unfold roleBlock at hst
  cases hres : resolveFont ext.fontLoads (fontOverrideFor msg r) (typDefault r) with
  | none =>
    rw [hres] at hst
    cases hst
  | some f =>
    rw [hres] at hst
    simp only [List.mem_cons, List.not_mem_nil, or_false] at hst
    rcases hst with rfl | rfl
    · exact ⟨rfl, by simp⟩
    · exact ⟨rfl, by simp⟩

theorem roleBlock_some (ext : Ext) (msg : GenMsg) (m : Nat) (r : String) (f : FontName)
    (hres : resolveFont ext.fontLoads (fontOverrideFor msg r) (typDefault r) = some f) :
    roleBlock ext msg m r =
      [⟨"Base", "Typography/" ++ r ++ "/Font",
         .writeLit .str m (.strV f.family) (some ["TEXT_CONTENT", "FONT_FAMILY"])⟩,
       ⟨"Base", "Typography/" ++ r ++ "/Style",
         .writeLit .str m (.strV f.style) (some ["FONT_STYLE"])⟩] := by
  unfold roleBlock
  rw [hres]

theorem roleBlock_none (ext : Ext) (msg : GenMsg) (m : Nat) (r : String)
    (hres : resolveFont ext.fontLoads (fontOverrideFor msg r) (typDefault r) = none) :
    roleBlock ext msg m r = [] := by
  unfold roleBlock
  rw [hres]

end Caldera

namespace Caldera

theorem typ_role_value (ext : Ext) (msg : GenMsg) (hd : HandlerData) (role : String)
    (B1 B2 : List Step)
    (hsplit : typographySteps ext msg 0 = B1 ++ (roleBlock ext msg 0 role ++ B2))
    (hfr1F : ∀ st ∈ B1, stepTouches "Base" ("Typography/" ++ role ++ "/Font") st = false)
    (hfr1S : ∀ st ∈ B1, stepTouches "Base" ("Typography/" ++ role ++ "/Style") st = false)
    (hfr2F : ∀ st ∈ B2, stepTouches "Base" ("Typography/" ++ role ++ "/Font") st = false)
    (hfr2S : ∀ st ∈ B2, stepTouches "Base" ("Typography/" ++ role ++ "/Style") st = false)
    (hMF : ("Typography/" ++ role ++ "/Font") ∉ nonTypPaths)
    (hMS : ("Typography/" ++ role ++ "/Style") ∉ nonTypPaths)
    (hSF : ("Typography/" ++ role ++ "/Style") ≠ ("Typography/" ++ role ++ "/Font")) :
    (∀ f, resolveFont ext.fontLoads (fontOverrideFor msg role) (typDefault role) = some f →
      (runBase ext msg hd).valueAt "Base" ("Typography/" ++ role ++ "/Font") 0 =
        some (.strV f.family) ∧
      (runBase ext msg hd).valueAt "Base" ("Typography/" ++ role ++ "/Style") 0 =
        some (.strV f.style)) ∧
    (resolveFont ext.fontLoads (fontOverrideFor msg role) (typDefault role) = none →
      (runBase ext msg hd).varState "Base" ("Typography/" ++ role ++ "/Font") = none ∧
      (runBase ext msg hd).varState "Base" ("Typography/" ++ role ++ "/Style") = none) := by
  have hM : baseStepsOk ext msg hd 0 =
      (basePreSteps msg hd 0 ++
        (statusSectionOk ext 0 "Success" 150 66 msg.successHex ++
        (statusSectionOk ext 0 "Warning" 40 70 msg.warningHex ++
        (statusSectionOk ext 0 "Info" 260 84 msg.infoHex ++
        (statusSectionOk ext 0 "Failure" 25 84 msg.failureHex ++
        (whiteBlackSteps 0 ++ (cornerSteps 0 ++ spacingSteps 0))))))) ++
      typographySteps ext msg 0 := by
    simp only [baseStepsOk, baseTailSteps, List.append_assoc]
  have hfrMF : ∀ st ∈ basePreSteps msg hd 0 ++
      (statusSectionOk ext 0 "Success" 150 66 msg.successHex ++
      (statusSectionOk ext 0 "Warning" 40 70 msg.warningHex ++
      (statusSectionOk ext 0 "Info" 260 84 msg.infoHex ++
      (statusSectionOk ext 0 "Failure" 25 84 msg.failureHex ++
      (whiteBlackSteps 0 ++ (cornerSteps 0 ++ spacingSteps 0)))))),
      stepTouches "Base" ("Typography/" ++ role ++ "/Font") st = false :=
    frame_of_paths (baseNonTyp_paths ext msg hd) "Base" _ (Or.inr hMF)
  have hfrMS : ∀ st ∈ basePreSteps msg hd 0 ++
      (statusSectionOk ext 0 "Success" 150 66 msg.successHex ++
      (statusSectionOk ext 0 "Warning" 40 70 msg.warningHex ++
      (statusSectionOk ext 0 "Info" 260 84 msg.infoHex ++
      (statusSectionOk ext 0 "Failure" 25 84 msg.failureHex ++
      (whiteBlackSteps 0 ++ (cornerSteps 0 ++ spacingSteps 0)))))),
      stepTouches "Base" ("Typography/" ++ role ++ "/Style") st = false :=
    frame_of_paths (baseNonTyp_paths ext msg hd) "Base" _ (Or.inr hMS)
  have hcB : (baseStart.findColl "Base").isSome = true := rfl
  constructor
  · intro f hres
    constructor
    · unfold runBase
      rw [hM, hsplit, roleBlock_some ext msg 0 role f hres]
      rw [show (basePreSteps msg hd 0 ++
          (statusSectionOk ext 0 "Success" 150 66 msg.successHex ++
          (statusSectionOk ext 0 "Warning" 40 70 msg.warningHex ++
          (statusSectionOk ext 0 "Info" 260 84 msg.infoHex ++
          (statusSectionOk ext 0 "Failure" 25 84 msg.failureHex ++
          (whiteBlackSteps 0 ++ (cornerSteps 0 ++ spacingSteps 0))))))) ++
          (B1 ++ ([(⟨"Base", "Typography/" ++ role ++ "/Font",
            .writeLit .str 0 (.strV f.family) (some ["TEXT_CONTENT", "FONT_FAMILY"])⟩ : Step),
            ⟨"Base", "Typography/" ++ role ++ "/Style",
            .writeLit .str 0 (.strV f.style) (some ["FONT_STYLE"])⟩] ++ B2)) =
          ((basePreSteps msg hd 0 ++
          (statusSectionOk ext 0 "Success" 150 66 msg.successHex ++
          (statusSectionOk ext 0 "Warning" 40 70 msg.warningHex ++
          (statusSectionOk ext 0 "Info" 260 84 msg.infoHex ++
          (statusSectionOk ext 0 "Failure" 25 84 msg.failureHex ++
          (whiteBlackSteps 0 ++ (cornerSteps 0 ++ spacingSteps 0))))))) ++ B1) ++
          (⟨"Base", "Typography/" ++ role ++ "/Font",
            .writeLit .str 0 (.strV f.family) (some ["TEXT_CONTENT", "FONT_FAMILY"])⟩ : Step) ::
          ((⟨"Base", "Typography/" ++ role ++ "/Style",
            .writeLit .str 0 (.strV f.style) (some ["FONT_STYLE"])⟩ : Step) :: B2) from by
        simp]
      refine valueAt_applySteps_litHit baseStart _ _ "Base" _ .str 0 _ _ ?_ hcB
      intro st hst
      rcases List.mem_cons.1 hst with rfl | hst
      · unfold stepTouches
        dsimp only
        rw [beq_eq_false_iff_ne.2 hSF]
        simp
      · exact hfr2F st hst
    · unfold runBase
      rw [hM, hsplit, roleBlock_some ext msg 0 role f hres]
      rw [show (basePreSteps msg hd 0 ++
          (statusSectionOk ext 0 "Success" 150 66 msg.successHex ++
          (statusSectionOk ext 0 "Warning" 40 70 msg.warningHex ++
          (statusSectionOk ext 0 "Info" 260 84 msg.infoHex ++
          (statusSectionOk ext 0 "Failure" 25 84 msg.failureHex ++
          (whiteBlackSteps 0 ++ (cornerSteps 0 ++ spacingSteps 0))))))) ++
          (B1 ++ ([(⟨"Base", "Typography/" ++ role ++ "/Font",
            .writeLit .str 0 (.strV f.family) (some ["TEXT_CONTENT", "FONT_FAMILY"])⟩ : Step),
            ⟨"Base", "Typography/" ++ role ++ "/Style",
            .writeLit .str 0 (.strV f.style) (some ["FONT_STYLE"])⟩] ++ B2)) =
          ((basePreSteps msg hd 0 ++
          (statusSectionOk ext 0 "Success" 150 66 msg.successHex ++
          (statusSectionOk ext 0 "Warning" 40 70 msg.warningHex ++
          (statusSectionOk ext 0 "Info" 260 84 msg.infoHex ++
          (statusSectionOk ext 0 "Failure" 25 84 msg.failureHex ++
          (whiteBlackSteps 0 ++ (cornerSteps 0 ++ spacingSteps 0))))))) ++
          (B1 ++ [(⟨"Base", "Typography/" ++ role ++ "/Font",
            .writeLit .str 0 (.strV f.family) (some ["TEXT_CONTENT", "FONT_FAMILY"])⟩ : Step)])) ++
          (⟨"Base", "Typography/" ++ role ++ "/Style",
            .writeLit .str 0 (.strV f.style) (some ["FONT_STYLE"])⟩ : Step) :: B2 from by
        simp]
      exact valueAt_applySteps_litHit baseStart _ _ "Base" _ .str 0 _ _ hfr2S hcB
  · intro hres
    have hframe : ∀ p2 : String, p2 ∉ nonTypPaths →
        (∀ st ∈ B1, stepTouches "Base" p2 st = false) →
        (∀ st ∈ B2, stepTouches "Base" p2 st = false) →
        (runBase ext msg hd).varState "Base" p2 = none := by
      intro p2 hp2 hB1 hB2
      unfold runBase
      rw [hM, hsplit, roleBlock_none ext msg 0 role hres]
      rw [varState_applySteps_frame _ _ _ _
        (frames_append
          (frame_of_paths (baseNonTyp_paths ext msg hd) "Base" p2 (Or.inr hp2))
          (frames_append hB1
            (frames_append (fun st hst => absurd hst (List.not_mem_nil st)) hB2)))]
      rfl
    exact ⟨hframe _ hMF hfr1F hfr2F, hframe _ hMS hfr1S hfr2S⟩

end Caldera

namespace Caldera

/-- C8: each typography role resolves its font through the
override → role default → Inter Regular chain (`resolveFont`); a
successful resolution writes the family and style tokens, and a fully
failed chain leaves both `Typography/<role>/Font` and
`Typography/<role>/Style` entirely absent while the run still succeeds. -/
theorem c8_typography_fallback (ext : Ext) (msg : GenMsg) (hv : ValidMsg msg)
    (role : String) (hrole : role ∈ typographyRoles) :
    ∃ hd : HandlerData,
      runGenerate ext msg emptyStore = (runStoreOk ext msg hd, none) ∧
      (∀ f, resolveFont ext.fontLoads (fontOverrideFor msg role) (typDefault role) = some f →
        (runStoreOk ext msg hd).valueAt "Base" ("Typography/" ++ role ++ "/Font") 0 =
          some (.strV f.family) ∧
        (runStoreOk ext msg hd).valueAt "Base" ("Typography/" ++ role ++ "/Style") 0 =
          some (.strV f.style)) ∧
      (resolveFont ext.fontLoads (fontOverrideFor msg role) (typDefault role) = none →
        (runStoreOk ext msg hd).varState "Base" ("Typography/" ++ role ++ "/Font") = none ∧
        (runStoreOk ext msg hd).varState "Base" ("Typography/" ++ role ++ "/Style") = none) := by
  obtain ⟨hd, hdOk, hrun⟩ := runGenerate_empty_valid ext msg hv
  have hvar : ∀ pn : String, (runStoreOk ext msg hd).varState "Base" pn =
      (runBase ext msg hd).varState "Base" pn := by
    intro pn
    rw [varState_runStoreOk_noBridge ext msg hd "Base" pn (by decide),
      varState_runTheme_noTheme ext msg hd "Base" pn (by decide)]
  have hval : ∀ (pn : String) (m : Nat), (runStoreOk ext msg hd).valueAt "Base" pn m =
      (runBase ext msg hd).valueAt "Base" pn m := fun pn m =>
    valueAt_of_varState_eq (hvar pn) m
  have hfrBlk : ∀ (r p2 : String),
      p2 ∉ ["Typography/" ++ r ++ "/Font", "Typography/" ++ r ++ "/Style"] →
      ∀ st ∈ roleBlock ext msg 0 r, stepTouches "Base" p2 st = false :=
    fun r p2 hp2 => frame_of_paths (roleBlock_paths ext msg 0 r) "Base" p2 (Or.inr hp2)
  have hnil : ∀ p2 : String, ∀ st ∈ ([] : List Step), stepTouches "Base" p2 st = false :=
    fun p2 st hst => absurd hst (List.not_mem_nil st)
  have hfinish : ∀ (B1 B2 : List Step),
      typographySteps ext msg 0 = B1 ++ (roleBlock ext msg 0 role ++ B2) →
      (∀ st ∈ B1, stepTouches "Base" ("Typography/" ++ role ++ "/Font") st = false) →
      (∀ st ∈ B1, stepTouches "Base" ("Typography/" ++ role ++ "/Style") st = false) →
      (∀ st ∈ B2, stepTouches "Base" ("Typography/" ++ role ++ "/Font") st = false) →
      (∀ st ∈ B2, stepTouches "Base" ("Typography/" ++ role ++ "/Style") st = false) →
      ("Typography/" ++ role ++ "/Font") ∉ nonTypPaths →
      ("Typography/" ++ role ++ "/Style") ∉ nonTypPaths →
      ("Typography/" ++ role ++ "/Style") ≠ ("Typography/" ++ role ++ "/Font") →
      (∀ f, resolveFont ext.fontLoads (fontOverrideFor msg role) (typDefault role) = some f →
        (runStoreOk ext msg hd).valueAt "Base" ("Typography/" ++ role ++ "/Font") 0 =
          some (.strV f.family) ∧
        (runStoreOk ext msg hd).valueAt "Base" ("Typography/" ++ role ++ "/Style") 0 =
          some (.strV f.style)) ∧
      (resolveFont ext.fontLoads (fontOverrideFor msg role) (typDefault role) = none →
        (runStoreOk ext msg hd).varState "Base" ("Typography/" ++ role ++ "/Font") = none ∧
        (runStoreOk ext msg hd).varState "Base" ("Typography/" ++ role ++ "/Style") = none) := by
    intro B1 B2 hsplit h1F h1S h2F h2S hMF hMS hSF
    obtain ⟨hsome, hnone⟩ := typ_role_value ext msg hd role B1 B2 hsplit h1F h1S h2F h2S
      hMF hMS hSF
    constructor
    · intro f hres
      obtain ⟨ha, hb⟩ := hsome f hres
      exact ⟨by rw [hval]; exact ha, by rw [hval]; exact hb⟩
    · intro hres
      obtain ⟨ha, hb⟩ := hnone hres
      exact ⟨by rw [hvar]; exact ha, by rw [hvar]; exact hb⟩
  refine ⟨hd, hrun, ?_⟩
  simp only [typographyRoles, List.mem_cons, List.not_mem_nil, or_false] at hrole
  rcases hrole with rfl | rfl | rfl | rfl
  · exact hfinish []
      (roleBlock ext msg 0 "Header" ++ (roleBlock ext msg 0 "Primary" ++
        (roleBlock ext msg 0 "Data" ++ [])))
      (by rw [typographySteps_blocks]; simp)
      (hnil _) (hnil _)
      (frames_append (hfrBlk "Header" _ (by decide))
        (frames_append (hfrBlk "Primary" _ (by decide))
          (frames_append (hfrBlk "Data" _ (by decide)) (hnil _))))
      (frames_append (hfrBlk "Header" _ (by decide))
        (frames_append (hfrBlk "Primary" _ (by decide))
          (frames_append (hfrBlk "Data" _ (by decide)) (hnil _))))
      (by decide) (by decide) (by decide)
  · exact hfinish (roleBlock ext msg 0 "Display")
      (roleBlock ext msg 0 "Primary" ++ (roleBlock ext msg 0 "Data" ++ []))
      (typographySteps_blocks ext msg 0)
      (hfrBlk "Display" _ (by decide)) (hfrBlk "Display" _ (by decide))
      (frames_append (hfrBlk "Primary" _ (by decide))
        (frames_append (hfrBlk "Data" _ (by decide)) (hnil _)))
      (frames_append (hfrBlk "Primary" _ (by decide))
        (frames_append (hfrBlk "Data" _ (by decide)) (hnil _)))
      (by decide) (by decide) (by decide)
  · exact hfinish (roleBlock ext msg 0 "Display" ++ roleBlock ext msg 0 "Header")
      (roleBlock ext msg 0 "Data" ++ [])
      (by rw [typographySteps_blocks]; simp)
      (frames_append (hfrBlk "Display" _ (by decide)) (hfrBlk "Header" _ (by decide)))
      (frames_append (hfrBlk "Display" _ (by decide)) (hfrBlk "Header" _ (by decide)))
      (frames_append (hfrBlk "Data" _ (by decide)) (hnil _))
      (frames_append (hfrBlk "Data" _ (by decide)) (hnil _))
      (by decide) (by decide) (by decide)
  · exact hfinish (roleBlock ext msg 0 "Display" ++ (roleBlock ext msg 0 "Header" ++
        roleBlock ext msg 0 "Primary")) []
      (by rw [typographySteps_blocks]; simp)
      (frames_append (hfrBlk "Display" _ (by decide))
        (frames_append (hfrBlk "Header" _ (by decide)) (hfrBlk "Primary" _ (by decide))))
      (frames_append (hfrBlk "Display" _ (by decide))
        (frames_append (hfrBlk "Header" _ (by decide)) (hfrBlk "Primary" _ (by decide))))
      (hnil _) (hnil _)
      (by decide) (by decide) (by decide)

theorem c8_witness :
    ∃ hd : HandlerData,
      runGenerate extNoFonts (mkMsg "#3366CC") emptyStore =
        (runStoreOk extNoFonts (mkMsg "#3366CC") hd, none) ∧
      (∀ f, resolveFont extNoFonts.fontLoads (fontOverrideFor (mkMsg "#3366CC") "Data")
          (typDefault "Data") = some f →
        (runStoreOk extNoFonts (mkMsg "#3366CC") hd).valueAt "Base"
          ("Typography/" ++ "Data" ++ "/Font") 0 = some (.strV f.family) ∧
        (runStoreOk extNoFonts (mkMsg "#3366CC") hd).valueAt "Base"
          ("Typography/" ++ "Data" ++ "/Style") 0 = some (.strV f.style)) ∧
      (resolveFont extNoFonts.fontLoads (fontOverrideFor (mkMsg "#3366CC") "Data")
          (typDefault "Data") = none →
        (runStoreOk extNoFonts (mkMsg "#3366CC") hd).varState "Base"
          ("Typography/" ++ "Data" ++ "/Font") = none ∧
        (runStoreOk extNoFonts (mkMsg "#3366CC") hd).varState "Base"
          ("Typography/" ++ "Data" ++ "/Style") = none) :=
  c8_typography_fallback extNoFonts (mkMsg "#3366CC") (by unfold ValidMsg; decide)
    "Data" (by decide)

end Caldera

namespace Caldera

/-- C4: the neutral derivation keeps the primary hue and lightness and
forces saturation to the constant 2, and its palette is exactly
`generateTonalPalette(baseHex, tones)`; on the spec example `#3366CC`
(HSL 220/60/50) the neutral base `#7d7f82` re-reads as HSL 216/2/50 —
saturation exactly 2, lightness exact, hue within rounding tolerance. -/
theorem c4_neutral_from_primary (ext : Ext) (primaryHex : String) (tones : List Nat)
    (pal : List (Nat × String)) (baseHex : String)
    (hres : generateNeutralFromPrimary ext primaryHex tones = some (pal, baseHex)) :
    (∃ seed : Rgb, parseHex primaryHex = some seed ∧
      hexToHsl primaryHex = some (rgbToHsl seed) ∧
      baseHex = rgbToHex (hslToRgb (rgbToHsl seed).h 2 (rgbToHsl seed).l) ∧
      generateTonalPalette ext baseHex tones = some pal) ∧
    hexToHsl "#3366CC" = some ⟨220, 60, 50⟩ ∧
    rgbToHex (hslToRgb 220 2 50) = "#7d7f82" ∧
    hexToHsl "#7d7f82" = some ⟨216, 2, 50⟩ ∧
    ((220 : ℤ) - 216).natAbs ≤ 4 := by
  refine ⟨?_, by with_unfolding_all decide, by with_unfolding_all decide,
    by with_unfolding_all decide, by decide⟩
  unfold generateNeutralFromPrimary at hres
  cases hseed : parseHex primaryHex with
  | none =>
    rw [hseed] at hres
    cases hres
  | some seed =>
    rw [hseed] at hres
    dsimp only [Option.bind, bind, Option.some_bind] at hres
    cases hpal : generateTonalPalette ext
        (rgbToHex (hslToRgb (rgbToHsl seed).h 2 (rgbToHsl seed).l)) tones with
    | none =>
      rw [hpal] at hres
      cases hres
    | some pal2 =>
      rw [hpal] at hres
      injection hres with h2
      injection h2 with hp hb
      subst hp
      subst hb
      refine ⟨seed, rfl, ?_, rfl, hpal⟩
      unfold hexToHsl
      rw [hseed]
      rfl

end Caldera

namespace Caldera

theorem c4_witness :
    (∃ seed : Rgb, parseHex "#3366CC" = some seed ∧
      hexToHsl "#3366CC" = some (rgbToHsl seed) ∧
      "#7d7f82" = rgbToHex (hslToRgb (rgbToHsl seed).h 2 (rgbToHsl seed).l) ∧
      generateTonalPalette extSample "#7d7f82" [50] = some [(50, "#320203")]) ∧
    hexToHsl "#3366CC" = some ⟨220, 60, 50⟩ ∧
    rgbToHex (hslToRgb 220 2 50) = "#7d7f82" ∧
    hexToHsl "#7d7f82" = some ⟨216, 2, 50⟩ ∧
    ((220 : ℤ) - 216).natAbs ≤ 4 :=
  c4_neutral_from_primary extSample "#3366CC" [50] [(50, "#320203")] "#7d7f82"
    (by with_unfolding_all decide)

end Caldera

namespace Caldera

/-! ### Validation failure paths -/

theorem genPalette_none (ext : Ext) (hex : String) (tones : List Nat)
    (h : hexOk hex = false) : generateTonalPalette ext hex tones = none := by
  simp only [hexOk] at h
  unfold generateTonalPalette
  cases hp : parseHex hex with
  | none => rfl
  | some seed =>
    rw [hp] at h
    cases h

theorem optPaletteOk_false (ext : Ext) (o : Option String) (h : ovOk o = false) :
    optPaletteOk ext o = false := by
  cases o with
  | none => cases h
  | some hx =>
    simp only [ovOk] at h
    unfold optPaletteOk
    dsimp only
    rw [genPalette_none ext hx fullTones h]
    rfl

theorem neutralData_none (ext : Ext) (msg : GenMsg) (h : ovOk msg.neutralHex = false) :
    neutralData ext msg = none := by
  unfold neutralData
  cases hn : msg.neutralHex with
  | none =>
    rw [hn] at h
    cases h
  | some nh =>
    rw [hn] at h
    simp only [ovOk] at h
    dsimp only
    rw [genPalette_none ext nh fullTones h]
    rfl

theorem statusSection_bad (ext : Ext) (m : Nat) (name : String) (hue chroma : Nat)
    (o : String) (h : hexOk o = false) :
    statusSection ext m name hue chroma (some o) = none := by
  simp only [hexOk] at h
  simp only [statusSection]
  cases ho : parseHex o with
  | none => rfl
  | some seed =>
    rw [ho] at h
    cases h

theorem buildBase_failure (ext : Ext) (msg : GenMsg) (hd : HandlerData) (s : Store)
    (hs : ovOk msg.successHex = true) (hw : ovOk msg.warningHex = true)
    (hi : ovOk msg.infoHex = true) (hf : ovOk msg.failureHex = false) :
    buildBase ext msg hd s =
      (applySteps (s.ensureColl "Base" "Caldera")
        (basePreSteps msg hd ((s.ensureColl "Base" "Caldera").collMode0 "Base") ++
          (statusSectionOk ext ((s.ensureColl "Base" "Caldera").collMode0 "Base")
            "Success" 150 66 msg.successHex ++
          (statusSectionOk ext ((s.ensureColl "Base" "Caldera").collMode0 "Base")
            "Warning" 40 70 msg.warningHex ++
           statusSectionOk ext ((s.ensureColl "Base" "Caldera").collMode0 "Base")
            "Info" 260 84 msg.infoHex))),
       some .collectionsError) := by
  unfold buildBase
  dsimp only
  rw [statusSection_ok ext _ "Success" 150 66 msg.successHex hs,
    statusSection_ok ext _ "Warning" 40 70 msg.warningHex hw,
    statusSection_ok ext _ "Info" 260 84 msg.infoHex hi]
  cases hfx : msg.failureHex with
  | none =>
    rw [hfx] at hf
    cases hf
  | some o =>
    rw [hfx] at hf
    simp only [ovOk] at hf
    rw [statusSection_bad ext _ "Failure" 25 84 o hf]
    dsimp only
    rw [applySteps_append, applySteps_append, applySteps_append]

theorem runGenerate_empty_failureHex (ext : Ext) (msg : GenMsg)
    (h1 : hexOk msg.hex = true) (h2 : ovOk msg.neutralHex = true)
    (h3 : ovOk msg.successHex = true) (h4 : ovOk msg.warningHex = true)
    (h5 : ovOk msg.infoHex = true) (hf : ovOk msg.failureHex = false) :
    ∃ hd : HandlerData, hexOk hd.neutralBaseHex = true ∧
      runGenerate ext msg emptyStore = (runStoreFail ext msg hd, some .collectionsError) := by
  have h1b := h1
  simp only [hexOk] at h1b
  cases hp : parseHex msg.hex with
  | none =>
    rw [hp] at h1b
    cases h1b
  | some rp =>
    obtain ⟨nd, hnd, hndOk⟩ := neutralData_valid ext msg h1 h2
    refine ⟨⟨fullTones.map (fun t => (t, rgbToHex (ext.toneOfSeed rp t))), nd.1, nd.2⟩,
      hndOk, ?_⟩
    unfold runGenerate
    rw [show generateTonalPalette ext msg.hex fullTones =
          some (fullTones.map (fun t => (t, rgbToHex (ext.toneOfSeed rp t))))
        from by simp [generateTonalPalette, hp]]
    rw [hnd]
    dsimp only
    rw [if_pos (optPaletteOk_of ext h3), if_pos (optPaletteOk_of ext h4),
      if_pos (optPaletteOk_of ext h5)]
    unfold buildAll
    rw [buildBase_failure ext msg _ emptyStore h3 h4 h5 hf]
    rfl

end Caldera

namespace Caldera

theorem runStoreFail_info_isSome (ext : Ext) (msg : GenMsg) (hd : HandlerData)
    (h5 : ovOk msg.infoHex = true) :
    ((runStoreFail ext msg hd).valueAt "Base" "Colors/Info/Base" 0).isSome = true := by
  show ((runStoreFail ext msg hd).valueAt "Base" ("Colors/" ++ "Info" ++ "/Base") 0).isSome
    = true
  unfold runStoreFail
  rw [show basePreSteps msg hd 0 ++
      (statusSectionOk ext 0 "Success" 150 66 msg.successHex ++
      (statusSectionOk ext 0 "Warning" 40 70 msg.warningHex ++
       statusSectionOk ext 0 "Info" 260 84 msg.infoHex)) =
      (basePreSteps msg hd 0 ++ (statusSectionOk ext 0 "Success" 150 66 msg.successHex ++
        statusSectionOk ext 0 "Warning" 40 70 msg.warningHex)) ++
      statusSectionOk ext 0 "Info" 260 84 msg.infoHex ++ [] from by simp]
  have hnil : ∀ st ∈ ([] : List Step),
      stepTouches "Base" ("Colors/" ++ "Info" ++ "/Base") st = false :=
    fun st hst => absurd hst (List.not_mem_nil st)
  cases hio : msg.infoHex with
  | none =>
    rw [valueAt_statusBase_none baseStart ext 0 "Info" 260 84 _ [] rfl hnil]
    rfl
  | some o =>
    rw [hio] at h5
    simp only [ovOk, hexOk] at h5
    obtain ⟨seed, hp⟩ := Option.isSome_iff_exists.1 h5
    rw [valueAt_statusBase_some baseStart ext 0 "Info" 260 84 o seed hp _ [] rfl hnil]
    rfl

theorem runStoreFail_colls (ext : Ext) (msg : GenMsg) (hd : HandlerData) :
    (runStoreFail ext msg hd).findColl "Theme" = none ∧
    (runStoreFail ext msg hd).findColl "Bridge" = none := by
  have hn : (runStoreFail ext msg hd).collections.map (fun c => c.name) = ["Base"] := by
    unfold runStoreFail
    rw [collNames_applySteps]
    rfl
  constructor
  · exact find?_eq_none_of_names _ _ (name_ne_of_names hn "Theme" (by decide))
  · exact find?_eq_none_of_names _ _ (name_ne_of_names hn "Bridge" (by decide))

/-- C3 (corrected): the handler validates the primary, neutral, success,
warning and info hexes before any store write — any of them malformed
aborts with `invalidColorFormat` and an untouched store; the failure
override is not validated up front: a malformed failure hex throws only
inside `createBaseCollection`, after the primary/neutral and
Success/Warning/Info sections are already written (Theme and Bridge are
never created), surfacing as the caught `collectionsError`. -/
theorem c3_validate_then_write (ext : Ext) (msg : GenMsg) (s0 : Store) :
    ((hexOk msg.hex = false ∨ ovOk msg.neutralHex = false ∨ ovOk msg.successHex = false ∨
      ovOk msg.warningHex = false ∨ ovOk msg.infoHex = false) →
      runGenerate ext msg s0 = (s0, some .invalidColorFormat)) ∧
    (hexOk msg.hex = true → ovOk msg.neutralHex = true → ovOk msg.successHex = true →
      ovOk msg.warningHex = true → ovOk msg.infoHex = true → ovOk msg.failureHex = false →
      ∃ hd : HandlerData,
        runGenerate ext msg emptyStore = (runStoreFail ext msg hd, some .collectionsError) ∧
        ((runStoreFail ext msg hd).valueAt "Base" "Colors/Info/Base" 0).isSome = true ∧
        (runStoreFail ext msg hd).findColl "Theme" = none ∧
        (runStoreFail ext msg hd).findColl "Bridge" = none) := by
  constructor
  · intro hdisj
    unfold runGenerate
    rcases hdisj with h | h | h | h | h
    · rw [genPalette_none ext msg.hex fullTones h]
    · cases hp : generateTonalPalette ext msg.hex fullTones with
      | none => rfl
      | some pal => rw [neutralData_none ext msg h]
    · cases hp : generateTonalPalette ext msg.hex fullTones with
      | none => rfl
      | some pal =>
        cases hn : neutralData ext msg with
        | none => rfl
        | some nd =>
          dsimp only
          rw [optPaletteOk_false ext msg.successHex h]
          rfl
    · cases hp : generateTonalPalette ext msg.hex fullTones with
      | none => rfl
      | some pal =>
        cases hn : neutralData ext msg with
        | none => rfl
        | some nd =>
          dsimp only
          cases hsuc : optPaletteOk ext msg.successHex
          · rfl
          · rw [if_pos rfl, optPaletteOk_false ext msg.warningHex h]
            rfl
    · cases hp : generateTonalPalette ext msg.hex fullTones with
      | none => rfl
      | some pal =>
        cases hn : neutralData ext msg with
        | none => rfl
        | some nd =>
          dsimp only
          cases hsuc : optPaletteOk ext msg.successHex
          · rfl
          · rw [if_pos rfl]
            cases hwar : optPaletteOk ext msg.warningHex
            · rfl
            · rw [if_pos rfl, optPaletteOk_false ext msg.infoHex h]
              rfl
  · intro h1 h2 h3 h4 h5 hf
    obtain ⟨hd, hdOk, hrun⟩ := runGenerate_empty_failureHex ext msg h1 h2 h3 h4 h5 hf
    exact ⟨hd, hrun, runStoreFail_info_isSome ext msg hd h5,
      (runStoreFail_colls ext msg hd).1, (runStoreFail_colls ext msg hd).2⟩

/-- The original C3 is false on this code: a malformed failure override
leaves Success/Warning/Info Base writes in the store when the error is
raised. -/
theorem c3_counterexample :
    ((runGenerate extSample { mkMsg "#3366CC" with failureHex := some "nothex" }
        emptyStore).1.valueAt "Base" "Colors/Info/Base" 0).isSome = true ∧
    (runGenerate extSample { mkMsg "#3366CC" with failureHex := some "nothex" }
        emptyStore).2 = some .collectionsError := by
  obtain ⟨hd, hdOk, hrun⟩ := runGenerate_empty_failureHex extSample
    { mkMsg "#3366CC" with failureHex := some "nothex" } (by decide) (by decide)
    (by decide) (by decide) (by decide) (by decide)
  rw [hrun]
  exact ⟨runStoreFail_info_isSome _ _ hd (by decide), rfl⟩

end Caldera

namespace Caldera

/-! ### Export color rendering facts -/

theorem isHexDigit_hexDigitChar : ∀ i : Fin 16, isHexDigit (hexDigitChar i.val) = true := by
  decide

theorem isHex6_toHexE (c : Rgb) : isHex6 (toHexE c) = true := by
  obtain ⟨r, g, b⟩ := c
  have hdig : ∀ n : Nat, n < 16 → isHexDigit (hexDigitChar n) = true := fun n hn =>
    isHexDigit_hexDigitChar ⟨n, hn⟩
  have hdiv : ∀ x : Fin 256, x.val / 16 < 16 := fun x =>
    Nat.div_lt_of_lt_mul (by omega)
  have hmod : ∀ x : Fin 256, x.val % 16 < 16 := fun x => Nat.mod_lt _ (by norm_num)
  show isHex6 (String.mk ('#' :: (byteChars r ++ byteChars g ++ byteChars b))) = true
  have hlist : ('#' :: (byteChars r ++ byteChars g ++ byteChars b)) =
      ['#', hexDigitChar (r.val / 16), hexDigitChar (r.val % 16),
       hexDigitChar (g.val / 16), hexDigitChar (g.val % 16),
       hexDigitChar (b.val / 16), hexDigitChar (b.val % 16)] := rfl
  rw [hlist]
  show (((6 : Nat) == 6) && [hexDigitChar (r.val / 16), hexDigitChar (r.val % 16),
       hexDigitChar (g.val / 16), hexDigitChar (g.val % 16),
       hexDigitChar (b.val / 16), hexDigitChar (b.val % 16)].all isHexDigit) = true
  simp only [List.all_cons, List.all_nil, Bool.and_true]
  rw [hdig _ (hdiv r), hdig _ (hmod r), hdig _ (hdiv g), hdig _ (hmod g),
    hdig _ (hdiv b), hdig _ (hmod b)]
  rfl

theorem jsRound_intCast (n : ℤ) : jsRound ((n : ℚ)) = n := by
  unfold jsRound
  rw [add_comm, Int.floor_add_int]
  norm_num

theorem round2_abs_le (a : ℚ) : |round2 a - a| ≤ 1 / 200 := by
  have h1 : (jsRound (a * 100) : ℚ) ≤ a * 100 + 1 / 2 := by
    unfold jsRound
    exact_mod_cast Int.floor_le (a * 100 + 1 / 2)
  have h2 : a * 100 + 1 / 2 - 1 < (jsRound (a * 100) : ℚ) := by
    unfold jsRound
    exact_mod_cast Int.sub_one_lt_floor (a * 100 + 1 / 2)
  have heq : round2 a - a = ((jsRound (a * 100) : ℚ) - a * 100) / 100 := by
    unfold round2
    ring
  rw [heq, abs_div]
  rw [show |(100 : ℚ)| = 100 by norm_num]
  rw [div_le_iff (by norm_num : (0 : ℚ) < 100)]
  rw [abs_le]
  constructor <;> linarith

theorem qStr_round2_norm (a : ℚ) :
    qStr (round2 a) = qStr (round2 (((jsRound (a * 100)).toNat : ℚ) / 100)) := by
  have hjrL : jsRound (round2 a * 100) = jsRound (a * 100) := by
    have h0 : round2 a * 100 = ((jsRound (a * 100) : ℤ) : ℚ) := by
      unfold round2
      ring
    rw [h0, jsRound_intCast]
  have hjrR : jsRound (round2 (((jsRound (a * 100)).toNat : ℚ) / 100) * 100) =
      (((jsRound (a * 100)).toNat : ℤ)) := by
    have h1 : jsRound (((jsRound (a * 100)).toNat : ℚ) / 100 * 100) =
        (((jsRound (a * 100)).toNat : ℤ)) := by
      rw [div_mul_cancel₀ _ (by norm_num : (100 : ℚ) ≠ 0)]
      rw [show (((jsRound (a * 100)).toNat : ℚ)) = ((((jsRound (a * 100)).toNat : ℤ)) : ℚ)
        from by push_cast; rfl]
      exact jsRound_intCast _
    have h0 : round2 (((jsRound (a * 100)).toNat : ℚ) / 100) * 100 =
        ((jsRound (((jsRound (a * 100)).toNat : ℚ) / 100 * 100) : ℤ) : ℚ) := by
      unfold round2
      ring
    rw [h0, h1, jsRound_intCast]
  unfold qStr
  rw [hjrL, hjrR, Int.toNat_natCast]

theorem toRgbaString_norm (c : Rgb) (a : ℚ) :
    toRgbaString c a = toRgbaString c (((jsRound (a * 100)).toNat : ℚ) / 100) := by
  unfold toRgbaString
  rw [qStr_round2_norm a]

theorem jsRound_le_of_lt_one (a : ℚ) (h : a < 1) : (jsRound (a * 100)).toNat ≤ 100 := by
  have : jsRound (a * 100) ≤ 100 := by
    unfold jsRound
    rw [show ((100 : ℤ)) = 101 - 1 by ring]
    rw [Int.le_sub_one_iff]
    rw [Int.floor_lt]
    push_cast
    linarith
  omega

end Caldera

namespace Caldera

/-- C9: the export is an array holding exactly one object whose keys are
Base plus Theme and Bridge when those collections exist; a Base color
leaf carries `$type` color and `$value` `fmtColorValue`, which renders a
six-digit hex exactly when alpha is 1 and otherwise an rgba string whose
alpha is rounded to two decimals. -/
theorem c9_export_shape (s : Store) (bc : Collection) (hbc : s.findColl "Base" = some bc) :
    (∃ fs, exportThemeAsJson s = some (.arr [.obj fs]) ∧
      fs.map Prod.fst = ["Base"] ++
        (match s.findColl "Theme" with
         | some _ => ["Theme"]
         | none => ([] : List String)) ++
        (match s.findColl "Bridge" with
         | some _ => ["Bridge"]
         | none => ([] : List String))) ∧
    (∀ (m0 : Nat) (bk : BaseBuckets) (v : Variable) (rgb : Rgb) (a : ℚ),
      (splitPath v.name).headD "" = "Colors" →
      lookupMode v.values m0 = some (.colorV rgb a) →
      (exportBaseVar m0 bk v).colors =
        insertPath bk.colors ((splitPath v.name).drop 1)
          (Json.obj [("$scopes", .arr [.str "ALL_SCOPES"]), ("$type", .str "color"),
                     ("$value", .str (fmtColorValue rgb a))]) ∧
      (exportBaseVar m0 bk v).typ = bk.typ ∧
      (exportBaseVar m0 bk v).spacing = bk.spacing ∧
      (exportBaseVar m0 bk v).corners = bk.corners) ∧
    (∀ rgb : Rgb, fmtColorValue rgb 1 = toHexE rgb ∧ isHex6 (toHexE rgb) = true) ∧
    (∀ (rgb : Rgb) (a : ℚ), a < 1 →
      fmtColorValue rgb a = toRgbaString rgb a ∧
      |round2 a - a| ≤ 1 / 200 ∧
      ∃ k : ℕ, k ≤ 100 ∧ toRgbaString rgb a = toRgbaString rgb ((k : ℚ) / 100)) := by
  refine ⟨?_, ?_, ?_, ?_⟩
  · unfold exportThemeAsJson
    rw [hbc]
    dsimp only
    refine ⟨_, rfl, ?_⟩
    cases hT : s.findColl "Theme" <;> cases hB : s.findColl "Bridge" <;> simp
  · intro m0 bk v rgb a hroot hlook
    unfold exportBaseVar
    dsimp only
    rw [hroot, if_pos rfl, hlook]
    exact ⟨rfl, rfl, rfl, rfl⟩
  · intro rgb
    refine ⟨?_, isHex6_toHexE rgb⟩
    unfold fmtColorValue
    rw [if_neg (by norm_num)]
  · intro rgb a ha
    refine ⟨?_, round2_abs_le a, (jsRound (a * 100)).toNat, jsRound_le_of_lt_one a ha,
      toRgbaString_norm rgb a⟩
    unfold fmtColorValue
    rw [if_pos ha]

theorem c9_witness :
    (∃ fs, exportThemeAsJson
        (⟨[⟨"Base", [(0, "Caldera")],
           [⟨0, "Colors/Primary/Base", .color, [], [(0, .colorV ⟨51, 102, 204⟩ 1)]⟩]⟩], 1, 1⟩ :
          Store) = some (.arr [.obj fs]) ∧
      fs.map Prod.fst = ["Base"] ++
        (match (⟨[⟨"Base", [(0, "Caldera")],
           [⟨0, "Colors/Primary/Base", .color, [], [(0, .colorV ⟨51, 102, 204⟩ 1)]⟩]⟩], 1, 1⟩ :
          Store).findColl "Theme" with
         | some _ => ["Theme"]
         | none => ([] : List String)) ++
        (match (⟨[⟨"Base", [(0, "Caldera")],
           [⟨0, "Colors/Primary/Base", .color, [], [(0, .colorV ⟨51, 102, 204⟩ 1)]⟩]⟩], 1, 1⟩ :
          Store).findColl "Bridge" with
         | some _ => ["Bridge"]
         | none => ([] : List String))) ∧
    (∀ (m0 : Nat) (bk : BaseBuckets) (v : Variable) (rgb : Rgb) (a : ℚ),
      (splitPath v.name).headD "" = "Colors" →
      lookupMode v.values m0 = some (.colorV rgb a) →
      (exportBaseVar m0 bk v).colors =
        insertPath bk.colors ((splitPath v.name).drop 1)
          (Json.obj [("$scopes", .arr [.str "ALL_SCOPES"]), ("$type", .str "color"),
                     ("$value", .str (fmtColorValue rgb a))]) ∧
      (exportBaseVar m0 bk v).typ = bk.typ ∧
      (exportBaseVar m0 bk v).spacing = bk.spacing ∧
      (exportBaseVar m0 bk v).corners = bk.corners) ∧
    (∀ rgb : Rgb, fmtColorValue rgb 1 = toHexE rgb ∧ isHex6 (toHexE rgb) = true) ∧
    (∀ (rgb : Rgb) (a : ℚ), a < 1 →
      fmtColorValue rgb a = toRgbaString rgb a ∧
      |round2 a - a| ≤ 1 / 200 ∧
      ∃ k : ℕ, k ≤ 100 ∧ toRgbaString rgb a = toRgbaString rgb ((k : ℚ) / 100)) :=
  c9_export_shape
    (⟨[⟨"Base", [(0, "Caldera")],
       [⟨0, "Colors/Primary/Base", .color, [], [(0, .colorV ⟨51, 102, 204⟩ 1)]⟩]⟩], 1, 1⟩ :
      Store)
    ⟨"Base", [(0, "Caldera")],
       [⟨0, "Colors/Primary/Base", .color, [], [(0, .colorV ⟨51, 102, 204⟩ 1)]⟩]⟩ rfl

end Caldera

namespace Caldera

/-- C10: a Bridge variable whose name lacks `/Padding` is exported as a
boolean leaf with `$scopes` ALL_SCOPES, its value coerced: alias to
true, color to alpha > 0, number to value > 0, boolean kept — so a fully
transparent disabled background exports as `false`, never as a color or
reference. -/
theorem c10_bridge_boolean_coercion (s : Store) (bm : Nat)
    (bucket : List (String × Json)) (bv : Variable) (val : VarValue)
    (hlook : lookupMode bv.values bm = some val)
    (hnp : hasSubstr bv.name "/Padding" = false) :
    exportBridgeVar s bm bucket bv =
      insertPath bucket (splitPath bv.name) (boolLeaf (coerceBridgeBool val)) ∧
    boolLeaf (coerceBridgeBool val) =
      .obj [("$scopes", .arr [.str "ALL_SCOPES"]), ("$type", .str "boolean"),
            ("$value", .bool (coerceBridgeBool val))] ∧
    (∀ i : Nat, coerceBridgeBool (.aliasV i) = true) ∧
    (∀ (c : Rgb) (a : ℚ), coerceBridgeBool (.colorV c a) = decide (a > 0)) ∧
    (∀ q : ℚ, coerceBridgeBool (.floatV q) = decide (q > 0)) ∧
    (∀ b : Bool, coerceBridgeBool (.boolV b) = b) ∧
    coerceBridgeBool (.colorV ⟨0, 0, 0⟩ 0) = false := by
  refine ⟨?_, rfl, fun i => rfl, fun c a => rfl, fun q => rfl, fun b => rfl,
    by with_unfolding_all decide⟩
  unfold exportBridgeVar
  rw [hlook]
  dsimp only
  rw [hnp]
  rfl

theorem c10_witness :
    exportBridgeVar emptyStore 3 []
        ⟨0, "Modal/Background", .color, [], [(3, .colorV ⟨0, 0, 0⟩ 0)]⟩ =
      insertPath [] (splitPath "Modal/Background")
        (boolLeaf (coerceBridgeBool (.colorV ⟨0, 0, 0⟩ 0))) ∧
    boolLeaf (coerceBridgeBool (VarValue.colorV ⟨0, 0, 0⟩ 0)) =
      .obj [("$scopes", .arr [.str "ALL_SCOPES"]), ("$type", .str "boolean"),
            ("$value", .bool (coerceBridgeBool (.colorV ⟨0, 0, 0⟩ 0)))] ∧
    (∀ i : Nat, coerceBridgeBool (.aliasV i) = true) ∧
    (∀ (c : Rgb) (a : ℚ), coerceBridgeBool (.colorV c a) = decide (a > 0)) ∧
    (∀ q : ℚ, coerceBridgeBool (.floatV q) = decide (q > 0)) ∧
    (∀ b : Bool, coerceBridgeBool (.boolV b) = b) ∧
    coerceBridgeBool (.colorV ⟨0, 0, 0⟩ 0) = false :=
  c10_bridge_boolean_coercion emptyStore 3 []
    ⟨0, "Modal/Background", .color, [], [(3, .colorV ⟨0, 0, 0⟩ 0)]⟩
    (.colorV ⟨0, 0, 0⟩ 0) rfl (by decide)

end Caldera
